import Mathlib

/-!
# Verito analysis page: report acquisition flow

A shallow embedding of `src/app/analysis/page.js` (the `useEffect` that defines and
runs `loadReport`, its cleanup, the saved-report normalisation, the early returns of the
render, the score bands, the 'Direct Competitor' flag and `handleDeepScan`) and of the
hostname shown by `CompetitorCard` in `components/DeepScanPanel.jsx`, followed by the
theorems that settle the claims made about them.

Modelling conventions

* JavaScript values are the type `JSVal`.  JSON numbers are restricted to integers
  (`Int`), strings to the characters a Lean `String` can hold.
* `loadReport` is an `async` function: it runs synchronously up to an `await`, is
  suspended there, and is resumed when the awaited promise settles.  A suspended call
  is a `Run` (the props it closed over and the `await` it waits at, a `Pc`); the page
  is a `World` (React state, the two refs, live timers, the log of network calls and
  of `router.replace` calls, and all runs).  `step` executes one event of the
  single-threaded event loop: an effect run, an effect cleanup, the settlement of one
  awaited promise, or one timer tick.
* Functional `setState` calls are applied in program order, so the `World` after an
  event holds the state the next render sees.
* The collaborators `router.replace`, `triggerHistoryRefresh`, `console.log` and
  `console.error` return normally; `router.replace` calls and history refreshes are
  recorded in the `World`. The promises of `user.getIdToken()`, `fetch` and
  `response.json()` settle as the events say, and each may reject.
-/

namespace Verito

/-! ## JavaScript values -/

/-- JavaScript values that can reach the page from `response.json()`, plus `undefined`. -/
inductive JSVal where
  | undefined
  | null
  | bool (b : Bool)
  | num (n : Int)
  | str (s : String)
  | arr (xs : List JSVal)
  | obj (kvs : List (String × JSVal))
  deriving Repr, Inhabited

mutual
/-- Decidable equality of values. -/
def JSVal.decEq : (a b : JSVal) → Decidable (a = b)
  | .undefined, .undefined => isTrue rfl
  | .null, .null => isTrue rfl
  | .bool a, .bool b =>
    if h : a = b then isTrue (by rw [h]) else isFalse (by intro e; cases e; exact h rfl)
  | .num a, .num b =>
    if h : a = b then isTrue (by rw [h]) else isFalse (by intro e; cases e; exact h rfl)
  | .str a, .str b =>
    if h : a = b then isTrue (by rw [h]) else isFalse (by intro e; cases e; exact h rfl)
  | .arr a, .arr b =>
    match JSVal.decEqList a b with
    | isTrue h => isTrue (by rw [h])
    | isFalse h => isFalse (by intro e; cases e; exact h rfl)
  | .obj a, .obj b =>
    match JSVal.decEqProps a b with
    | isTrue h => isTrue (by rw [h])
    | isFalse h => isFalse (by intro e; cases e; exact h rfl)
  | .undefined, .null | .undefined, .bool _ | .undefined, .num _ | .undefined, .str _
  | .undefined, .arr _ | .undefined, .obj _ => isFalse (by intro e; cases e)
  | .null, .undefined | .null, .bool _ | .null, .num _ | .null, .str _
  | .null, .arr _ | .null, .obj _ => isFalse (by intro e; cases e)
  | .bool _, .undefined | .bool _, .null | .bool _, .num _ | .bool _, .str _
  | .bool _, .arr _ | .bool _, .obj _ => isFalse (by intro e; cases e)
  | .num _, .undefined | .num _, .null | .num _, .bool _ | .num _, .str _
  | .num _, .arr _ | .num _, .obj _ => isFalse (by intro e; cases e)
  | .str _, .undefined | .str _, .null | .str _, .bool _ | .str _, .num _
  | .str _, .arr _ | .str _, .obj _ => isFalse (by intro e; cases e)
  | .arr _, .undefined | .arr _, .null | .arr _, .bool _ | .arr _, .num _
  | .arr _, .str _ | .arr _, .obj _ => isFalse (by intro e; cases e)
  | .obj _, .undefined | .obj _, .null | .obj _, .bool _ | .obj _, .num _
  | .obj _, .str _ | .obj _, .arr _ => isFalse (by intro e; cases e)
termination_by structural a => a
/-- Decidable equality of arrays of values. -/
def JSVal.decEqList : (a b : List JSVal) → Decidable (a = b)
  | [], [] => isTrue rfl
  | [], _ :: _ => isFalse (by intro e; cases e)
  | _ :: _, [] => isFalse (by intro e; cases e)
  | x :: xs, y :: ys =>
    match JSVal.decEq x y, JSVal.decEqList xs ys with
    | isTrue h1, isTrue h2 => isTrue (by rw [h1, h2])
    | isFalse h, _ => isFalse (by intro e; cases e; exact h rfl)
    | _, isFalse h => isFalse (by intro e; cases e; exact h rfl)
termination_by structural a => a
/-- Decidable equality of object entries. -/
def JSVal.decEqProps : (a b : List (String × JSVal)) → Decidable (a = b)
  | [], [] => isTrue rfl
  | [], _ :: _ => isFalse (by intro e; cases e)
  | _ :: _, [] => isFalse (by intro e; cases e)
  | (k, x) :: xs, (l, y) :: ys =>
    if hk : k = l then
      match JSVal.decEq x y, JSVal.decEqProps xs ys with
      | isTrue h1, isTrue h2 => isTrue (by rw [hk, h1, h2])
      | isFalse h, _ => isFalse (by intro e; cases e; exact h rfl)
      | _, isFalse h => isFalse (by intro e; cases e; exact h rfl)
    else isFalse (by intro e; cases e; exact hk rfl)
termination_by structural a => a
end

instance : DecidableEq JSVal := JSVal.decEq

/-- JavaScript truthiness (`ToBoolean`). -/
def JSVal.truthy : JSVal → Bool
  | .undefined => false
  | .null => false
  | .bool b => b
  | .num n => n != 0
  | .str s => s != ""
  | .arr _ => true
  | .obj _ => true

/-- The JavaScript expression `a || b`. -/
def JSVal.or (a b : JSVal) : JSVal := if a.truthy then a else b

/-- Own property `k` of an object given by its entries; a later entry with the same key
overrides an earlier one, as in `JSON.parse`. Absent keys read as `undefined`. -/
def getOwn (kvs : List (String × JSVal)) (k : String) : JSVal :=
  match kvs.reverse.lookup k with
  | some v => v
  | none => .undefined

/-- Message of the `TypeError` raised by reading property `k` of `null` or `undefined`
(the wording of V8; the text is engine specific). -/
def readError (receiver k : String) : String :=
  "Cannot read properties of " ++ receiver ++ " (reading '" ++ k ++ "')"

/-- Property read `v.k` on a receiver that is not `null`/`undefined`, and the optional
chaining read `v?.k` on any receiver. None of the property names the page reads from a
payload (`brandName`, `category`, `overallScore`, `recommendation`, `scores`,
`domainStrength`, `competitionIntensity`, `seoDifficulty`, `detailedAnalysis`,
`domainAvailability`, `googleCompetition`, `topResults`, `source`, `analysisTime`,
`date`, `message`, `deepScans`, `success`, `data`, `error`) exists on a built-in
prototype, so primitives and arrays read as `undefined`. The name `link`, which strings
do have, is read by `linkOf`. -/
def JSVal.prop (v : JSVal) (k : String) : JSVal :=
  match v with
  | .obj kvs => getOwn kvs k
  | _ => .undefined

/-- Property read `v.k`: throws a `TypeError` on `null` and `undefined`. -/
def JSVal.get (v : JSVal) (k : String) : Except String JSVal :=
  match v with
  | .undefined => .error (readError "undefined" k)
  | .null => .error (readError "null" k)
  | _ => .ok (v.prop k)

/-- Index/value pairs `("0", x0), ("1", x1), ...` of a list, starting at index `i`. -/
def indexed : Nat → List JSVal → List (String × JSVal)
  | _, [] => []
  | i, x :: xs => (toString i, x) :: indexed (i + 1) xs

/-- Own enumerable properties copied by an object spread `...v`: the entries of an
object, the indexed elements of an array, the indexed characters of a string, nothing
for `null`, `undefined`, booleans and numbers. -/
def ownEntries : JSVal → List (String × JSVal)
  | .obj kvs => kvs
  | .arr xs => indexed 0 xs
  | .str s => indexed 0 (s.toList.map (fun c => JSVal.str (String.singleton c)))
  | _ => []

/-- Define property `k := v` on an object under construction: an existing key keeps its
position and takes the new value, a new key is appended. -/
def setProp (kvs : List (String × JSVal)) (k : String) (v : JSVal) : List (String × JSVal) :=
  if kvs.any (fun p => p.1 == k) then
    kvs.map (fun p => if p.1 == k then (k, v) else p)
  else
    kvs ++ [(k, v)]

/-- Object literal `{ ...kvs, ...v }`: the properties written so far followed by a
spread of `v`. -/
def spread (kvs : List (String × JSVal)) (v : JSVal) : List (String × JSVal) :=
  (ownEntries v).foldl (fun acc p => setProp acc p.1 p.2) kvs

mutual
/-- JavaScript `ToString` on a value, as applied by `new Error(message)`. An object with
an own `toString` property (never callable in JSON) cannot be converted and raises a
`TypeError`. -/
def jsToString : JSVal → Except String String
  | .undefined => .ok "undefined"
  | .null => .ok "null"
  | .bool b => .ok (if b then "true" else "false")
  | .num n => .ok (toString n)
  | .str s => .ok s
  | .arr xs => jsJoin xs
  | .obj kvs =>
    if kvs.any (fun p => p.1 == "toString") then
      .error "Cannot convert object to primitive value"
    else
      .ok "[object Object]"
termination_by structural v => v
/-- The `Array.prototype.join(',')` behind `ToString` of an array: `null` and
`undefined` elements print as the empty string. -/
def jsJoin : List JSVal → Except String String
  | [] => .ok ""
  | .undefined :: [] => .ok ""
  | .null :: [] => .ok ""
  | x :: [] => jsToString x
  | .undefined :: rest => (jsJoin rest).map (fun t => "," ++ t)
  | .null :: rest => (jsJoin rest).map (fun t => "," ++ t)
  | x :: rest =>
    match jsToString x with
    | .error e => .error e
    | .ok s => (jsJoin rest).map (fun t => s ++ "," ++ t)
termination_by structural xs => xs
end

/-! ## URLs -/

/-- Characters `encodeURIComponent` leaves as they are: `A-Z a-z 0-9 - _ . ! ~ * ' ( )`. -/
def uriUnreserved (c : Char) : Bool :=
  c.isAlphanum || c == '-' || c == '_' || c == '.' || c == '!' || c == '~' ||
    c == '*' || c == Char.ofNat 39 || c == '(' || c == ')'

/-- Upper-case hexadecimal digit of `n < 16`. -/
def hexDigit (n : Nat) : Char :=
  if n < 10 then Char.ofNat (48 + n) else Char.ofNat (55 + n)

/-- Percent-escape `%XY` of one byte. -/
def percentByte (b : Nat) : List Char :=
  ['%', hexDigit (b / 16), hexDigit (b % 16)]

/-- Escape of one character: itself when unreserved, else its UTF-8 bytes escaped. -/
def encodeChar (c : Char) : List Char :=
  if uriUnreserved c then [c]
  else (String.utf8EncodeChar c).flatMap (fun b => percentByte b.toNat)

/-- JavaScript `encodeURIComponent`. -/
def encodeURIComponent (s : String) : String :=
  String.mk (s.toList.flatMap encodeChar)

/-- The template string of the saved-report lookup URL. -/
def viewReportUrl (brandName category : String) : String :=
  "/api/view-report?brandName=" ++ encodeURIComponent brandName ++
    "&category=" ++ encodeURIComponent category

/-- The template string of the fresh-analysis URL. -/
def analyzeUrl (brandName category : String) : String :=
  "/api/analyze?brandName=" ++ encodeURIComponent brandName ++
    "&category=" ++ encodeURIComponent category

/-- The URL handed to `router.replace` to mark the identity as saved. -/
def savedUrl (brandName category : String) : String :=
  "/analysis?brand=" ++ encodeURIComponent brandName ++
    "&category=" ++ encodeURIComponent category ++ "&view=saved"

/-! ## Saved-report normalisation -/

/-- The object `validatedData` built by `loadReport` from the parsed saved report
`data`, under the identity `(brandName, category)`; `iso` is the value of
`new Date().toISOString()`. Reading `data.brandName` throws when `data` is `null`. -/
def validatedData (brandName category iso : String) (data : JSVal) : Except String JSVal :=
  match data.get "brandName" with
  | .error e => .error e
  | .ok dBrandName =>
    let scores := data.prop "scores"
    let detailed := data.prop "detailedAnalysis"
    let google := detailed.prop "googleCompetition"
    .ok (.obj (spread
      [ ("brandName", dBrandName.or (.str brandName)),
        ("category", (data.prop "category").or (.str category)),
        ("overallScore", (data.prop "overallScore").or (.num 0)),
        ("recommendation",
          (data.prop "recommendation").or (.str "No recommendation available.")),
        ("scores", .obj (spread
          [ ("domainStrength", (scores.prop "domainStrength").or (.num 0)),
            ("competitionIntensity", (scores.prop "competitionIntensity").or (.num 0)),
            ("seoDifficulty", (scores.prop "seoDifficulty").or (.num 0)) ]
          scores)),
        ("detailedAnalysis", .obj (spread
          [ ("domainAvailability", (detailed.prop "domainAvailability").or (.arr [])),
            ("googleCompetition", .obj (spread
              [ ("topResults", (google.prop "topResults").or (.arr [])) ]
              google)) ]
          detailed)),
        ("cached", .bool true),
        ("source", (data.prop "source").or (.str "user_history")),
        ("analysisTime",
          ((data.prop "analysisTime").or (data.prop "date")).or (.str iso)) ]
      data))

/-! ## The page: props, state, runs -/

/-- The authenticated user object of `useAuth()`. -/
structure User where
  uid : String
  deriving DecidableEq, Repr

/-- What one render of the page reads from its hooks: the three search parameters
(`searchParams.get` answers `null` for an absent parameter) and the user. -/
structure Props where
  brand : Option String
  categoryParam : Option String
  view : Option String
  user : Option User
  deriving DecidableEq, Repr

/-- Truthiness of an optional string (`null` and the empty string are falsy). -/
def truthyStr : Option String → Bool
  | some s => s != ""
  | none => false

/-- The value of `brandName` inside template strings. -/
def Props.brandName (p : Props) : String := p.brand.getD ""

/-- The value of `category`: `searchParams.get('category') || 'Technology'`. -/
def Props.category (p : Props) : String :=
  if truthyStr p.categoryParam then p.categoryParam.getD "" else "Technology"

/-- The value of `viewMode === 'saved'`. -/
def Props.isSaved (p : Props) : Bool := p.view == some "saved"

/-- The dependency list of the effect: `[brandName, category, user?.uid, viewMode]`. -/
def Props.deps (p : Props) : Option String × String × Option String × Option String :=
  (p.brand, p.category, p.user.map (fun u => u.uid), p.view)

/-- Values read from the clock and the random generator while an event executes. -/
structure Env where
  now : Nat
  rnd : String
  iso : String
  deriving DecidableEq, Repr

/-- The template string `brandName_category_Date.now()_random` kept in `requestIdRef`;
it is never empty, so a stored id is always truthy. -/
structure RequestId where
  brandName : String
  category : String
  now : Nat
  rnd : String
  deriving DecidableEq, Repr

/-- The two endpoints `loadReport` calls. -/
inductive Endpoint where
  | viewReport
  | analyze
  deriving DecidableEq, Repr

/-- One `fetch` issued by run number `run`. -/
structure Request where
  run : Nat
  endpoint : Endpoint
  url : String
  token : String
  deriving DecidableEq, Repr

/-- The `await` at which a call of `loadReport` is suspended (`done`: it has returned). -/
inductive Pc where
  | savedToken
  | savedFetch
  | savedJson
  | silentToken
  | silentFetch
  | silentJson
  | freshToken
  | freshFetch
  | freshJson403
  | freshJson402
  | freshJson
  | done
  deriving DecidableEq, Repr

/-- One call of `loadReport`: the props of the render that created it and where it is. -/
structure Run where
  props : Props
  pc : Pc
  deriving DecidableEq, Repr

/-- How an awaited promise settles: `getIdToken()` resolves with a token, `fetch`
resolves with a response of some status, `response.json()` resolves with the parsed
body, and any of them may reject with an error whose `message` is given. -/
inductive Settled where
  | token (t : String)
  | response (status : Nat)
  | body (v : JSVal)
  | rejected (message : String)
  deriving DecidableEq, Repr

/-- The value of `response.ok`: the status is in the range 200-299. -/
def statusOk (status : Nat) : Bool := 200 ≤ status && status ≤ 299

/-- The page between two events. Timer handles are positive integers, so a stored
handle is truthy. -/
structure World where
  analysis : JSVal
  loading : Bool
  error : Option String
  isSearching : Bool
  loadingStage : Nat
  intervalRef : Option Nat
  requestIdRef : Option RequestId
  timers : List Nat
  nextTimer : Nat
  requests : List Request
  replaced : List String
  historyRefreshes : Nat
  runs : List Run
  deriving DecidableEq, Repr

/-- The page at mount: the initial values of `useState` and `useRef`. -/
def World.init : World :=
  { analysis := .null, loading := true, error := none, isSearching := false,
    loadingStage := 0, intervalRef := none, requestIdRef := none, timers := [],
    nextTimer := 1, requests := [], replaced := [], historyRefreshes := 0, runs := [] }

/-- The six progress messages. -/
def loadingStages : List String :=
  [ "Initializing analysis...",
    "Analyzing domain availability...",
    "AI analyzing competitors...",
    "AI evaluating SEO difficulty...",
    "Generating strategic insights...",
    "Finalizing AI recommendations..." ]

/-- The updater passed to `setLoadingStage` by the interval callback. -/
def nextStage (prev : Nat) : Nat :=
  if prev < loadingStages.length - 1 then prev + 1 else prev

/-! ## `loadReport`, segment by segment -/

/-- Move run `i` (whose record is `r`) to the await `pc`. -/
def World.suspend (W : World) (i : Nat) (r : Run) (pc : Pc) : World :=
  { W with runs := W.runs.set i { r with pc := pc } }

/-- Run `i` returns. -/
def World.finish (W : World) (i : Nat) (r : Run) : World :=
  W.suspend i r .done

/-- Log a `fetch` of run `i`. -/
def World.send (W : World) (i : Nat) (e : Endpoint) (url token : String) : World :=
  { W with requests := W.requests ++ [{ run := i, endpoint := e, url := url, token := token }] }

/-- The statement `if (intervalRef.current) { clearInterval(...); intervalRef.current = null; }`. -/
def World.clearStageTimer (W : World) : World :=
  match W.intervalRef with
  | some h => { W with timers := W.timers.filter (fun t => t != h), intervalRef := none }
  | none => W

/-- The `catch` block of the saved-mode `try`. -/
def savedCatch (W : World) (i : Nat) (r : Run) : World :=
  ({ W with error := some "Failed to load saved report. Please try again.",
            loading := false }).finish i r

/-- The `finally` block of the fresh-analysis `try`. -/
def freshFinally (W : World) (i : Nat) (r : Run) : World :=
  ({ W with loading := false, requestIdRef := none }).finish i r

/-- The `catch` block of the fresh-analysis `try`, followed by `finally`; `message` is
`err.message`. -/
def freshCatch (W : World) (i : Nat) (r : Run) (message : String) : World :=
  let W1 := W.clearStageTimer
  let shown := if message != "" then message
    else "Failed to analyze brand name. Please try again."
  freshFinally { W1 with error := some shown } i r

/-- The code from `// Otherwise, perform fresh analysis` up to the first `await` inside
the fresh-analysis `try`. -/
def freshStep (W : World) (i : Nat) (r : Run) (env : Env) : World :=
  match W.requestIdRef with
  | some _ => W.finish i r
  | none =>
    let h := W.nextTimer
    let W1 : World :=
      { W with
        requestIdRef := some
          { brandName := r.props.brandName, category := r.props.category,
            now := env.now, rnd := env.rnd },
        intervalRef := some h, timers := W.timers ++ [h], nextTimer := h + 1 }
    match r.props.user with
    | some _ => W1.suspend i r .freshToken
    | none =>
      let W2 : World :=
        { W1 with error := some "You must be logged in to perform an analysis.",
                  loading := false }
      let W3 : World :=
        match W2.intervalRef with
        | some t => { W2 with timers := W2.timers.filter (fun x => x != t) }
        | none => W2
      freshFinally { W3 with requestIdRef := none } i r

/-- The block `// Reset states` at the start of `loadReport`. -/
def World.reset (W : World) : World :=
  { W with analysis := .null, error := none, loading := true, isSearching := false,
           loadingStage := 0 }

/-- A call `loadReport()` made while rendering with props `p`: the synchronous part up to
the first `await` (or to the return). The call becomes run number `W.runs.length`. -/
def loadReport (W : World) (p : Props) (env : Env) : World :=
  let i := W.runs.length
  let r : Run := { props := p, pc := .done }
  let W0 : World := { W with runs := W.runs ++ [r] }
  if !truthyStr p.brand then
    { W0 with error := some "No brand name provided", loading := false }
  else
    let W1 : World := W0.reset
    if p.isSaved then
      match p.user with
      | some _ => W1.suspend i r .savedToken
      | none => savedCatch W1 i r
    else
      match p.user with
      | some _ => W1.suspend i r .silentToken
      | none => freshStep W1 i r env

/-- The error thrown for a 403/402 body `data`: `new Error(data.message || fallback)`,
or the `TypeError` of reading `message` or of converting it to a string. The result is
the `message` of the error that reaches `catch`. -/
def thrownMessage (data : JSVal) (fallback : String) : String :=
  match data.get "message" with
  | .error e => e
  | .ok m =>
    match jsToString (m.or (.str fallback)) with
    | .error e => e
    | .ok s => s

/-- Resume run `i` (record `r`) with the settlement `o` of the promise it awaits, and
execute it up to its next `await` or its return. A settlement the awaited promise cannot
produce leaves the page unchanged. -/
def resume (W : World) (i : Nat) (r : Run) (o : Settled) (env : Env) : World :=
  match r.pc, o with
  -- saved mode
  | .savedToken, .token t =>
    (W.send i .viewReport (viewReportUrl r.props.brandName r.props.category) t).suspend
      i r .savedFetch
  | .savedToken, .rejected _ => savedCatch W i r
  | .savedFetch, .response status =>
    if status = 404 then
      ({ W with error := some "Saved report not found. It may have been deleted or expired.",
                loading := false }).finish i r
    else if !statusOk status then savedCatch W i r
    else W.suspend i r .savedJson
  | .savedFetch, .rejected _ => savedCatch W i r
  | .savedJson, .body data =>
    match validatedData r.props.brandName r.props.category env.iso data with
    | .error _ => savedCatch W i r
    | .ok v => ({ W with analysis := v, loading := false }).finish i r
  | .savedJson, .rejected _ => savedCatch W i r
  -- silent lookup before a fresh analysis
  | .silentToken, .token t =>
    (W.send i .viewReport (viewReportUrl r.props.brandName r.props.category) t).suspend
      i r .silentFetch
  | .silentToken, .rejected _ => freshStep W i r env
  | .silentFetch, .response status =>
    if statusOk status then W.suspend i r .silentJson else freshStep W i r env
  | .silentFetch, .rejected _ => freshStep W i r env
  | .silentJson, .body cachedData =>
    let W1 : World := { W with analysis := cachedData, loading := false }
    let W2 : World :=
      if !r.props.isSaved then
        { W1 with replaced := W1.replaced ++ [savedUrl r.props.brandName r.props.category] }
      else W1
    W2.finish i r
  | .silentJson, .rejected _ => freshStep W i r env
  -- fresh analysis
  | .freshToken, .token t =>
    (W.send i .analyze (analyzeUrl r.props.brandName r.props.category) t).suspend
      i r .freshFetch
  | .freshToken, .rejected m => freshCatch W i r m
  | .freshFetch, .response status =>
    if status = 403 then W.suspend i r .freshJson403
    else if status = 402 then W.suspend i r .freshJson402
    else if !statusOk status then freshCatch W i r "Failed to analyze brand name"
    else W.suspend i r .freshJson
  | .freshFetch, .rejected m => freshCatch W i r m
  | .freshJson403, .body data =>
    freshCatch W i r (thrownMessage data "Please verify your email to continue.")
  | .freshJson403, .rejected m => freshCatch W i r m
  | .freshJson402, .body data =>
    freshCatch W i r (thrownMessage data "You have run out of credits.")
  | .freshJson402, .rejected m => freshCatch W i r m
  | .freshJson, .body data =>
    let W1 := W.clearStageTimer
    let W2 : World := { W1 with analysis := data }
    let W3 : World :=
      if truthyStr (r.props.user.map (fun u => u.uid)) then
        { W2 with historyRefreshes := W2.historyRefreshes + 1 }
      else W2
    let W4 : World :=
      if !r.props.isSaved then
        { W3 with replaced := W3.replaced ++ [savedUrl r.props.brandName r.props.category] }
      else W3
    freshFinally W4 i r
  | .freshJson, .rejected m => freshCatch W i r m
  | _, _ => W

/-! ## The effect and the event loop -/

/-- The body of the effect under props `p`: `if (brandName && user) loadReport()`. -/
def effectRun (W : World) (p : Props) (env : Env) : World :=
  if truthyStr p.brand && p.user.isSome then loadReport W p env else W

/-- The cleanup function returned by the effect. -/
def effectCleanup (W : World) : World :=
  { W.clearStageTimer with requestIdRef := none }

/-- One event of the event loop. -/
inductive Event where
  | effect (p : Props) (env : Env)
  | cleanup
  | settle (i : Nat) (o : Settled) (env : Env)
  | tick (h : Nat)
  deriving DecidableEq, Repr

/-- Execute one event. Settling a run that does not exist, or a timer that has been
cleared, does nothing. -/
def step (W : World) : Event → World
  | .effect p env => effectRun W p env
  | .cleanup => effectCleanup W
  | .settle i o env =>
    match W.runs[i]? with
    | some r => resume W i r o env
    | none => W
  | .tick h => if h ∈ W.timers then { W with loadingStage := nextStage W.loadingStage } else W

/-- Execute a list of events in order. -/
def exec (W : World) (es : List Event) : World := es.foldl step W

/-- A render with props `next` after a render with props `prev`: React compares the
dependency list `[brandName, category, user?.uid, viewMode]` of the two renders and, when
an entry differs, runs the cleanup of the previous effect and then the effect again. -/
def commit (W : World) (prev next : Props) (env : Env) : World :=
  if prev.deps = next.deps then W else effectRun (effectCleanup W) next env

/-- The props of the render that follows `router.replace(savedUrl brandName category)`:
the search parameters are those of the new URL, `brand` and `category` as they were
written into it and `view=saved`; the user is the same. -/
def Props.afterReplace (p : Props) : Props :=
  { brand := some p.brandName, categoryParam := some p.category, view := some "saved",
    user := p.user }

/-! ## Notions used to state the properties -/

/-- The settlements of the silent saved-report lookup after which `loadReport` goes on to
the fresh-analysis step: the token or the fetch or the body parse rejects, or the answer
is not a success. -/
def silentFailure : Pc → Settled → Bool
  | .silentToken, .rejected _ => true
  | .silentFetch, .response status => !statusOk status
  | .silentFetch, .rejected _ => true
  | .silentJson, .rejected _ => true
  | _, _ => false

/-- The settlements of the saved-mode lookup that are neither a success nor a 404: the
token or the fetch or the body parse rejects, the answer has another non-success status,
or the parsed body cannot be normalised (reading `data.brandName` throws, which happens
for `null`). -/
def savedFailure : Pc → Settled → Bool
  | .savedToken, .rejected _ => true
  | .savedFetch, .response status => status != 404 && !statusOk status
  | .savedFetch, .rejected _ => true
  | .savedJson, .rejected _ => true
  | .savedJson, .body .null => true
  | .savedJson, .body .undefined => true
  | _, _ => false

/-- The ways the silent saved-report lookup of a run can fail, each with the clock values
of the settlements involved: `getIdToken()` rejects; the token `t` is obtained and `fetch`
rejects (a network error of message `m`); `fetch` answers with `status`, which is not a
success (404 or another status); `fetch` answers with a success `status` and the body
does not parse. -/
inductive LookupFailure where
  | noToken (m : String) (e1 : Env)
  | networkError (t : String) (e1 : Env) (m : String) (e2 : Env)
  | badStatus (t : String) (e1 : Env) (status : Nat) (e2 : Env)
  | badBody (t : String) (e1 : Env) (status : Nat) (e2 : Env) (m : String) (e3 : Env)
  deriving DecidableEq, Repr

/-- The status carried by a lookup failure fits its kind: not a success for `badStatus`, a
success for `badBody`. -/
def LookupFailure.valid : LookupFailure → Bool
  | .noToken _ _ => true
  | .networkError _ _ _ _ => true
  | .badStatus _ _ status _ => !statusOk status
  | .badBody _ _ status _ _ _ => statusOk status

/-- The settlements run `i` receives when its silent lookup fails in the way `k`. -/
def LookupFailure.events (i : Nat) : LookupFailure → List Event
  | .noToken m e1 => [.settle i (.rejected m) e1]
  | .networkError t e1 m e2 => [.settle i (.token t) e1, .settle i (.rejected m) e2]
  | .badStatus t e1 status e2 => [.settle i (.token t) e1, .settle i (.response status) e2]
  | .badBody t e1 status e2 m e3 =>
    [.settle i (.token t) e1, .settle i (.response status) e2, .settle i (.rejected m) e3]

/-- The lookup requests run `i` has logged when its silent lookup has failed in the way
`k`: none if the token was not obtained, else the one lookup. -/
def LookupFailure.sent (i : Nat) (p : Props) : LookupFailure → List Request
  | .noToken _ _ => []
  | .networkError t _ _ _ =>
    [{ run := i, endpoint := .viewReport, url := viewReportUrl p.brandName p.category,
       token := t }]
  | .badStatus t _ _ _ =>
    [{ run := i, endpoint := .viewReport, url := viewReportUrl p.brandName p.category,
       token := t }]
  | .badBody t _ _ _ _ _ =>
    [{ run := i, endpoint := .viewReport, url := viewReportUrl p.brandName p.category,
       token := t }]

/-- The clock values read when the run reaches the fresh-analysis step after the failure
`k`: those of the last settlement. -/
def LookupFailure.lastEnv : LookupFailure → Env
  | .noToken _ e1 => e1
  | .networkError _ _ _ e2 => e2
  | .badStatus _ _ _ e2 => e2
  | .badBody _ _ _ _ _ e3 => e3

/-- The page with the request log emptied and the content of the marker blanked: what is
left is the React state, the timer handle and timers, whether a marker is set, the
`router.replace` calls, the history refreshes and the runs. -/
def World.hideLog (W : World) : World :=
  { W with
    requests := [],
    requestIdRef := W.requestIdRef.map
      (fun _ => { brandName := "", category := "", now := 0, rnd := "" }) }

/-- The run is inside the fresh-analysis `try`: it has taken the marker and has not yet
reached `finally`. Its request to `/api/analyze` is being prepared (`freshToken`) or is
waiting for its answer or for the answer's body. -/
def Pc.inFresh : Pc → Bool
  | .freshToken => true
  | .freshFetch => true
  | .freshJson403 => true
  | .freshJson402 => true
  | .freshJson => true
  | _ => false

/-- Number of fresh-analysis requests outstanding: runs inside the fresh-analysis `try`. -/
def World.outstanding (W : World) : Nat :=
  W.runs.countP (fun r => r.pc.inFresh)

/-- Requests sent to the analysis endpoint so far. -/
def World.analyzeRequests (W : World) : List Request :=
  W.requests.filter (fun q => q.endpoint == .analyze)

/-- States reached from mount by effect runs, settlements, timer ticks and effect
cleanups, arbitrary in number and order. -/
inductive Reachable : World → Prop where
  | init : Reachable World.init
  | step (W : World) (e : Event) : Reachable W → Reachable (step W e)

/-- States reached from mount by effect runs, settlements and timer ticks, and by effect
cleanups that happen while no fresh-analysis request is outstanding. -/
inductive ReachableUninterrupted : World → Prop where
  | init : ReachableUninterrupted World.init
  | effect (W : World) (p : Props) (env : Env) :
      ReachableUninterrupted W → ReachableUninterrupted (step W (.effect p env))
  | settle (W : World) (i : Nat) (o : Settled) (env : Env) :
      ReachableUninterrupted W → ReachableUninterrupted (step W (.settle i o env))
  | tick (W : World) (h : Nat) :
      ReachableUninterrupted W → ReachableUninterrupted (step W (.tick h))
  | cleanup (W : World) :
      ReachableUninterrupted W → W.outstanding = 0 →
      ReachableUninterrupted (step W .cleanup)

/-- The de-duplication invariant: at most one fresh-analysis request is outstanding, and
the marker is set exactly when one is. -/
def Dedup (W : World) : Prop :=
  W.outstanding ≤ 1 ∧ (W.requestIdRef.isSome = true ↔ W.outstanding = 1)

/-- The request of the run to `/api/analyze` has been sent and the run has not returned. -/
def Pc.requestSent : Pc → Bool
  | .freshFetch => true
  | .freshJson403 => true
  | .freshJson402 => true
  | .freshJson => true
  | _ => false

/-- Number of requests run `i` has sent to the analysis endpoint. -/
def World.sentBy (W : World) (i : Nat) : Nat :=
  W.analyzeRequests.countP (fun q => q.run == i)

/-- Bookkeeping of the request log: a run that does not exist yet, or that has not reached
its `fetch` of `/api/analyze`, has sent nothing there; a run waiting for the answer of
that `fetch` has sent exactly one request. -/
def SentInv (W : World) : Prop :=
  ∀ i, (W.runs[i]? = none → W.sentBy i = 0)
    ∧ (∀ r, W.runs[i]? = some r →
        (r.pc.requestSent = true → W.sentBy i = 1)
        ∧ (r.pc.requestSent = false → r.pc ≠ .done → W.sentBy i = 0))

/-- The settlements the promise awaited at `pc` can produce: `getIdToken()` resolves
with a token, `fetch` with a response, `response.json()` with a parsed body, and each of
them can reject. -/
def Pc.accepts : Pc → Settled → Bool
  | .done, _ => false
  | _, .rejected _ => true
  | .savedToken, .token _ => true
  | .silentToken, .token _ => true
  | .freshToken, .token _ => true
  | .savedFetch, .response _ => true
  | .silentFetch, .response _ => true
  | .freshFetch, .response _ => true
  | .savedJson, .body _ => true
  | .silentJson, .body _ => true
  | .freshJson403, .body _ => true
  | .freshJson402, .body _ => true
  | .freshJson, .body _ => true
  | _, _ => false

/-- Collaborator outcomes for one run: how the promise awaited at each `await` settles
(a run passes each `await` at most once), with the clock values read on resumption. -/
abbrev Outcomes := Pc → Settled × Env

/-- Every outcome is one the awaited promise can produce. -/
def Outcomes.wellTyped (oc : Outcomes) : Prop :=
  ∀ pc : Pc, pc ≠ .done → pc.accepts (oc pc).1 = true

/-- Let run `i` proceed on its own, settling each promise it awaits as `oc` says, for at
most `fuel` settlements or until it returns. -/
def drive : Nat → World → Nat → Outcomes → World
  | 0, W, _, _ => W
  | fuel + 1, W, i, oc =>
    match W.runs[i]? with
    | none => W
    | some r =>
      if r.pc = .done then W
      else drive fuel (step W (.settle i (oc r.pc).1 (oc r.pc).2)) i oc

/-- The terminal condition of run `i`, called with props `p` and driven with outcomes `oc`: the run has returned,
loading is false, analysis and error are not both set, and they are both unset only if a
successful answer had the body `null`. -/
def Terminal (W : World) (i : Nat) (p : Props) (oc : Outcomes) : Prop :=
  W.runs[i]? = some { props := p, pc := .done }
  ∧ W.loading = false
  ∧ ¬ (W.analysis ≠ .null ∧ W.error ≠ none)
  ∧ (W.analysis = .null ∧ W.error = none →
      (oc .silentJson).1 = .body .null ∨ (oc .freshJson).1 = .body .null)

/-- The endpoints run `i` has requested so far, in the order of the requests. -/
def World.issuedBy (W : World) (i : Nat) : List Endpoint :=
  (W.requests.filter (fun q => q.run == i)).map (fun q => q.endpoint)

/-- What a run records as requested, given the `await` it is suspended at: nothing while it
waits for the token of its lookup, the lookup alone while it waits for the answer of the
lookup or for its body, at most the lookup while it waits for the token of the analysis,
and then the analysis request, preceded by the lookup if there was one. A run that has
returned has requested at most the lookup in saved mode, and at most the lookup and then
the analysis outside it. -/
def Run.issuedOk (r : Run) (es : List Endpoint) : Bool :=
  match r.pc with
  | .savedToken => r.props.isSaved && es == []
  | .savedFetch => r.props.isSaved && es == [.viewReport]
  | .savedJson => r.props.isSaved && es == [.viewReport]
  | .silentToken => !r.props.isSaved && es == []
  | .silentFetch => !r.props.isSaved && es == [.viewReport]
  | .silentJson => !r.props.isSaved && es == [.viewReport]
  | .freshToken => !r.props.isSaved && (es == [] || es == [.viewReport])
  | .freshFetch => !r.props.isSaved && (es == [.analyze] || es == [.viewReport, .analyze])
  | .freshJson403 => !r.props.isSaved && (es == [.analyze] || es == [.viewReport, .analyze])
  | .freshJson402 => !r.props.isSaved && (es == [.analyze] || es == [.viewReport, .analyze])
  | .freshJson => !r.props.isSaved && (es == [.analyze] || es == [.viewReport, .analyze])
  | .done =>
    if r.props.isSaved then es == [] || es == [.viewReport]
    else es == [] || es == [.viewReport] || es == [.analyze] || es == [.viewReport, .analyze]

/-- The request log is in order: a run that does not exist yet has requested nothing, and
what a run has requested fits the `await` it is suspended at. -/
def IssuedInv (W : World) : Prop :=
  ∀ i, (W.runs[i]? = none → W.issuedBy i = [])
    ∧ (∀ r, W.runs[i]? = some r → r.issuedOk (W.issuedBy i) = true)

/-- The top-level keys of a payload: the keys an object spread of it copies. -/
def payloadKeys (data : JSVal) : List String := (ownEntries data).map (fun p => p.1)

/-- The keys for which `validatedData` writes a value of its own before the spread. -/
def fallbackKeys : List String :=
  [ "brandName", "category", "overallScore", "recommendation", "scores", "detailedAnalysis",
    "cached", "source", "analysisTime" ]

/-- Every run was started under the guard of the effect: it has a brand name and a user. -/
def Guarded (W : World) : Prop :=
  ∀ (i : Nat) (r : Run), W.runs[i]? = some r →
    truthyStr r.props.brand = true ∧ r.props.user.isSome = true

/-! ## The report view -/

/-- The four things the page can render, in the order of the early returns of the
component: the spinner, the error message, 'No analysis data available', the report. -/
inductive Screen where
  | spinner
  | errorMessage
  | noData
  | report
  deriving DecidableEq, Repr

/-- Which of them a render shows: `if (loading || isSearching)`, then `if (error)`, then
`if (!analysis)`, else the report. -/
def World.screen (W : World) : Screen :=
  if W.loading || W.isSearching then .spinner
  else if truthyStr W.error then .errorMessage
  else if !W.analysis.truthy then .noData
  else .report

/-- The function `getScoreColor`, on a finite number. -/
def getScoreColor (score : ℚ) : String :=
  if score ≥ 80 then "text-green-400"
  else if score ≥ 60 then "text-yellow-400"
  else "text-red-400"

/-- The function `getCircleStroke`, on a finite number. -/
def getCircleStroke (score : ℚ) : String :=
  if score ≥ 80 then "#10b981"
  else if score ≥ 60 then "#f59e0b"
  else "#ef4444"

/-- The function `getRecommendationText`, on a finite number. -/
def getRecommendationText (score : ℚ) : String :=
  if score ≥ 80 then "Strong Contender"
  else if score ≥ 60 then "Moderate Potential"
  else "Needs Consideration"

/-- The expression `hostname.replace(/^www\./, '')` on the characters of the hostname: the
pattern is anchored at the start, so only a leading `www.` is removed. -/
def replaceWwwPrefix (h : List Char) : List Char :=
  if ['w', 'w', 'w', '.'].isPrefixOf h then h.drop 4 else h

/-- The call `s.split('.')` on the characters of `s`: the pieces between the dots; the
result is never empty. -/
def splitDots : List Char → List (List Char)
  | [] => [[]]
  | c :: cs =>
    if c = '.' then [] :: splitDots cs
    else
      match splitDots cs with
      | p :: ps => (c :: p) :: ps
      | [] => [[c]]

/-- The function `extractRootDomain`. The URL parser is a collaborator: `hostnameOf url`
is the `hostname` of `new URL(url)`, or `none` when the constructor throws. The result
`none` is the `null` returned by the `catch` block. -/
def extractRootDomain (hostnameOf : String → Option String) (url : String) : Option String :=
  match hostnameOf url with
  | none => none
  | some hostname =>
    let parts := splitDots (replaceWwwPrefix hostname.toList)
    if parts.length > 1 then some (String.mk (parts.headD []))
    else some (String.mk (parts.headD []))

/-- The first dot-separated label of a hostname: its characters up to the first dot. -/
def firstLabel (h : List Char) : List Char := h.takeWhile (fun c => c != '.')

/-- The expression `rootDomain?.toLowerCase() === brandName.toLowerCase()` for a search
result with link `link`. `brandName` is `searchParams.get('brand')`, which is `null` when
the parameter is absent: calling `toLowerCase` on it throws a `TypeError`. The case
mapping `toLowerCase` is a parameter. -/
def isDirectCompetitor (hostnameOf : String → Option String) (toLowerCase : String → String)
    (brandName : Option String) (link : String) : Except String Bool :=
  let rootDomain := extractRootDomain hostnameOf link
  let left : Option String := rootDomain.map toLowerCase
  match brandName with
  | none => .error (readError "null" "toLowerCase")
  | some b => .ok (left == some (toLowerCase b))

/-! ## The deep-scan panel -/

/-- The call `s.replace(pat, rep)` with a string pattern: the first occurrence of `pat` in
`s`, wherever it is, is replaced by `rep` (which holds no `$`). -/
def replaceFirst (pat rep : List Char) : List Char → List Char
  | [] => if pat.isEmpty then rep else []
  | c :: cs =>
    if pat.isPrefixOf (c :: cs) then rep ++ (c :: cs).drop pat.length
    else c :: replaceFirst pat rep cs

/-- The name `CompetitorCard` shows for a competitor whose URL has the hostname
`hostname`: `hostname.replace('www.', '')`. -/
def competitorName (hostname : String) : String :=
  String.mk (replaceFirst ['w', 'w', 'w', '.'] [] hostname.toList)

/-- The prefix stripping of `extractRootDomain`, on strings. -/
def hostnameWithoutWww (hostname : String) : String :=
  String.mk (replaceWwwPrefix hostname.toList)

/-! ## The deep scan -/

/-- What `handleDeepScan` closes over: the values of the render in which it was created. -/
structure ScanProps where
  user : Option User
  brandName : Option String
  category : String
  analysis : JSVal
  deriving DecidableEq, Repr

/-- The closure of `handleDeepScan` in a render with props `p` of the page `W`. -/
def scanProps (p : Props) (W : World) : ScanProps :=
  { user := p.user, brandName := p.brand, category := p.category, analysis := W.analysis }

/-- One `POST /api/deep-scan`: the token of its `Authorization` header and the object
handed to `JSON.stringify` as its body. -/
structure ScanRequest where
  token : String
  body : JSVal
  deriving DecidableEq, Repr

/-- The state `handleDeepScan` writes, and the log of its network calls: the tokens of the
requests to `/api/user-credits`, and the deep-scan requests. -/
structure ScanState where
  deepScanData : JSVal
  isDeepScanning : Bool
  deepScanError : JSVal
  creditChecks : List String
  deepScanRequests : List ScanRequest
  deriving DecidableEq, Repr

/-- The state at mount. -/
def ScanState.init : ScanState :=
  { deepScanData := .null, isDeepScanning := false, deepScanError := .null,
    creditChecks := [], deepScanRequests := [] }

/-- The `await` at which a call of `handleDeepScan` is suspended; the body of the deep-scan
answer is awaited before its status is looked at, so that `await` remembers the status. -/
inductive ScanPc where
  | creditToken
  | creditFetch
  | creditJson
  | scanToken
  | scanFetch
  | scanJson (status : Nat)
  | done
  deriving DecidableEq, Repr

/-- The comparison `v <= 0` on a parsed JSON value. `undefined` converts to `NaN`, for
which every comparison is false; `null` converts to 0, `false` to 0 and `true` to 1. A
string is converted by the numeric-string grammar, which is not modelled: `strLeZero s`
is the outcome of the comparison for the string `s`. An array is converted through its
string form; an object converts to `NaN`, unless it has an own `toString`, which makes the
conversion throw. -/
def leZero (strLeZero : String → Bool) : JSVal → Except String Bool
  | .undefined => .ok false
  | .null => .ok true
  | .bool b => .ok (!b)
  | .num n => .ok (decide (n ≤ 0))
  | .str s => .ok (strLeZero s)
  | .arr xs =>
    match jsToString (.arr xs) with
    | .error e => .error e
    | .ok s => .ok (strLeZero s)
  | .obj kvs =>
    match jsToString (.obj kvs) with
    | .error e => .error e
    | .ok _ => .ok false

/-- The test `credits.deepScans <= 0` on the parsed body of the credit check; reading
`deepScans` of `null` throws. -/
def creditsExhausted (strLeZero : String → Bool) (credits : JSVal) : Except String Bool :=
  match credits.get "deepScans" with
  | .error e => .error e
  | .ok d => leZero strLeZero d

/-- The value of `r.link` in the callback of `map`, as far as `JSON.stringify` tells values
apart: reading `link` of `null` or `undefined` throws; a string has the method `link` of
`String.prototype`, and a function is written like `undefined` in an array. -/
def linkOf : JSVal → Except String JSVal
  | .undefined => .error (readError "undefined" "link")
  | .null => .error (readError "null" "link")
  | .obj kvs => .ok (getOwn kvs "link")
  | _ => .ok .undefined

/-- The callback `r => r.link` mapped over the elements of an array. -/
def mapLinks : List JSVal → Except String (List JSVal)
  | [] => .ok []
  | r :: rs =>
    match linkOf r with
    | .error e => .error e
    | .ok l =>
      match mapLinks rs with
      | .error e => .error e
      | .ok ls => .ok (l :: ls)

/-- The expression
`analysis?.detailedAnalysis?.googleCompetition?.topResults?.map(r => r.link) || []`.
A `topResults` that is neither `null`/`undefined` nor an array has no method `map`, and
the call throws. -/
def competitorUrls (analysis : JSVal) : Except String JSVal :=
  match ((analysis.prop "detailedAnalysis").prop "googleCompetition").prop "topResults" with
  | .undefined => .ok (.arr [])
  | .null => .ok (.arr [])
  | .arr rs =>
    match mapLinks rs with
    | .error e => .error e
    | .ok ls => .ok (.arr ls)
  | _ => .error "analysis?.detailedAnalysis?.googleCompetition?.topResults?.map is not a function"

/-- The object `{ brandName, category, competitorUrls }` of the request body. -/
def scanBody (p : ScanProps) (urls : JSVal) : JSVal :=
  .obj [ ("brandName", match p.brandName with
                       | some b => .str b
                       | none => .null),
         ("category", .str p.category),
         ("competitorUrls", urls) ]

/-- The `catch` block of the credit check. -/
def creditCatch (S : ScanState) : ScanState × ScanPc :=
  ({ S with deepScanError := .str "Unable to verify credits. Please try again." }, .done)

/-- The `finally` block of the deep scan. -/
def scanFinally (S : ScanState) : ScanState × ScanPc :=
  ({ S with isDeepScanning := false }, .done)

/-- The `catch` block of the deep scan, followed by `finally`. -/
def scanCatch (S : ScanState) : ScanState × ScanPc :=
  scanFinally
    { S with deepScanError := .str "An error occurred during deep scan. Please try again." }

/-- A call `handleDeepScan()`: the synchronous part up to the first `await` (or to the
return). -/
def handleDeepScan (S : ScanState) (p : ScanProps) : ScanState × ScanPc :=
  match p.user with
  | none => ({ S with deepScanError := .str "Please log in to perform a deep scan." }, .done)
  | some _ => (S, .creditToken)

/-- Resume a call of `handleDeepScan` suspended at `pc` with the settlement `o` of the
promise it awaits, and execute it up to its next `await` or its return. A settlement the
awaited promise cannot produce leaves everything unchanged. -/
def scanResume (strLeZero : String → Bool) (p : ScanProps) (S : ScanState) :
    ScanPc → Settled → ScanState × ScanPc
  -- the credit check
  | .creditToken, .token t => ({ S with creditChecks := S.creditChecks ++ [t] }, .creditFetch)
  | .creditToken, .rejected _ => creditCatch S
  | .creditFetch, .response status =>
    if statusOk status then (S, .creditJson)
    else ({ S with deepScanError := .str "Unable to verify credits. Please try again." }, .done)
  | .creditFetch, .rejected _ => creditCatch S
  | .creditJson, .body credits =>
    match creditsExhausted strLeZero credits with
    | .error _ => creditCatch S
    | .ok true =>
      ({ S with
          deepScanError :=
            .str "Insufficient Deep Scan credits. Please purchase a credit pack to continue." },
        .done)
    | .ok false =>
      ({ S with isDeepScanning := true, deepScanError := .null, deepScanData := .null },
        .scanToken)
  | .creditJson, .rejected _ => creditCatch S
  -- the deep scan
  | .scanToken, .token t =>
    match competitorUrls p.analysis with
    | .error _ => scanCatch S
    | .ok urls =>
      ({ S with
          deepScanRequests := S.deepScanRequests ++ [{ token := t, body := scanBody p urls }] },
        .scanFetch)
  | .scanToken, .rejected _ => scanCatch S
  | .scanFetch, .response status => (S, .scanJson status)
  | .scanFetch, .rejected _ => scanCatch S
  | .scanJson status, .body data =>
    if status = 402 then
      match data.get "message" with
      | .error _ => scanCatch S
      | .ok m =>
        scanFinally { S with deepScanError := m.or (.str "Insufficient Deep Scan credits.") }
    else if status = 403 then
      match data.get "message" with
      | .error _ => scanCatch S
      | .ok m =>
        scanFinally
          { S with deepScanError := m.or (.str "Please verify your email to continue.") }
    else
      match data.get "success" with
      | .error _ => scanCatch S
      | .ok s =>
        if s.truthy then scanFinally { S with deepScanData := data.prop "data" }
        else
          scanFinally
            { S with
              deepScanError :=
                (data.prop "error").or (.str "Deep scan failed. Please try again.") }
  | .scanJson _, .rejected _ => scanCatch S
  | pc, _ => (S, pc)

/-- Let a call of `handleDeepScan` receive the settlements `os` in order. -/
def scanRun (strLeZero : String → Bool) (p : ScanProps) (c : ScanState × ScanPc)
    (os : List Settled) : ScanState × ScanPc :=
  os.foldl (fun c o => scanResume strLeZero p c.1 c.2 o) c

/-- The stage timer is accounted for: every live timer is the one whose handle is stored in
`intervalRef`, and no timer is live while the marker is null. -/
def TimerInv (W : World) : Prop :=
  (∀ t ∈ W.timers, W.intervalRef = some t) ∧ (W.requestIdRef = none → W.timers = [])

/-! ## Sample inputs -/

/-- Clock and random values used in the concrete scenarios. -/
def sampleEnv : Env := { now := 1700000000000, rnd := "k3j9x0q2a", iso := "2025-01-01T00:00:00.000Z" }

/-- A signed-in user. -/
def sampleUser : User := { uid := "u1" }

/-- The page opened at `/analysis?brand=Acme&category=tech%20%26%20saas&view=saved`. -/
def acmeSaved : Props :=
  { brand := some "Acme", categoryParam := some "tech & saas", view := some "saved",
    user := some sampleUser }

/-- The page opened at `/analysis?brand=Acme&category=tech%20%26%20saas`. -/
def acmeFresh : Props :=
  { brand := some "Acme", categoryParam := some "tech & saas", view := none,
    user := some sampleUser }

/-- The page opened at `/analysis?brand=Bolt`. -/
def boltFresh : Props :=
  { brand := some "Bolt", categoryParam := none, view := none, user := some sampleUser }

/-- The page opened at `/analysis?brand=Acme` by a visitor who is not signed in. -/
def acmeAnonymous : Props :=
  { brand := some "Acme", categoryParam := none, view := none, user := none }

/-- A fresh analysis of Acme at the moment its request to `/api/analyze` is outstanding:
the saved lookup answered 404, the marker and the stage timer are set, the token has been
obtained and the request sent. -/
def acmeOutstanding : World :=
  exec World.init
    [ .effect acmeFresh sampleEnv,
      .settle 0 (.token "tok") sampleEnv,
      .settle 0 (.response 404) sampleEnv,
      .settle 0 (.token "tok") sampleEnv ]

/-- Two runs for Acme started in quick succession (effect, cleanup, effect, as a double
invocation of the effect does): the first has found no saved report, holds the marker and
has sent its request to `/api/analyze`; the second waits for the answer of its silent
lookup. -/
def acmeTwice : World :=
  exec World.init
    [ .effect acmeFresh sampleEnv,
      .cleanup,
      .effect acmeFresh sampleEnv,
      .settle 0 (.token "tok") sampleEnv,
      .settle 0 (.response 404) sampleEnv,
      .settle 0 (.token "tok") sampleEnv,
      .settle 1 (.token "tok") sampleEnv ]

/-- Outcomes of a run whose saved lookup answers 404 and whose analysis answers 200 with a
report. -/
def sampleOutcomes : Outcomes := fun pc =>
  match pc with
  | .savedToken => (.token "tok", sampleEnv)
  | .silentToken => (.token "tok", sampleEnv)
  | .freshToken => (.token "tok", sampleEnv)
  | .savedFetch => (.response 404, sampleEnv)
  | .silentFetch => (.response 404, sampleEnv)
  | .freshFetch => (.response 200, sampleEnv)
  | .done => (.rejected "", sampleEnv)
  | _ => (.body (.obj [("overallScore", .num 72)]), sampleEnv)

/-- The analysis of Acme has succeeded: no saved report was found, the analysis endpoint
answered 200 with a report, and the URL has been replaced by the saved URL. -/
def acmeLoaded : World :=
  exec acmeOutstanding
    [ .settle 0 (.response 200) sampleEnv,
      .settle 0 (.body (.obj [("brandName", .str "Acme"), ("overallScore", .num 72)]))
        sampleEnv ]

/-- The scenario of a first visit: the identity changes to `p` (cleanup, effect run);
run `i` obtains the token `t1`, its silent lookup fails with a network error of message
`m`, it obtains the token `t2` for the analysis, and the analysis endpoint answers with
`status` and a body that parses to `v`. `e k` gives the clock values of the `k`-th event. -/
def firstVisit (p : Props) (i : Nat) (e : Nat → Env) (t1 m t2 : String) (status : Nat)
    (v : JSVal) : List Event :=
  [ .cleanup,
    .effect p (e 0),
    .settle i (.token t1) (e 1),
    .settle i (.rejected m) (e 2),
    .settle i (.token t2) (e 3),
    .settle i (.response status) (e 4),
    .settle i (.body v) (e 5) ]

/-- A stand-in for the URL parser in the concrete scenarios: a string `https://host/...`
has the hostname `host`, every other string is not a URL. -/
def sampleHostnameOf (url : String) : Option String :=
  if "https://".toList.isPrefixOf url.toList then
    some (String.mk ((url.toList.drop 8).takeWhile (fun c => c != '/')))
  else none

/-- A stand-in for `toLowerCase` in the concrete scenarios: the ASCII letters are mapped. -/
def asciiLower (s : String) : String := String.mk (s.toList.map Char.toLower)

/-- A complete report of Acme, with every field the report view reads, and two search
results, the second of which has no usable link. -/
def acmeReport : JSVal :=
  .obj [ ("brandName", .str "Acme"), ("category", .str "tech & saas"),
         ("overallScore", .num 72), ("recommendation", .str "A strong name."),
         ("scores", .obj [ ("domainStrength", .num 70), ("competitionIntensity", .num 65),
                           ("seoDifficulty", .num 80) ]),
         ("detailedAnalysis", .obj
           [ ("domainAvailability", .arr
               [ .obj [ ("domain", .str "acme.com"), ("isAvailable", .bool false) ] ]),
             ("googleCompetition", .obj
               [ ("topResults", .arr
                   [ .obj [ ("title", .str "Acme"), ("link", .str "https://www.acme.com/"),
                            ("snippet", .str "Acme Corporation") ],
                     .obj [ ("title", .str "Acme forum"), ("link", .str "not a url"),
                            ("snippet", .str "Talk about Acme") ] ]) ]) ]) ]

/-- The analysis of Acme has succeeded with the report `acmeReport`. -/
def acmeReportLoaded : World :=
  exec acmeOutstanding
    [ .settle 0 (.response 200) sampleEnv, .settle 0 (.body acmeReport) sampleEnv ]

/-- The page at `/analysis`, without a `brand` parameter, for the signed-in user. -/
def noBrand : Props :=
  { brand := none, categoryParam := none, view := none, user := some sampleUser }

/-- Clock values of a later event. -/
def laterEnv : Env := { now := 1700000005000, rnd := "p7m2c4z9d", iso := "2025-01-01T00:00:05.000Z" }

/-- The closure of `handleDeepScan` on the loaded report of Acme. -/
def acmeScan : ScanProps := scanProps acmeFresh.afterReplace acmeReportLoaded

/-- A stand-in for the comparison of a string with 0: no string counts as `<= 0`. -/
def noStringLeZero : String → Bool := fun _ => false

/-- The deep scan of Acme at the moment its request is outstanding: the credit check
answered 200 with three credits, the token was obtained and the request sent. -/
def acmeScanOutstanding : ScanState × ScanPc :=
  scanRun noStringLeZero acmeScan (handleDeepScan ScanState.init acmeScan)
    [ .token "tok", .response 200, .body (.obj [("deepScans", .num 3)]), .token "tok2" ]

/-- The double invocation of the effect for Acme (effect, cleanup, effect) at the moment
the first run has found no saved report, holds the marker and has sent its request to
`/api/analyze`, two timer ticks have moved the stage to 2, and the second run still waits
for the token of its silent lookup. -/
def acmeSecondWaiting : World :=
  exec World.init
    [ .effect acmeFresh sampleEnv,
      .cleanup,
      .effect acmeFresh sampleEnv,
      .settle 0 (.token "tok") sampleEnv,
      .settle 0 (.response 404) sampleEnv,
      .settle 0 (.token "tok") sampleEnv,
      .tick 1,
      .tick 1 ]

/-- The double invocation of the effect for Acme at the moment both runs have found no saved
report: the first holds the marker and waits for the token of its analysis request, the
second has returned at the marker guard. -/
def acmeFirstWaiting : World :=
  exec World.init
    [ .effect acmeFresh sampleEnv,
      .cleanup,
      .effect acmeFresh sampleEnv,
      .settle 0 (.token "tok") sampleEnv,
      .settle 0 (.response 404) sampleEnv,
      .settle 1 (.token "tok") sampleEnv,
      .settle 1 (.response 404) sampleEnv ]

/-! ## Basic facts about runs -/

theorem lt_of_get {α : Type} (l : List α) (i : Nat) (x : α) (h : l[i]? = some x) :
    i < l.length := by
  rcases Nat.lt_or_ge i l.length with h1 | h1
  · exact h1
  · rw [List.getElem?_eq_none h1] at h; cases h

theorem step_settle (W : World) (i : Nat) (r : Run) (o : Settled) (env : Env)
    (h : W.runs[i]? = some r) : step W (.settle i o env) = resume W i r o env := by
  simp [step, h]

theorem suspend_get (W : World) (i : Nat) (r : Run) (pc : Pc) (h : W.runs[i]? = some r) :
    (W.suspend i r pc).runs[i]? = some { r with pc := pc } := by
  simp [World.suspend, List.getElem?_set, lt_of_get _ _ _ h]

theorem clearStageTimer_eq (W : World) :
    W.clearStageTimer =
      { W with
        timers := (match W.intervalRef with
          | some h => W.timers.filter (fun t => t != h)
          | none => W.timers),
        intervalRef := none } := by
  cases h : W.intervalRef <;> simp [World.clearStageTimer, h]
  cases W; simp_all

theorem set_concat_length {α : Type} (l : List α) (x y : α) :
    (l ++ [x]).set l.length y = l ++ [y] := by
  induction l with
  | nil => rfl
  | cons a l ih => simp [List.set, ih]

theorem loadReport_fresh (W : World) (p : Props) (env : Env) (u : User)
    (hb : truthyStr p.brand = true) (hv : p.isSaved = false) (hu : p.user = some u) :
    loadReport W p env
      = { W.reset with runs := W.runs ++ [{ props := p, pc := .silentToken }] } := by
  simp [loadReport, hb, hv, hu, World.suspend, set_concat_length, World.reset]

theorem resume_silentFailure (W : World) (i : Nat) (r : Run) (o : Settled) (env : Env)
    (hf : silentFailure r.pc o = true) : resume W i r o env = freshStep W i r env := by
  obtain ⟨props, pc⟩ := r
  cases pc <;> cases o <;> simp_all [silentFailure, resume]

theorem freshStep_marker_set (W : World) (i : Nat) (r : Run) (env : Env)
    (hm : W.requestIdRef.isSome = true) : freshStep W i r env = W.finish i r := by
  obtain ⟨id, hid⟩ := Option.isSome_iff_exists.mp hm
  simp [freshStep, hid]

theorem effectRun_saved (W : World) (p : Props) (env : Env) (u : User)
    (hb : truthyStr p.brand = true) (hv : p.isSaved = true) (hu : p.user = some u) :
    effectRun W p env = { W.reset with runs := W.runs ++ [{ props := p, pc := .savedToken }] } := by
  simp [effectRun, loadReport, hb, hv, hu, World.suspend, set_concat_length, World.reset]

theorem effectRun_fresh (W : World) (p : Props) (env : Env) (u : User)
    (hb : truthyStr p.brand = true) (hv : p.isSaved = false) (hu : p.user = some u) :
    effectRun W p env = { W.reset with runs := W.runs ++ [{ props := p, pc := .silentToken }] } := by
  simp [effectRun, loadReport, hb, hv, hu, World.suspend, set_concat_length, World.reset]

/-! ## C1: normalisation of a saved report -/

/-- C1 (evaluation at the failing input). The saved report of Acme is looked up in saved
mode and `/api/view-report` answers 200 with the body `{"scores": {}}`. The load
succeeds, but the stored report has `scores` equal to the payload's own empty object:
the trailing `...data` replaces the `scores` object that was built with the defaults,
so `scores.domainStrength`, `scores.competitionIntensity` and `scores.seoDifficulty`
are all `undefined` instead of 0. -/
theorem C1_nested_defaults_overwritten :
    (exec World.init
      [ .effect acmeSaved sampleEnv,
        .settle 0 (.token "tok") sampleEnv,
        .settle 0 (.response 200) sampleEnv,
        .settle 0 (.body (.obj [("scores", .obj [])])) sampleEnv ]).loading = false
    ∧ (exec World.init
      [ .effect acmeSaved sampleEnv,
        .settle 0 (.token "tok") sampleEnv,
        .settle 0 (.response 200) sampleEnv,
        .settle 0 (.body (.obj [("scores", .obj [])])) sampleEnv ]).error = none
    ∧ ((exec World.init
      [ .effect acmeSaved sampleEnv,
        .settle 0 (.token "tok") sampleEnv,
        .settle 0 (.response 200) sampleEnv,
        .settle 0 (.body (.obj [("scores", .obj [])])) sampleEnv ]).analysis.prop "scores")
        = .obj []
    ∧ (((exec World.init
      [ .effect acmeSaved sampleEnv,
        .settle 0 (.token "tok") sampleEnv,
        .settle 0 (.response 200) sampleEnv,
        .settle 0 (.body (.obj [("scores", .obj [])])) sampleEnv ]).analysis.prop
          "scores").prop "domainStrength") = .undefined
    ∧ (∀ brandName category iso : String,
        (validatedData brandName category iso (.obj [("scores", .obj [])])).map
          (fun v => ((v.prop "scores").prop "domainStrength",
                     (v.prop "scores").prop "competitionIntensity",
                     (v.prop "scores").prop "seoDifficulty"))
          = .ok (.undefined, .undefined, .undefined)) := by
  refine ⟨by decide, by decide, by decide, by decide, ?_⟩
  intro brandName category iso
  rfl

/-! ## C2: 402 and 403 answers of the analysis endpoint -/

/-- C2 (counterexample). The analysis endpoint answers 402 with a body that is not JSON,
so `response.json()` rejects with the parser's `SyntaxError`. The flow ends in Failed,
with analysis null and loading false, but the error shown is the parser's message, not
the credits-exhausted message. -/
theorem C2_unparseable_402_counterexample :
    (step (step acmeOutstanding (.settle 0 (.response 402) sampleEnv))
        (.settle 0 (.rejected "Unexpected token < in JSON at position 0") sampleEnv)).error
      = some "Unexpected token < in JSON at position 0"
    ∧ (step (step acmeOutstanding (.settle 0 (.response 402) sampleEnv))
        (.settle 0 (.rejected "Unexpected token < in JSON at position 0") sampleEnv)).error
      ≠ some "You have run out of credits."
    ∧ (step (step acmeOutstanding (.settle 0 (.response 403) sampleEnv))
        (.settle 0 (.body .null) sampleEnv)).error
      ≠ some "Please verify your email to continue." := by
  decide

/-- C2 (amended). A run waits for the answer of the analysis endpoint; the answer has
status 402 or 403 and then its body settles as `o` (parsed, or failing to parse). In
every case the flow ends in Failed: an error is set, analysis keeps the value it had
(null since the start of the run), loading is false and the marker is cleared. When the
body parses to a value other than `null` whose `message` is absent or falsy, the error is
the fixed text of the status ('You have run out of credits.' for 402, 'Please verify your
email to continue.' for 403); when `message` is a non-empty string, the error is that
string; when the body does not parse, the error is the message of the parse failure (or
'Failed to analyze brand name. Please try again.' when that message is empty). -/
theorem C2_status_402_403_amended (W : World) (i : Nat) (r : Run) (env env2 : Env)
    (status : Nat) (o : Settled)
    (hr : W.runs[i]? = some r) (hpc : r.pc = .freshFetch)
    (hs : status = 402 ∨ status = 403)
    (ho : (∃ v, o = .body v) ∨ (∃ m, o = .rejected m)) :
    ((step (step W (.settle i (.response status) env)) (.settle i o env2)).error.isSome = true
      ∧ (step (step W (.settle i (.response status) env)) (.settle i o env2)).analysis
          = W.analysis
      ∧ (step (step W (.settle i (.response status) env)) (.settle i o env2)).loading = false
      ∧ (step (step W (.settle i (.response status) env)) (.settle i o env2)).requestIdRef
          = none)
    ∧ (∀ v, o = .body v → v ≠ .null → v ≠ .undefined → (v.prop "message").truthy = false →
        (step (step W (.settle i (.response status) env)) (.settle i o env2)).error
          = some (if status = 402 then "You have run out of credits."
                  else "Please verify your email to continue."))
    ∧ (∀ v t, o = .body v → v.prop "message" = .str t → t ≠ "" →
        (step (step W (.settle i (.response status) env)) (.settle i o env2)).error = some t)
    ∧ (∀ m, o = .rejected m →
        (step (step W (.settle i (.response status) env)) (.settle i o env2)).error
          = some (if m != "" then m
                  else "Failed to analyze brand name. Please try again.")) := by
  obtain ⟨props, pc⟩ := r
  simp only at hpc
  subst hpc
  rcases hs with hs | hs <;> subst hs
  · have h1 := suspend_get W i _ .freshJson402 hr
    rw [step_settle W i _ _ _ hr]
    simp only [resume]
    simp only [show ((402 : Nat) = 403) = False by decide, if_false, if_true]
    rw [step_settle _ i _ _ _ h1]
    refine ⟨?_, ?_, ?_, ?_⟩
    · rcases ho with ⟨v, rfl⟩ | ⟨m, rfl⟩ <;>
        simp [resume, freshCatch, freshFinally, World.finish, World.suspend,
          clearStageTimer_eq]
    · intro v hv hn hu ht
      subst hv
      have hm : thrownMessage v "You have run out of credits."
          = "You have run out of credits." := by
        cases v <;> simp_all [thrownMessage, JSVal.get, JSVal.or, jsToString]
      simp [resume, freshCatch, freshFinally, World.finish, World.suspend,
        clearStageTimer_eq, hm]
    · intro v t hv hm ht
      subst hv
      have hm2 : thrownMessage v "You have run out of credits." = t := by
        cases v <;>
          simp_all [thrownMessage, JSVal.get, JSVal.or, jsToString, JSVal.prop, JSVal.truthy]
      simp [resume, freshCatch, freshFinally, World.finish, World.suspend,
        clearStageTimer_eq, hm2, ht]
    · intro m hm
      subst hm
      simp [resume, freshCatch, freshFinally, World.finish, World.suspend,
        clearStageTimer_eq]
  · have h1 := suspend_get W i _ .freshJson403 hr
    rw [step_settle W i _ _ _ hr]
    simp only [resume]
    simp only [if_true]
    rw [step_settle _ i _ _ _ h1]
    refine ⟨?_, ?_, ?_, ?_⟩
    · rcases ho with ⟨v, rfl⟩ | ⟨m, rfl⟩ <;>
        simp [resume, freshCatch, freshFinally, World.finish, World.suspend,
          clearStageTimer_eq]
    · intro v hv hn hu ht
      subst hv
      have hm : thrownMessage v "Please verify your email to continue."
          = "Please verify your email to continue." := by
        cases v <;> simp_all [thrownMessage, JSVal.get, JSVal.or, jsToString]
      simp [resume, freshCatch, freshFinally, World.finish, World.suspend,
        clearStageTimer_eq, hm]
    · intro v t hv hm ht
      subst hv
      have hm2 : thrownMessage v "Please verify your email to continue." = t := by
        cases v <;>
          simp_all [thrownMessage, JSVal.get, JSVal.or, jsToString, JSVal.prop, JSVal.truthy]
      simp [resume, freshCatch, freshFinally, World.finish, World.suspend,
        clearStageTimer_eq, hm2, ht]
    · intro m hm
      subst hm
      simp [resume, freshCatch, freshFinally, World.finish, World.suspend,
        clearStageTimer_eq]

/-- C2 (witness): a 402 answer with the body `{"message": "Out of credits"}`. -/
theorem C2_status_402_403_amended_witness :
    acmeOutstanding.runs[0]? = some { props := acmeFresh, pc := .freshFetch }
    ∧ (step (step acmeOutstanding (.settle 0 (.response 402) sampleEnv))
        (.settle 0 (.body (.obj [("message", .str "Out of credits")])) sampleEnv)).error
      = some "Out of credits" :=
  ⟨by decide,
   (C2_status_402_403_amended acmeOutstanding 0 { props := acmeFresh, pc := .freshFetch }
      sampleEnv sampleEnv 402 (.body (.obj [("message", .str "Out of credits")]))
      (by decide) rfl (Or.inl rfl) (Or.inl ⟨_, rfl⟩)).2.2.1 _ "Out of credits" rfl
      (by decide) (by decide)⟩

/-! ## C7: a saved report that does not exist -/

/-- C7. In saved mode, for every brand name, category and user, when the lookup of the
saved report answers 404 the run ends with the error 'Saved report not found. It may have
been deleted or expired.', analysis null and loading false. The only request the run has
sent is the lookup itself (nothing goes to the analysis endpoint), and the marker, the
stored timer handle and the live timers are untouched. -/
theorem C7_saved_404_not_found (W : World) (p : Props) (env env1 env2 : Env) (t : String)
    (hb : truthyStr p.brand = true) (hv : p.view = some "saved") (hu : p.user.isSome = true) :
    (exec W [ .effect p env,
              .settle W.runs.length (.token t) env1,
              .settle W.runs.length (.response 404) env2 ]).error
        = some "Saved report not found. It may have been deleted or expired."
    ∧ (exec W [ .effect p env,
              .settle W.runs.length (.token t) env1,
              .settle W.runs.length (.response 404) env2 ]).analysis = .null
    ∧ (exec W [ .effect p env,
              .settle W.runs.length (.token t) env1,
              .settle W.runs.length (.response 404) env2 ]).loading = false
    ∧ (exec W [ .effect p env,
              .settle W.runs.length (.token t) env1,
              .settle W.runs.length (.response 404) env2 ]).requests
        = W.requests ++ [{ run := W.runs.length, endpoint := .viewReport,
                           url := viewReportUrl p.brandName p.category, token := t }]
    ∧ (exec W [ .effect p env,
              .settle W.runs.length (.token t) env1,
              .settle W.runs.length (.response 404) env2 ]).requestIdRef = W.requestIdRef
    ∧ (exec W [ .effect p env,
              .settle W.runs.length (.token t) env1,
              .settle W.runs.length (.response 404) env2 ]).intervalRef = W.intervalRef
    ∧ (exec W [ .effect p env,
              .settle W.runs.length (.token t) env1,
              .settle W.runs.length (.response 404) env2 ]).timers = W.timers
    ∧ (exec W [ .effect p env,
              .settle W.runs.length (.token t) env1,
              .settle W.runs.length (.response 404) env2 ]).runs
        = W.runs ++ [{ props := p, pc := .done }] := by
  obtain ⟨u, hu⟩ := Option.isSome_iff_exists.mp hu
  have hs : p.isSaved = true := by simp [Props.isSaved, hv]
  simp only [exec, List.foldl, step]
  rw [effectRun_saved W p env u hb hs hu]
  simp [resume, World.send, World.suspend, World.finish, World.reset, set_concat_length]

/-- C7 (witness): the saved report of Acme is looked up right after mount. -/
theorem C7_saved_404_not_found_witness :
    truthyStr acmeSaved.brand = true ∧ acmeSaved.view = some "saved"
    ∧ acmeSaved.user.isSome = true
    ∧ (exec World.init [ .effect acmeSaved sampleEnv,
              .settle 0 (.token "tok") sampleEnv,
              .settle 0 (.response 404) sampleEnv ]).error
        = some "Saved report not found. It may have been deleted or expired." :=
  ⟨by decide, by decide, by decide,
   (C7_saved_404_not_found World.init acmeSaved sampleEnv sampleEnv sampleEnv "tok"
      (by decide) (by decide) (by decide)).1⟩

/-! ## C8: a page without a user -/

/-- C8 (counterexample). A visitor who is not signed in opens `/analysis?brand=Acme`. The
effect does not call `loadReport`: the page is as it was at mount, with error null (not
'You must be logged in to perform an analysis.'), loading true and the loading screen
shown; no request is issued. -/
theorem C8_no_error_without_user_counterexample :
    acmeAnonymous.user = none
    ∧ truthyStr acmeAnonymous.brand = true
    ∧ acmeAnonymous.isSaved = false
    ∧ exec World.init [.effect acmeAnonymous sampleEnv] = World.init
    ∧ (exec World.init [.effect acmeAnonymous sampleEnv]).error = none
    ∧ (exec World.init [.effect acmeAnonymous sampleEnv]).error
        ≠ some "You must be logged in to perform an analysis."
    ∧ (exec World.init [.effect acmeAnonymous sampleEnv]).loading = true
    ∧ (exec World.init [.effect acmeAnonymous sampleEnv]).screen = .spinner
    ∧ (exec World.init [.effect acmeAnonymous sampleEnv]).requests = []
    ∧ (exec World.init [.effect acmeAnonymous sampleEnv]).runs = [] := by
  decide

/-- C8 (amended). For every identity, when no user is present the effect does not call
`loadReport`: an effect run leaves the page exactly as it is, so no state changes and no
request is issued, and an identity change to such props does nothing but the cleanup. On a
page opened without a user, error stays null, loading stays true, analysis stays null and
the loading screen is shown. -/
theorem C8_effect_idle_without_user_amended (W : World) (p : Props) (env : Env)
    (hu : p.user = none) :
    step W (.effect p env) = W
    ∧ exec W [.cleanup, .effect p env] = step W .cleanup
    ∧ exec World.init [.effect p env] = World.init
    ∧ (exec World.init [.effect p env]).error = none
    ∧ (exec World.init [.effect p env]).loading = true
    ∧ (exec World.init [.effect p env]).analysis = .null
    ∧ (exec World.init [.effect p env]).requests = []
    ∧ (exec World.init [.effect p env]).runs = []
    ∧ (exec World.init [.effect p env]).screen = .spinner := by
  have h : ∀ V : World, step V (.effect p env) = V := by
    intro V
    simp [step, effectRun, hu]
  have h0 : exec World.init [.effect p env] = World.init := h World.init
  refine ⟨h W, ?_, h0, ?_, ?_, ?_, ?_, ?_, ?_⟩
  · show step (step W .cleanup) (.effect p env) = step W .cleanup
    exact h _
  all_goals rw [h0]; rfl

theorem C8_effect_idle_without_user_amended_witness :
    acmeAnonymous.user = none
    ∧ step acmeLoaded (.effect acmeAnonymous laterEnv) = acmeLoaded
    ∧ (exec World.init [.effect acmeAnonymous sampleEnv]).loading = true :=
  ⟨by decide,
   (C8_effect_idle_without_user_amended acmeLoaded acmeAnonymous laterEnv (by decide)).1,
   (C8_effect_idle_without_user_amended World.init acmeAnonymous sampleEnv
      (by decide)).2.2.2.2.1⟩

/-! ## C10: other answers of the analysis endpoint -/

/-- C10. A run waits for the answer of the analysis endpoint. If the answer has a status
that is not a success and is neither 402 nor 403, the run ends with the error 'Failed to
analyze brand name' and analysis keeps its value (null since the start of the run). If
the answer is a success and its body parses to `v`, the run ends with analysis equal to
`v`, unchanged, and error keeps its value (null since the start of the run). In both
cases loading is false, the marker is null and the run has returned. -/
theorem C10_fresh_response_mapping (W : World) (i : Nat) (r : Run) (env env2 : Env)
    (status : Nat) (v : JSVal)
    (hr : W.runs[i]? = some r) (hpc : r.pc = .freshFetch) :
    (statusOk status = false → status ≠ 402 → status ≠ 403 →
      (step W (.settle i (.response status) env)).error = some "Failed to analyze brand name"
      ∧ (step W (.settle i (.response status) env)).analysis = W.analysis
      ∧ (step W (.settle i (.response status) env)).loading = false
      ∧ (step W (.settle i (.response status) env)).requestIdRef = none
      ∧ (step W (.settle i (.response status) env)).runs[i]? = some { r with pc := .done })
    ∧ (statusOk status = true →
      (step (step W (.settle i (.response status) env)) (.settle i (.body v) env2)).analysis = v
      ∧ (step (step W (.settle i (.response status) env)) (.settle i (.body v) env2)).error
          = W.error
      ∧ (step (step W (.settle i (.response status) env)) (.settle i (.body v) env2)).loading
          = false
      ∧ (step (step W (.settle i (.response status) env)) (.settle i (.body v) env2)).requestIdRef
          = none
      ∧ (step (step W (.settle i (.response status) env)) (.settle i (.body v) env2)).runs[i]?
          = some { r with pc := .done }) := by
  obtain ⟨props, pc⟩ := r
  simp only at hpc
  subst hpc
  have hi := lt_of_get _ _ _ hr
  rw [step_settle W i _ _ _ hr]
  refine ⟨?_, ?_⟩
  · intro hok h402 h403
    simp [resume, hok, h402, h403, freshCatch, freshFinally, World.finish, World.suspend,
      clearStageTimer_eq, List.getElem?_set, hi]
  · intro hok
    have h403 : status ≠ 403 := by
      intro h; subst h; simp [statusOk] at hok
    have h402 : status ≠ 402 := by
      intro h; subst h; simp [statusOk] at hok
    have h1 := suspend_get W i { props := props, pc := .freshFetch } .freshJson hr
    simp only [resume, h403, h402, hok, if_false, Bool.not_true]
    simp only [Bool.false_eq_true, if_false]
    rw [step_settle _ i _ _ _ h1]
    simp only [resume]
    split_ifs <;>
      simp [freshFinally, World.finish, World.suspend, clearStageTimer_eq,
        List.getElem?_set, hi]

/-- C10 (witness): the outstanding analysis of Acme is answered 500, or 200 with a
report. -/
theorem C10_fresh_response_mapping_witness :
    acmeOutstanding.runs[0]? = some { props := acmeFresh, pc := .freshFetch }
    ∧ (step acmeOutstanding (.settle 0 (.response 500) sampleEnv)).error
        = some "Failed to analyze brand name"
    ∧ (step (step acmeOutstanding (.settle 0 (.response 200) sampleEnv))
        (.settle 0 (.body (.obj [("overallScore", .num 72)])) sampleEnv)).analysis
        = .obj [("overallScore", .num 72)] :=
  ⟨by decide,
   ((C10_fresh_response_mapping acmeOutstanding 0 { props := acmeFresh, pc := .freshFetch }
      sampleEnv sampleEnv 500 .null (by decide) rfl).1 (by decide) (by decide)
      (by decide)).1,
   ((C10_fresh_response_mapping acmeOutstanding 0 { props := acmeFresh, pc := .freshFetch }
      sampleEnv sampleEnv 200 (.obj [("overallScore", .num 72)]) (by decide) rfl).2
      (by decide)).1⟩

/-! ## C4: a second run while a request is outstanding -/

/-- C4 (counterexample). The effect for Acme was invoked twice in quick succession (effect,
cleanup, effect). The first run holds the marker and its request to `/api/analyze` is
outstanding, two ticks have moved the stage to 2; the second run is under way and waits
for its token. The second run is not a no-op: when its token arrives it sends a request
of its own, the saved-report lookup, and when that lookup succeeds it stores the saved
report, sets loading to false and replaces the URL, all while the first request is still
outstanding and the marker still set. -/
theorem C4_second_run_not_noop_counterexample :
    acmeSecondWaiting.requestIdRef.isSome = true
    ∧ acmeSecondWaiting.runs
        = [ { props := acmeFresh, pc := .freshFetch },
            { props := acmeFresh, pc := .silentToken } ]
    ∧ acmeSecondWaiting.loadingStage = 2
    ∧ acmeSecondWaiting.loading = true
    ∧ acmeSecondWaiting.analysis = .null
    ∧ (step acmeSecondWaiting (.settle 1 (.token "tok2") laterEnv)).requests
        = acmeSecondWaiting.requests
            ++ [ { run := 1, endpoint := .viewReport,
                   url := viewReportUrl "Acme" "tech & saas", token := "tok2" } ]
    ∧ (exec acmeSecondWaiting
        [ .settle 1 (.token "tok2") laterEnv, .settle 1 (.response 200) laterEnv,
          .settle 1 (.body acmeReport) laterEnv ]).analysis = acmeReport
    ∧ (exec acmeSecondWaiting
        [ .settle 1 (.token "tok2") laterEnv, .settle 1 (.response 200) laterEnv,
          .settle 1 (.body acmeReport) laterEnv ]).loading = false
    ∧ (exec acmeSecondWaiting
        [ .settle 1 (.token "tok2") laterEnv, .settle 1 (.response 200) laterEnv,
          .settle 1 (.body acmeReport) laterEnv ]).replaced
        = [savedUrl "Acme" "tech & saas"]
    ∧ (exec acmeSecondWaiting
        [ .settle 1 (.token "tok2") laterEnv, .settle 1 (.response 200) laterEnv,
          .settle 1 (.body acmeReport) laterEnv ]).runs
        = [ { props := acmeFresh, pc := .freshFetch },
            { props := acmeFresh, pc := .done } ]
    ∧ (exec acmeSecondWaiting
        [ .settle 1 (.token "tok2") laterEnv, .settle 1 (.response 200) laterEnv,
          .settle 1 (.body acmeReport) laterEnv ]).requestIdRef.isSome = true := by
  decide

/-- C4 (amended). A run of `loadReport` outside saved mode that is under way, whether or
not a fresh request is outstanding, performs its silent saved-report lookup: when its
token arrives it sends the lookup, and when the lookup is answered with a success status
and a body, it stores the body as the analysis, sets loading to false and replaces the
URL. When the lookup fails and the run reaches the fresh-analysis step while the marker is
set, the run returns there and is a no-op from that point on: the page is exactly as it
was, the run being finished is the only difference, so no request is sent and analysis,
error, loading, isSearching, the stage, the marker, the timer handle and the live timers
are untouched. -/
theorem C4_second_run_noop_at_fresh_step (W : World) (i : Nat) (r : Run) (env : Env)
    (hr : W.runs[i]? = some r) :
    (∀ t, r.pc = .silentToken →
        step W (.settle i (.token t) env)
          = { W with
              requests := W.requests
                ++ [ { run := i, endpoint := .viewReport,
                       url := viewReportUrl r.props.brandName r.props.category,
                       token := t } ],
              runs := W.runs.set i { r with pc := .silentFetch } })
    ∧ (∀ v, r.pc = .silentJson → r.props.isSaved = false →
        step W (.settle i (.body v) env)
          = { W with
              analysis := v, loading := false,
              replaced := W.replaced ++ [savedUrl r.props.brandName r.props.category],
              runs := W.runs.set i { r with pc := .done } })
    ∧ (∀ o, W.requestIdRef.isSome = true → silentFailure r.pc o = true →
        step W (.settle i o env) = { W with runs := W.runs.set i { r with pc := .done } }) := by
  refine ⟨?_, ?_, ?_⟩
  · intro t hpc
    rw [step_settle W i r _ env hr]
    obtain ⟨props, pc⟩ := r
    simp only at hpc
    subst hpc
    rfl
  · intro v hpc hv
    rw [step_settle W i r _ env hr]
    obtain ⟨props, pc⟩ := r
    simp only at hpc hv
    subst hpc
    simp [resume, hv, World.finish, World.suspend]
  · intro o hm hf
    rw [step_settle W i r o env hr, resume_silentFailure W i r o env hf,
      freshStep_marker_set W i r env hm]
    rfl

/-- C4 (witness): the second of two runs for Acme started in quick succession; its silent
lookup is answered 404 while the request of the first is outstanding. -/
theorem C4_second_run_noop_at_fresh_step_witness :
    acmeTwice.runs[1]? = some { props := acmeFresh, pc := .silentFetch }
    ∧ acmeTwice.requestIdRef.isSome = true
    ∧ silentFailure Pc.silentFetch (.response 404) = true
    ∧ step acmeTwice (.settle 1 (.response 404) laterEnv)
        = { acmeTwice with
            runs := acmeTwice.runs.set 1 { props := acmeFresh, pc := .done } } :=
  ⟨by decide, by decide, by decide,
   (C4_second_run_noop_at_fresh_step acmeTwice 1 { props := acmeFresh, pc := .silentFetch }
      laterEnv (by decide)).2.2 (.response 404) (by decide) (by decide)⟩

/-! ## C6: the late answer of a superseded request -/

/-- C6 (evaluation at the failing input). The analysis of Acme is outstanding when the
URL changes to Bolt: the cleanup runs and a new run starts for Bolt, which resets the
state. The request of Acme is then answered. Its answer is applied to the state of the
page that now shows Bolt: with a 200 answer analysis becomes the report of Acme, loading
becomes false and the URL is replaced by the saved URL of Acme; with a 500 answer the
error 'Failed to analyze brand name' is shown. If the run of Bolt has meanwhile taken the
marker and started its timer, the late answer also clears both. -/
theorem C6_late_response_applied :
    -- the state of the page after the identity changed to Bolt
    (exec acmeOutstanding [.cleanup, .effect boltFresh sampleEnv]).analysis = .null
    ∧ (exec acmeOutstanding [.cleanup, .effect boltFresh sampleEnv]).loading = true
    ∧ (exec acmeOutstanding [.cleanup, .effect boltFresh sampleEnv]).error = none
    -- a late 200 answer of the Acme request
    ∧ (exec acmeOutstanding [.cleanup, .effect boltFresh sampleEnv,
        .settle 0 (.response 200) sampleEnv,
        .settle 0 (.body (.obj [("brandName", .str "Acme"), ("overallScore", .num 72)]))
          sampleEnv]).analysis
      = .obj [("brandName", .str "Acme"), ("overallScore", .num 72)]
    ∧ (exec acmeOutstanding [.cleanup, .effect boltFresh sampleEnv,
        .settle 0 (.response 200) sampleEnv,
        .settle 0 (.body (.obj [("brandName", .str "Acme"), ("overallScore", .num 72)]))
          sampleEnv]).loading = false
    ∧ (exec acmeOutstanding [.cleanup, .effect boltFresh sampleEnv,
        .settle 0 (.response 200) sampleEnv,
        .settle 0 (.body (.obj [("brandName", .str "Acme"), ("overallScore", .num 72)]))
          sampleEnv]).replaced
      = ["/analysis?brand=Acme&category=tech%20%26%20saas&view=saved"]
    ∧ (exec acmeOutstanding [.cleanup, .effect boltFresh sampleEnv,
        .settle 0 (.response 200) sampleEnv,
        .settle 0 (.body (.obj [("brandName", .str "Acme"), ("overallScore", .num 72)]))
          sampleEnv]).runs[1]?
      = some { props := boltFresh, pc := .silentToken }
    -- a late 500 answer of the Acme request
    ∧ (exec acmeOutstanding [.cleanup, .effect boltFresh sampleEnv,
        .settle 0 (.response 500) sampleEnv]).error = some "Failed to analyze brand name"
    ∧ (exec acmeOutstanding [.cleanup, .effect boltFresh sampleEnv,
        .settle 0 (.response 500) sampleEnv]).loading = false
    -- the run of Bolt has taken the marker and started its timer; the late answer clears both
    ∧ (exec acmeOutstanding [.cleanup, .effect boltFresh sampleEnv,
        .settle 1 (.token "tok") sampleEnv, .settle 1 (.response 404) sampleEnv]).requestIdRef
      = some { brandName := "Bolt", category := "Technology", now := sampleEnv.now,
               rnd := sampleEnv.rnd }
    ∧ (exec acmeOutstanding [.cleanup, .effect boltFresh sampleEnv,
        .settle 1 (.token "tok") sampleEnv, .settle 1 (.response 404) sampleEnv]).timers = [2]
    ∧ (exec acmeOutstanding [.cleanup, .effect boltFresh sampleEnv,
        .settle 1 (.token "tok") sampleEnv, .settle 1 (.response 404) sampleEnv,
        .settle 0 (.response 500) sampleEnv]).requestIdRef = none
    ∧ (exec acmeOutstanding [.cleanup, .effect boltFresh sampleEnv,
        .settle 1 (.token "tok") sampleEnv, .settle 1 (.response 404) sampleEnv,
        .settle 0 (.response 500) sampleEnv]).timers = []
    ∧ (exec acmeOutstanding [.cleanup, .effect boltFresh sampleEnv,
        .settle 1 (.token "tok") sampleEnv, .settle 1 (.response 404) sampleEnv,
        .settle 0 (.response 500) sampleEnv]).runs[1]?
      = some { props := boltFresh, pc := .freshToken } := by
  decide

/-! ## C5: the de-duplication invariant -/

theorem reachable_exec (W : World) (es : List Event) (h : Reachable W) :
    Reachable (exec W es) := by
  induction es generalizing W with
  | nil => exact h
  | cons e es ih => exact ih (step W e) (Reachable.step W e h)


theorem set_self {α : Type} (l : List α) (i : Nat) (x : α) (h : l[i]? = some x) :
    l.set i x = l := by
  induction l generalizing i with
  | nil => rfl
  | cons a l ih =>
    cases i with
    | zero => simp at h; simp [h]
    | succ i => simp at h; simp [ih i h]

theorem countP_set_run (p : Run → Bool) (l : List Run) (i : Nat) (r r2 : Run)
    (h : l[i]? = some r) :
    (l.set i r2).countP p + (if p r then 1 else 0)
      = l.countP p + (if p r2 then 1 else 0) := by
  have hi := lt_of_get _ _ _ h
  have hget : l[i] = r := by
    rw [List.getElem?_eq_getElem hi] at h
    exact Option.some.inj h
  have hle := List.boole_getElem_le_countP p l i hi
  rw [List.countP_set p l i r2 hi, hget]
  rw [hget] at hle
  omega

/-- How one settlement changes the runs and the marker: the settled run moves to another
`await` (or returns) and nothing else moves; either it stays on the same side of the
fresh-analysis `try` with the marker untouched, or it enters the `try` taking a free
marker, or it leaves the `try` through `finally`, clearing the marker. -/
theorem resume_summary (W : World) (i : Nat) (r : Run) (o : Settled) (env : Env)
    (hr : W.runs[i]? = some r) :
    ∃ pc2, (resume W i r o env).runs = W.runs.set i { r with pc := pc2 }
      ∧ ((pc2.inFresh = r.pc.inFresh
            ∧ (resume W i r o env).requestIdRef = W.requestIdRef)
          ∨ (r.pc.inFresh = false ∧ W.requestIdRef = none ∧ pc2.inFresh = true
            ∧ (resume W i r o env).requestIdRef.isSome = true)
          ∨ (r.pc.inFresh = true ∧ pc2.inFresh = false
            ∧ (resume W i r o env).requestIdRef = none)) := by
  obtain ⟨props, pc⟩ := r
  have hself := (set_self _ _ _ hr).symm
  cases pc <;> cases o <;>
    simp only [resume, freshStep, freshCatch, freshFinally, savedCatch, World.finish,
      World.suspend, World.send, clearStageTimer_eq] <;>
    (try split) <;> (try split) <;> (try split) <;> (try split) <;>
    first
    | exact ⟨_, hself, Or.inl ⟨rfl, trivial⟩⟩
    | (clear hself; refine ⟨_, rfl, ?_⟩; simp_all [Pc.inFresh])

theorem dedup_settle (W : World) (i : Nat) (o : Settled) (env : Env) (h : Dedup W) :
    Dedup (step W (.settle i o env)) := by
  cases hr : W.runs[i]? with
  | none => simpa [step, hr] using h
  | some r =>
    rw [step_settle W i r o env hr]
    obtain ⟨pc2, hruns, hcase⟩ := resume_summary W i r o env hr
    have hcount := countP_set_run (fun r => r.pc.inFresh) W.runs i r { r with pc := pc2 } hr
    obtain ⟨hle, hiff⟩ := h
    unfold Dedup World.outstanding at *
    rw [hruns]
    simp only at hcount
    rcases hcase with ⟨h1, h2⟩ | ⟨h1, h2, h3, h4⟩ | ⟨h1, h2, h3⟩
    · rw [h2]
      simp only [h1] at hcount
      have : List.countP (fun r => r.pc.inFresh) (W.runs.set i { r with pc := pc2 })
          = List.countP (fun r => r.pc.inFresh) W.runs := by omega
      rw [this]
      exact ⟨hle, hiff⟩
    · simp only [h1, h3, Bool.false_eq_true, if_false, if_true] at hcount
      have h0 : List.countP (fun r => r.pc.inFresh) W.runs ≠ 1 := by
        intro hc
        have := hiff.mpr hc
        simp [h2] at this
      refine ⟨by omega, ?_⟩
      constructor
      · intro _; omega
      · intro _; exact h4
    · simp only [h1, h2, Bool.false_eq_true, if_false, if_true] at hcount
      refine ⟨by omega, ?_⟩
      rw [h3]
      constructor
      · intro hc; simp at hc
      · intro hc; omega

theorem dedup_effect (W : World) (p : Props) (env : Env) (h : Dedup W) :
    Dedup (step W (.effect p env)) := by
  simp only [step]
  by_cases hg : (truthyStr p.brand && p.user.isSome) = true
  · simp only [Bool.and_eq_true] at hg
    obtain ⟨hb, hu⟩ := hg
    obtain ⟨u, hu⟩ := Option.isSome_iff_exists.mp hu
    cases hv : p.isSaved
    · rw [effectRun_fresh W p env u hb hv hu]
      simpa [Dedup, World.outstanding, World.reset, Pc.inFresh] using h
    · rw [effectRun_saved W p env u hb hv hu]
      simpa [Dedup, World.outstanding, World.reset, Pc.inFresh] using h
  · simpa [effectRun, hg] using h

theorem dedup_tick (W : World) (t : Nat) (h : Dedup W) : Dedup (step W (.tick t)) := by
  simp only [step]
  split
  · simpa [Dedup, World.outstanding] using h
  · exact h

theorem dedup_cleanup (W : World) (h0 : W.outstanding = 0) : Dedup (step W .cleanup) := by
  have h1 : (step W .cleanup).outstanding = 0 := by
    simpa [World.outstanding, step, effectCleanup, clearStageTimer_eq] using h0
  have h2 : (step W .cleanup).requestIdRef = none := by
    simp [step, effectCleanup]
  simp [Dedup, h1, h2]

/-- C5 (amended). In every state reached from mount by effect runs, settlements and
timer ticks, and by cleanups that run while no fresh-analysis request is outstanding, at
most one fresh-analysis request is outstanding, and the marker `requestIdRef` is
non-null exactly when one is. -/
theorem C5_dedup_invariant_uninterrupted (W : World) (h : ReachableUninterrupted W) :
    W.outstanding ≤ 1 ∧ (W.requestIdRef.isSome = true ↔ W.outstanding = 1) := by
  have key : Dedup W := by
    induction h with
    | init => simp [Dedup, World.outstanding, World.init]
    | effect W p env _ ih => exact dedup_effect W p env ih
    | settle W i o env _ ih => exact dedup_settle W i o env ih
    | tick W t _ ih => exact dedup_tick W t ih
    | cleanup W _ h0 _ => exact dedup_cleanup W h0
  exact key

/-- C5 (witness): the state in which the analysis of Acme is outstanding. -/
theorem C5_dedup_invariant_uninterrupted_witness :
    ReachableUninterrupted acmeOutstanding
    ∧ acmeOutstanding.outstanding ≤ 1
    ∧ (acmeOutstanding.requestIdRef.isSome = true ↔ acmeOutstanding.outstanding = 1) := by
  have h1 := ReachableUninterrupted.effect World.init acmeFresh sampleEnv .init
  have h2 := ReachableUninterrupted.settle _ 0 (.token "tok") sampleEnv h1
  have h3 := ReachableUninterrupted.settle _ 0 (.response 404) sampleEnv h2
  have h4 : ReachableUninterrupted acmeOutstanding :=
    ReachableUninterrupted.settle _ 0 (.token "tok") sampleEnv h3
  exact ⟨h4, C5_dedup_invariant_uninterrupted acmeOutstanding h4⟩

/-- C5 (counterexample). The analysis of Acme is outstanding when the identity changes to
Bolt. The cleanup clears the marker although the request of Acme is still outstanding;
the run of Bolt then finds the marker free and sends a second request: two requests to
the analysis endpoint are outstanding at once. Both states are reached from mount by an
effect run, its cleanup, a second effect run and settlements, so the invariant does not
hold in every reachable state. -/
theorem C5_two_outstanding_counterexample :
    (exec acmeOutstanding [.cleanup]).requestIdRef = none
    ∧ (exec acmeOutstanding [.cleanup]).outstanding = 1
    ∧ (exec acmeOutstanding [.cleanup, .effect boltFresh sampleEnv,
        .settle 1 (.token "tok") sampleEnv, .settle 1 (.response 404) sampleEnv,
        .settle 1 (.token "tok") sampleEnv]).outstanding = 2
    ∧ ((exec acmeOutstanding [.cleanup, .effect boltFresh sampleEnv,
        .settle 1 (.token "tok") sampleEnv, .settle 1 (.response 404) sampleEnv,
        .settle 1 (.token "tok") sampleEnv]).runs.map (fun r => r.pc))
        = [.freshFetch, .freshFetch]
    ∧ (exec acmeOutstanding [.cleanup, .effect boltFresh sampleEnv,
        .settle 1 (.token "tok") sampleEnv, .settle 1 (.response 404) sampleEnv,
        .settle 1 (.token "tok") sampleEnv]).analyzeRequests.length = 2
    ∧ ¬ (∀ W : World, Reachable W →
          W.outstanding ≤ 1 ∧ (W.requestIdRef.isSome = true ↔ W.outstanding = 1)) := by
  refine ⟨by decide, by decide, by decide, by decide, by decide, ?_⟩
  intro h
  have hR : Reachable (exec acmeOutstanding [.cleanup]) :=
    reachable_exec _ _ (reachable_exec _ _ Reachable.init)
  have h1 := (h _ hR).2.mpr (by decide)
  revert h1
  decide

/-! ## Bookkeeping of the requests to the analysis endpoint -/

theorem resume_sent (W : World) (i : Nat) (r : Run) (o : Settled) (env : Env)
    (hr : W.runs[i]? = some r) :
    ∃ pc2, (resume W i r o env).runs = W.runs.set i { r with pc := pc2 }
      ∧ (((resume W i r o env).analyzeRequests = W.analyzeRequests
            ∧ (pc2 = .done ∨ (r.pc ≠ .done ∧ pc2.requestSent = r.pc.requestSent)))
          ∨ (∃ url t, (resume W i r o env).analyzeRequests
                = W.analyzeRequests ++ [{ run := i, endpoint := .analyze, url := url, token := t }]
            ∧ r.pc.requestSent = false ∧ r.pc ≠ .done ∧ pc2.requestSent = true)) := by
  obtain ⟨props, pc⟩ := r
  have hself := (set_self _ _ _ hr).symm
  cases pc <;> cases o <;>
    simp only [resume, freshStep, freshCatch, freshFinally, savedCatch, World.finish,
      World.suspend, World.send, clearStageTimer_eq] <;>
    (try split) <;> (try split) <;> (try split) <;> (try split) <;>
    first
    | exact ⟨_, hself, by simp [Pc.requestSent]⟩
    | (clear hself; refine ⟨_, rfl, ?_⟩;
       simp_all [Pc.requestSent, World.analyzeRequests, List.filter_append])

theorem sentInv_settle (W : World) (k : Nat) (o : Settled) (env : Env) (h : SentInv W) :
    SentInv (step W (.settle k o env)) := by
  cases hk : W.runs[k]? with
  | none => simpa [step, hk] using h
  | some r =>
    rw [step_settle W k r o env hk]
    obtain ⟨pc2, hruns, hcase⟩ := resume_sent W k r o env hk
    have hlt := lt_of_get _ _ _ hk
    intro i
    by_cases hik : i = k
    · subst hik
      have hget : (resume W i r o env).runs[i]? = some { r with pc := pc2 } := by
        rw [hruns]; simp [List.getElem?_set, hlt]
      obtain ⟨_, hsome⟩ := h i
      obtain ⟨hone, hzero⟩ := hsome r hk
      rw [hget]
      refine ⟨(by intro hc; cases hc), ?_⟩
      intro r2 hr2
      have hr2 : r2 = { r with pc := pc2 } := (Option.some.inj hr2).symm
      subst hr2
      rcases hcase with ⟨hreq, hpc⟩ | ⟨url, t, hreq, hns, hnd, hs⟩
      · have hsame : (resume W i r o env).sentBy i = W.sentBy i := by
          simp [World.sentBy, hreq]
        rw [hsame]
        rcases hpc with hd | ⟨hnd, hs⟩
        · subst hd
          simp [Pc.requestSent]
        · simp only
          rw [hs]
          refine ⟨hone, ?_⟩
          intro hf _
          exact hzero hf hnd
      · have hplus : (resume W i r o env).sentBy i = W.sentBy i + 1 := by
          simp [World.sentBy, hreq, List.countP_append]
        rw [hplus, hzero hns hnd]
        simp [hs]
    · have hget : (resume W k r o env).runs[i]? = W.runs[i]? := by
        rw [hruns]; simp [List.getElem?_set, Ne.symm hik]
      have hsame : (resume W k r o env).sentBy i = W.sentBy i := by
        rcases hcase with ⟨hreq, _⟩ | ⟨url, t, hreq, _, _, _⟩
        · simp [World.sentBy, hreq]
        · simp [World.sentBy, hreq, List.countP_append, Ne.symm hik]
      rw [hget, hsame]
      exact h i

theorem sentInv_effect (W : World) (p : Props) (env : Env) (h : SentInv W) :
    SentInv (step W (.effect p env)) := by
  simp only [step]
  by_cases hg : (truthyStr p.brand && p.user.isSome) = true
  · simp only [Bool.and_eq_true] at hg
    obtain ⟨hb, hu⟩ := hg
    obtain ⟨u, hu⟩ := Option.isSome_iff_exists.mp hu
    have key : ∀ pc : Pc, pc.requestSent = false →
        SentInv { W.reset with runs := W.runs ++ [{ props := p, pc := pc }] } := by
      intro pc hpc i
      have hs : World.sentBy { W.reset with runs := W.runs ++ [{ props := p, pc := pc }] } i
          = W.sentBy i := rfl
      rw [hs]
      simp only
      rcases Nat.lt_trichotomy i W.runs.length with hlt | heq | hgt
      · rw [List.getElem?_append_left hlt]
        exact h i
      · subst heq
        have hnone : W.runs[W.runs.length]? = none := List.getElem?_eq_none (Nat.le_refl _)
        have h0 := (h W.runs.length).1 hnone
        simp [h0, hpc]
      · have hnone : W.runs[i]? = none := List.getElem?_eq_none (Nat.le_of_lt hgt)
        have h0 := (h i).1 hnone
        have hnone2 : (W.runs ++ [{ props := p, pc := pc }])[i]? = none := by
          apply List.getElem?_eq_none
          simp; omega
        rw [hnone2]
        simp [h0]
    cases hv : p.isSaved
    · rw [effectRun_fresh W p env u hb hv hu]
      exact key _ rfl
    · rw [effectRun_saved W p env u hb hv hu]
      exact key _ rfl
  · simpa [effectRun, hg] using h

theorem sentInv_reachable (W : World) (h : Reachable W) : SentInv W := by
  induction h with
  | init =>
    intro i
    simp [World.init, World.sentBy, World.analyzeRequests]
  | step W e _ ih =>
    cases e with
    | effect p env => exact sentInv_effect W p env ih
    | cleanup =>
      intro i
      have := ih i
      simpa [step, effectCleanup, clearStageTimer_eq, World.sentBy, World.analyzeRequests]
        using this
    | settle i o env => exact sentInv_settle W i o env ih
    | tick t =>
      simp only [step]
      split
      · intro i
        have := ih i
        simpa [World.sentBy, World.analyzeRequests] using this
      · exact ih

theorem resume_frame (W : World) (i j : Nat) (r x : Run) (pc : Pc) (o : Settled) (env : Env)
    (hij : i ≠ j) :
    resume (W.suspend j x pc) i r o env = (resume W i r o env).suspend j x pc := by
  obtain ⟨props, rpc⟩ := r
  have hc : ∀ (a b : Run), (W.runs.set j a).set i b = (W.runs.set i b).set j a :=
    fun a b => List.set_comm a b W.runs (Ne.symm hij)
  cases rpc <;> cases o <;>
    simp only [resume, freshStep, freshCatch, freshFinally, savedCatch, World.finish,
      World.suspend, World.send, clearStageTimer_eq] <;>
    (try split) <;> (try split) <;> (try split) <;> (try split) <;>
    first
    | rfl
    | simp only [hc]

theorem step_frame (W : World) (i j : Nat) (x : Run) (pc : Pc) (o : Settled) (env : Env)
    (hij : i ≠ j) :
    step (W.suspend j x pc) (.settle i o env) = (step W (.settle i o env)).suspend j x pc := by
  have hget : (W.suspend j x pc).runs[i]? = W.runs[i]? := by
    simp [World.suspend, List.getElem?_set, Ne.symm hij]
  cases hr : W.runs[i]? with
  | none =>
    have h1 : step W (.settle i o env) = W := by simp [step, hr]
    have h2 : step (W.suspend j x pc) (.settle i o env) = W.suspend j x pc := by
      simp [step, hget, hr]
    rw [h1, h2]
  | some r =>
    rw [step_settle W i r o env hr, step_settle _ i r o env (hget.trans hr)]
    exact resume_frame W i j r x pc o env hij

theorem exec_frame (i j : Nat) (x : Run) (pc : Pc) (hij : i ≠ j)
    (rest : List (Settled × Env)) (W : World) :
    exec (W.suspend j x pc) (rest.map (fun oe => Event.settle i oe.1 oe.2))
      = (exec W (rest.map (fun oe => Event.settle i oe.1 oe.2))).suspend j x pc := by
  induction rest generalizing W with
  | nil => rfl
  | cons oe rest ih =>
    simp only [List.map_cons, exec, List.foldl_cons]
    rw [step_frame W i j x pc oe.1 oe.2 hij]
    exact ih _

theorem exec_after_sent (i : Nat) (rest : List (Settled × Env)) (W : World) (r : Run)
    (hr : W.runs[i]? = some r) (hpc : r.pc.requestSent = true ∨ r.pc = .done) :
    (exec W (rest.map (fun oe => Event.settle i oe.1 oe.2))).analyzeRequests
      = W.analyzeRequests := by
  induction rest generalizing W r with
  | nil => rfl
  | cons oe rest ih =>
    simp only [List.map_cons, exec, List.foldl_cons]
    rw [step_settle W i r oe.1 oe.2 hr]
    obtain ⟨pc2, hruns, hcase⟩ := resume_sent W i r oe.1 oe.2 hr
    have hlt := lt_of_get _ _ _ hr
    have hget : (resume W i r oe.1 oe.2).runs[i]? = some { r with pc := pc2 } := by
      rw [hruns]; simp [List.getElem?_set, hlt]
    rcases hcase with ⟨hreq, hpc2⟩ | ⟨url, t, _, hns, hnd, _⟩
    · have := ih (resume W i r oe.1 oe.2) { r with pc := pc2 } hget (by
        rcases hpc2 with hd | ⟨_, hs⟩
        · exact Or.inr hd
        · rcases hpc with h | h
          · left; simp only; rw [hs]; exact h
          · right; simp only; exact absurd h ‹r.pc ≠ Pc.done›)
      simp only [exec] at this
      rw [this, hreq]
    · rcases hpc with h | h
      · rw [h] at hns; cases hns
      · exact absurd h hnd

/-! ## C9: one terminal state per identity change -/

theorem drive_done (n : Nat) (W : World) (i : Nat) (oc : Outcomes) (p : Props)
    (h : W.runs[i]? = some { props := p, pc := .done }) : drive n W i oc = W := by
  cases n with
  | zero => rfl
  | succ n => simp [drive, h]

theorem drive_succ (n : Nat) (W : World) (i : Nat) (oc : Outcomes) (r : Run)
    (h : W.runs[i]? = some r) (hpc : r.pc ≠ .done) :
    drive (n + 1) W i oc = drive n (resume W i r (oc r.pc).1 (oc r.pc).2) i oc := by
  simp [drive, h, hpc, step]

theorem terminal_freshCatch (W : World) (i : Nat) (p : Props) (pc : Pc) (m : String)
    (oc : Outcomes) (n : Nat)
    (hr : W.runs[i]? = some { props := p, pc := pc }) (ha : W.analysis = .null) :
    Terminal (drive n (freshCatch W i { props := p, pc := pc } m) i oc) i p oc := by
  have hi := lt_of_get _ _ _ hr
  have hd : (freshCatch W i { props := p, pc := pc } m).runs[i]?
      = some { props := p, pc := .done } := by
    simp [freshCatch, freshFinally, World.finish, World.suspend, clearStageTimer_eq,
      List.getElem?_set, hi]
  rw [drive_done n _ i oc p hd]
  refine ⟨hd, ?_, ?_, ?_⟩ <;>
    simp [freshCatch, freshFinally, World.finish, World.suspend, clearStageTimer_eq, ha]

theorem terminal_savedCatch (W : World) (i : Nat) (p : Props) (pc : Pc)
    (oc : Outcomes) (n : Nat)
    (hr : W.runs[i]? = some { props := p, pc := pc }) (ha : W.analysis = .null) :
    Terminal (drive n (savedCatch W i { props := p, pc := pc }) i oc) i p oc := by
  have hi := lt_of_get _ _ _ hr
  have hd : (savedCatch W i { props := p, pc := pc }).runs[i]?
      = some { props := p, pc := .done } := by
    simp [savedCatch, World.finish, World.suspend, List.getElem?_set, hi]
  rw [drive_done n _ i oc p hd]
  refine ⟨hd, ?_, ?_, ?_⟩ <;>
    simp [savedCatch, World.finish, World.suspend, ha]

theorem resume_freshJson_body (W : World) (i : Nat) (p : Props) (v : JSVal) (env : Env) :
    (resume W i { props := p, pc := .freshJson } (.body v) env).analysis = v
    ∧ (resume W i { props := p, pc := .freshJson } (.body v) env).loading = false
    ∧ (resume W i { props := p, pc := .freshJson } (.body v) env).error = W.error
    ∧ (resume W i { props := p, pc := .freshJson } (.body v) env).requestIdRef = none
    ∧ (resume W i { props := p, pc := .freshJson } (.body v) env).runs
        = W.runs.set i { props := p, pc := .done } := by
  simp only [resume]
  split_ifs <;> simp [freshFinally, World.finish, World.suspend, clearStageTimer_eq]

theorem terminal_from_freshJson (W : World) (i : Nat) (p : Props) (oc : Outcomes) (n : Nat)
    (ht : oc.wellTyped)
    (hr : W.runs[i]? = some { props := p, pc := .freshJson })
    (ha : W.analysis = .null) (he : W.error = none) :
    Terminal (drive (n + 1) W i oc) i p oc := by
  have hi := lt_of_get _ _ _ hr
  rw [drive_succ n W i oc _ hr (by simp)]
  have hty := ht .freshJson (by simp)
  simp only
  cases ho : (oc .freshJson).1 with
  | token t => simp [Pc.accepts, ho] at hty
  | response s => simp [Pc.accepts, ho] at hty
  | rejected m => exact terminal_freshCatch W i p _ m oc n hr ha
  | body v =>
    obtain ⟨h1, h2, h3, _, h5⟩ := resume_freshJson_body W i p v (oc .freshJson).2
    have hd : (resume W i { props := p, pc := .freshJson } (.body v) (oc .freshJson).2).runs[i]?
        = some { props := p, pc := .done } := by
      rw [h5]; simp [List.getElem?_set, hi]
    rw [drive_done n _ i oc p hd]
    refine ⟨hd, h2, ?_, ?_⟩
    · rw [h3, he]; simp
    · rw [h1]
      intro hv
      right
      rw [ho, hv.1]

theorem terminal_from_freshJson403 (W : World) (i : Nat) (p : Props) (oc : Outcomes) (n : Nat)
    (ht : oc.wellTyped)
    (hr : W.runs[i]? = some { props := p, pc := .freshJson403 })
    (ha : W.analysis = .null) :
    Terminal (drive (n + 1) W i oc) i p oc := by
  rw [drive_succ n W i oc _ hr (by simp)]
  have hty := ht .freshJson403 (by simp)
  simp only
  cases ho : (oc .freshJson403).1 with
  | token t => simp [Pc.accepts, ho] at hty
  | response s => simp [Pc.accepts, ho] at hty
  | rejected m => exact terminal_freshCatch W i p _ m oc n hr ha
  | body v => exact terminal_freshCatch W i p _ _ oc n hr ha

theorem terminal_from_freshJson402 (W : World) (i : Nat) (p : Props) (oc : Outcomes) (n : Nat)
    (ht : oc.wellTyped)
    (hr : W.runs[i]? = some { props := p, pc := .freshJson402 })
    (ha : W.analysis = .null) :
    Terminal (drive (n + 1) W i oc) i p oc := by
  rw [drive_succ n W i oc _ hr (by simp)]
  have hty := ht .freshJson402 (by simp)
  simp only
  cases ho : (oc .freshJson402).1 with
  | token t => simp [Pc.accepts, ho] at hty
  | response s => simp [Pc.accepts, ho] at hty
  | rejected m => exact terminal_freshCatch W i p _ m oc n hr ha
  | body v => exact terminal_freshCatch W i p _ _ oc n hr ha

theorem terminal_from_freshFetch (W : World) (i : Nat) (p : Props) (oc : Outcomes) (n : Nat)
    (ht : oc.wellTyped)
    (hr : W.runs[i]? = some { props := p, pc := .freshFetch })
    (ha : W.analysis = .null) (he : W.error = none) :
    Terminal (drive (n + 2) W i oc) i p oc := by
  rw [drive_succ (n + 1) W i oc _ hr (by simp)]
  have hty := ht .freshFetch (by simp)
  simp only
  cases ho : (oc .freshFetch).1 with
  | token t => simp [Pc.accepts, ho] at hty
  | body v => simp [Pc.accepts, ho] at hty
  | rejected m => exact terminal_freshCatch W i p _ m oc (n + 1) hr ha
  | response status =>
    simp only [resume]
    split_ifs
    · exact terminal_from_freshJson403 _ i p oc n ht (suspend_get W i _ _ hr) ha
    · exact terminal_from_freshJson402 _ i p oc n ht (suspend_get W i _ _ hr) ha
    · exact terminal_freshCatch W i p _ _ oc (n + 1) hr ha
    · exact terminal_from_freshJson _ i p oc n ht (suspend_get W i _ _ hr) ha he

theorem terminal_from_freshToken (W : World) (i : Nat) (p : Props) (oc : Outcomes) (n : Nat)
    (ht : oc.wellTyped)
    (hr : W.runs[i]? = some { props := p, pc := .freshToken })
    (ha : W.analysis = .null) (he : W.error = none) :
    Terminal (drive (n + 3) W i oc) i p oc := by
  rw [drive_succ (n + 2) W i oc _ hr (by simp)]
  have hty := ht .freshToken (by simp)
  simp only
  cases ho : (oc .freshToken).1 with
  | response s => simp [Pc.accepts, ho] at hty
  | body v => simp [Pc.accepts, ho] at hty
  | rejected m => exact terminal_freshCatch W i p _ m oc (n + 2) hr ha
  | token t =>
    simp only [resume]
    refine terminal_from_freshFetch _ i p oc n ht ?_ ha he
    exact suspend_get (W.send i .analyze _ t) i _ _ hr

theorem terminal_freshStep (W : World) (i : Nat) (p : Props) (pc : Pc) (oc : Outcomes)
    (n : Nat) (u : User) (env : Env) (ht : oc.wellTyped)
    (hr : W.runs[i]? = some { props := p, pc := pc })
    (ha : W.analysis = .null) (he : W.error = none)
    (hm : W.requestIdRef = none) (hu : p.user = some u) :
    Terminal (drive (n + 3) (freshStep W i { props := p, pc := pc } env) i oc) i p oc := by
  have hi := lt_of_get _ _ _ hr
  simp only [freshStep, hm, hu]
  refine terminal_from_freshToken _ i p oc n ht ?_ ha he
  simp [World.suspend, List.getElem?_set, hi]

theorem resume_silentJson_body (W : World) (i : Nat) (p : Props) (v : JSVal) (env : Env) :
    (resume W i { props := p, pc := .silentJson } (.body v) env).analysis = v
    ∧ (resume W i { props := p, pc := .silentJson } (.body v) env).loading = false
    ∧ (resume W i { props := p, pc := .silentJson } (.body v) env).error = W.error
    ∧ (resume W i { props := p, pc := .silentJson } (.body v) env).runs
        = W.runs.set i { props := p, pc := .done } := by
  simp only [resume]
  split_ifs <;> simp [World.finish, World.suspend]

theorem terminal_from_silentJson (W : World) (i : Nat) (p : Props) (oc : Outcomes) (n : Nat)
    (u : User) (ht : oc.wellTyped)
    (hr : W.runs[i]? = some { props := p, pc := .silentJson })
    (ha : W.analysis = .null) (he : W.error = none)
    (hm : W.requestIdRef = none) (hu : p.user = some u) :
    Terminal (drive (n + 4) W i oc) i p oc := by
  have hi := lt_of_get _ _ _ hr
  rw [drive_succ (n + 3) W i oc _ hr (by simp)]
  have hty := ht .silentJson (by simp)
  simp only
  cases ho : (oc .silentJson).1 with
  | token t => simp [Pc.accepts, ho] at hty
  | response s => simp [Pc.accepts, ho] at hty
  | rejected m =>
    simp only [resume]
    exact terminal_freshStep W i p _ oc n u _ ht hr ha he hm hu
  | body v =>
    have hfields := resume_silentJson_body W i p v (oc .silentJson).2
    obtain ⟨h1, h2, h3, h5⟩ := hfields
    have hd : (resume W i { props := p, pc := .silentJson } (.body v) (oc .silentJson).2).runs[i]?
        = some { props := p, pc := .done } := by
      rw [h5]; simp [List.getElem?_set, hi]
    rw [drive_done (n + 3) _ i oc p hd]
    refine ⟨hd, h2, ?_, ?_⟩
    · rw [h3, he]; simp
    · rw [h1]
      intro hv
      left
      rw [ho, hv.1]

theorem terminal_from_silentFetch (W : World) (i : Nat) (p : Props) (oc : Outcomes) (n : Nat)
    (u : User) (ht : oc.wellTyped)
    (hr : W.runs[i]? = some { props := p, pc := .silentFetch })
    (ha : W.analysis = .null) (he : W.error = none)
    (hm : W.requestIdRef = none) (hu : p.user = some u) :
    Terminal (drive (n + 5) W i oc) i p oc := by
  rw [drive_succ (n + 4) W i oc _ hr (by simp)]
  have hty := ht .silentFetch (by simp)
  simp only
  cases ho : (oc .silentFetch).1 with
  | token t => simp [Pc.accepts, ho] at hty
  | body v => simp [Pc.accepts, ho] at hty
  | rejected m =>
    simp only [resume]
    exact terminal_freshStep W i p _ oc (n + 1) u _ ht hr ha he hm hu
  | response status =>
    simp only [resume]
    split_ifs
    · exact terminal_from_silentJson _ i p oc n u ht (suspend_get W i _ _ hr) ha he hm hu
    · exact terminal_freshStep W i p _ oc (n + 1) u _ ht hr ha he hm hu

theorem terminal_from_silentToken (W : World) (i : Nat) (p : Props) (oc : Outcomes) (n : Nat)
    (u : User) (ht : oc.wellTyped)
    (hr : W.runs[i]? = some { props := p, pc := .silentToken })
    (ha : W.analysis = .null) (he : W.error = none)
    (hm : W.requestIdRef = none) (hu : p.user = some u) :
    Terminal (drive (n + 6) W i oc) i p oc := by
  rw [drive_succ (n + 5) W i oc _ hr (by simp)]
  have hty := ht .silentToken (by simp)
  simp only
  cases ho : (oc .silentToken).1 with
  | response s => simp [Pc.accepts, ho] at hty
  | body v => simp [Pc.accepts, ho] at hty
  | rejected m =>
    simp only [resume]
    exact terminal_freshStep W i p _ oc (n + 2) u _ ht hr ha he hm hu
  | token t =>
    simp only [resume]
    refine terminal_from_silentFetch _ i p oc n u ht ?_ ha he hm hu
    exact suspend_get (W.send i .viewReport _ t) i _ _ hr

theorem validatedData_ok_obj (b c iso : String) (d v : JSVal)
    (h : validatedData b c iso d = .ok v) : ∃ kvs, v = .obj kvs := by
  unfold validatedData at h
  split at h
  · cases h
  · simp only [Except.ok.injEq] at h
    exact ⟨_, h.symm⟩

theorem terminal_from_savedJson (W : World) (i : Nat) (p : Props) (oc : Outcomes) (n : Nat)
    (ht : oc.wellTyped)
    (hr : W.runs[i]? = some { props := p, pc := .savedJson })
    (ha : W.analysis = .null) (he : W.error = none) :
    Terminal (drive (n + 1) W i oc) i p oc := by
  have hi := lt_of_get _ _ _ hr
  rw [drive_succ n W i oc _ hr (by simp)]
  have hty := ht .savedJson (by simp)
  simp only
  cases ho : (oc .savedJson).1 with
  | token t => simp [Pc.accepts, ho] at hty
  | response s => simp [Pc.accepts, ho] at hty
  | rejected m =>
    simp only [resume]
    exact terminal_savedCatch W i p _ oc n hr ha
  | body d =>
    simp only [resume]
    cases hv : validatedData p.brandName p.category (oc .savedJson).2.iso d with
    | error e =>
      simp only
      exact terminal_savedCatch W i p _ oc n hr ha
    | ok v =>
      obtain ⟨kvs, hk⟩ := validatedData_ok_obj _ _ _ _ _ hv
      subst hk
      simp only
      have hd : (World.finish { W with analysis := .obj kvs, loading := false } i
          { props := p, pc := .savedJson }).runs[i]? = some { props := p, pc := .done } := by
        simp [World.finish, World.suspend, List.getElem?_set, hi]
      rw [drive_done n _ i oc p hd]
      refine ⟨hd, ?_, ?_, ?_⟩ <;> simp [World.finish, World.suspend, he]

theorem terminal_from_savedFetch (W : World) (i : Nat) (p : Props) (oc : Outcomes) (n : Nat)
    (ht : oc.wellTyped)
    (hr : W.runs[i]? = some { props := p, pc := .savedFetch })
    (ha : W.analysis = .null) (he : W.error = none) :
    Terminal (drive (n + 2) W i oc) i p oc := by
  have hi := lt_of_get _ _ _ hr
  rw [drive_succ (n + 1) W i oc _ hr (by simp)]
  have hty := ht .savedFetch (by simp)
  simp only
  cases ho : (oc .savedFetch).1 with
  | token t => simp [Pc.accepts, ho] at hty
  | body v => simp [Pc.accepts, ho] at hty
  | rejected m =>
    simp only [resume]
    exact terminal_savedCatch W i p _ oc (n + 1) hr ha
  | response status =>
    simp only [resume]
    split_ifs
    · have hd : (World.finish
          { W with error := some "Saved report not found. It may have been deleted or expired.",
                   loading := false } i
          { props := p, pc := .savedFetch }).runs[i]? = some { props := p, pc := .done } := by
        simp [World.finish, World.suspend, List.getElem?_set, hi]
      rw [drive_done (n + 1) _ i oc p hd]
      refine ⟨hd, ?_, ?_, ?_⟩ <;> simp [World.finish, World.suspend, ha]
    · exact terminal_savedCatch W i p _ oc (n + 1) hr ha
    · exact terminal_from_savedJson _ i p oc n ht (suspend_get W i _ _ hr) ha he

theorem terminal_from_savedToken (W : World) (i : Nat) (p : Props) (oc : Outcomes) (n : Nat)
    (ht : oc.wellTyped)
    (hr : W.runs[i]? = some { props := p, pc := .savedToken })
    (ha : W.analysis = .null) (he : W.error = none) :
    Terminal (drive (n + 3) W i oc) i p oc := by
  rw [drive_succ (n + 2) W i oc _ hr (by simp)]
  have hty := ht .savedToken (by simp)
  simp only
  cases ho : (oc .savedToken).1 with
  | response s => simp [Pc.accepts, ho] at hty
  | body v => simp [Pc.accepts, ho] at hty
  | rejected m =>
    simp only [resume]
    exact terminal_savedCatch W i p _ oc (n + 2) hr ha
  | token t =>
    simp only [resume]
    refine terminal_from_savedFetch _ i p oc n ht ?_ ha he
    exact suspend_get (W.send i .viewReport _ t) i _ _ hr

/-- C9 (counterexample). Two runs of the flow that reach no terminal state with exactly
one of analysis and error set. First: the analysis endpoint answers 200 with the body
`null`; the run has returned and loading is false, but analysis and error are both
null. Second: the identity changes from Acme to Bolt while the saved lookup of Acme is
pending; the run of Acme then takes the marker and sends its request, and the run of
Bolt, reaching the fresh-analysis step with the marker set, returns: the run for the
current identity is over while loading is still true and nothing is set. -/
theorem C9_no_terminal_state_counterexample :
    (exec acmeOutstanding
        [.settle 0 (.response 200) sampleEnv, .settle 0 (.body .null) sampleEnv]).runs[0]?
      = some { props := acmeFresh, pc := .done }
    ∧ (exec acmeOutstanding
        [.settle 0 (.response 200) sampleEnv, .settle 0 (.body .null) sampleEnv]).loading = false
    ∧ (exec acmeOutstanding
        [.settle 0 (.response 200) sampleEnv, .settle 0 (.body .null) sampleEnv]).analysis = .null
    ∧ (exec acmeOutstanding
        [.settle 0 (.response 200) sampleEnv, .settle 0 (.body .null) sampleEnv]).error = none
    ∧ (exec World.init
        [ .effect acmeFresh sampleEnv, .cleanup, .effect boltFresh sampleEnv,
          .settle 0 (.token "tok") sampleEnv, .settle 0 (.response 404) sampleEnv,
          .settle 0 (.token "tok") sampleEnv,
          .settle 1 (.token "tok") sampleEnv, .settle 1 (.response 404) sampleEnv ]).runs[1]?
      = some { props := boltFresh, pc := .done }
    ∧ (exec World.init
        [ .effect acmeFresh sampleEnv, .cleanup, .effect boltFresh sampleEnv,
          .settle 0 (.token "tok") sampleEnv, .settle 0 (.response 404) sampleEnv,
          .settle 0 (.token "tok") sampleEnv,
          .settle 1 (.token "tok") sampleEnv, .settle 1 (.response 404) sampleEnv ]).loading
      = true
    ∧ (exec World.init
        [ .effect acmeFresh sampleEnv, .cleanup, .effect boltFresh sampleEnv,
          .settle 0 (.token "tok") sampleEnv, .settle 0 (.response 404) sampleEnv,
          .settle 0 (.token "tok") sampleEnv,
          .settle 1 (.token "tok") sampleEnv, .settle 1 (.response 404) sampleEnv ]).analysis
      = .null
    ∧ (exec World.init
        [ .effect acmeFresh sampleEnv, .cleanup, .effect boltFresh sampleEnv,
          .settle 0 (.token "tok") sampleEnv, .settle 0 (.response 404) sampleEnv,
          .settle 0 (.token "tok") sampleEnv,
          .settle 1 (.token "tok") sampleEnv, .settle 1 (.response 404) sampleEnv ]).error
      = none := by
  decide

/-- C9 (amended). The identity changes (cleanup, then an effect run with a brand name and
a user) and the run started for it proceeds on its own, no other run being resumed
meanwhile. For every combination of outcomes of the token, lookup and analysis promises,
after at most six settlements the run has returned, loading is false, and analysis and
error are never both set. They are both unset only when a successful answer (of the
silent lookup or of the analysis endpoint) had the body `null`, which is then the value
of analysis; in every other case exactly one of the two is set. -/
theorem C9_single_terminal_state_amended (W : World) (p : Props) (env : Env) (oc : Outcomes)
    (hb : truthyStr p.brand = true) (hu : p.user.isSome = true) (ht : oc.wellTyped) :
    (drive 6 (exec W [.cleanup, .effect p env]) W.runs.length oc).runs[W.runs.length]?
      = some { props := p, pc := .done }
    ∧ (drive 6 (exec W [.cleanup, .effect p env]) W.runs.length oc).loading = false
    ∧ ¬ ((drive 6 (exec W [.cleanup, .effect p env]) W.runs.length oc).analysis ≠ .null
        ∧ (drive 6 (exec W [.cleanup, .effect p env]) W.runs.length oc).error ≠ none)
    ∧ ((drive 6 (exec W [.cleanup, .effect p env]) W.runs.length oc).analysis = .null
        ∧ (drive 6 (exec W [.cleanup, .effect p env]) W.runs.length oc).error = none →
        (oc .silentJson).1 = .body .null ∨ (oc .freshJson).1 = .body .null) := by
  obtain ⟨u, hu⟩ := Option.isSome_iff_exists.mp hu
  have hlen : (effectCleanup W).runs = W.runs := by
    simp [effectCleanup, clearStageTimer_eq]
  have hmark : (effectCleanup W).requestIdRef = none := by
    simp [effectCleanup]
  have key : Terminal (drive 6 (exec W [.cleanup, .effect p env]) W.runs.length oc)
      W.runs.length p oc := by
    simp only [exec, List.foldl, step]
    cases hv : p.isSaved
    · rw [effectRun_fresh _ p env u hb hv hu]
      refine terminal_from_silentToken _ _ p oc 0 u ht ?_ rfl rfl ?_ hu
      · simp [hlen]
      · simpa [World.reset] using hmark
    · rw [effectRun_saved _ p env u hb hv hu]
      refine terminal_from_savedToken _ _ p oc 3 ht ?_ rfl rfl
      simp [hlen]
  exact key

/-- C9 (witness): the page is opened for Acme; no saved report exists and the analysis
answers 200 with a report. -/
theorem C9_single_terminal_state_amended_witness :
    truthyStr acmeFresh.brand = true ∧ acmeFresh.user.isSome = true
    ∧ sampleOutcomes.wellTyped
    ∧ (drive 6 (exec World.init [.cleanup, .effect acmeFresh sampleEnv]) 0 sampleOutcomes).loading
        = false :=
  ⟨by decide, by decide,
   (fun pc h => by cases pc <;> first | rfl | exact absurd rfl h),
   (C9_single_terminal_state_amended World.init acmeFresh sampleEnv sampleOutcomes (by decide)
      (by decide) (fun pc h => by cases pc <;> first | rfl | exact absurd rfl h)).2.1⟩

/-! ## C12: the silent lookup finds a saved report -/

/-- C12. Outside saved mode, for every brand name, category and user: the effect runs,
the token is obtained, the silent lookup is answered with a success status and its body
parses to `v`. Then the page is exactly the page before the run with: analysis equal to
`v`, loading false, error null, isSearching false, stage 0, the lookup as the only request
added to the log (nothing is sent to the analysis endpoint), the saved URL of the same
brand name and category added to the `router.replace` calls, and the run finished. The
marker, the timer handle and the live timers are as they were: no marker is set and no
timer is started. -/
theorem C12_silent_lookup_short_circuit (W : World) (p : Props) (env env1 env2 env3 : Env)
    (t : String) (status : Nat) (v : JSVal)
    (hb : truthyStr p.brand = true) (hv : p.isSaved = false) (hu : p.user.isSome = true)
    (hok : statusOk status = true) :
    exec W [ .effect p env,
             .settle W.runs.length (.token t) env1,
             .settle W.runs.length (.response status) env2,
             .settle W.runs.length (.body v) env3 ]
      = { W with
          analysis := v, loading := false, error := none, isSearching := false,
          loadingStage := 0,
          requests := W.requests ++ [{ run := W.runs.length, endpoint := .viewReport,
                                       url := viewReportUrl p.brandName p.category,
                                       token := t }],
          replaced := W.replaced ++ [savedUrl p.brandName p.category],
          runs := W.runs ++ [{ props := p, pc := .done }] } := by
  obtain ⟨u, hu⟩ := Option.isSome_iff_exists.mp hu
  simp only [exec, List.foldl, step]
  rw [effectRun_fresh W p env u hb hv hu]
  simp [resume, World.send, World.suspend, World.finish, World.reset, set_concat_length,
    hok, hv]

/-- C12 (witness): Acme is opened without `view`, and a saved report of it exists. -/
theorem C12_silent_lookup_short_circuit_witness :
    truthyStr acmeFresh.brand = true ∧ acmeFresh.isSaved = false
    ∧ acmeFresh.user.isSome = true ∧ statusOk 200 = true
    ∧ (exec World.init [ .effect acmeFresh sampleEnv,
             .settle World.init.runs.length (.token "tok") sampleEnv,
             .settle World.init.runs.length (.response 200) sampleEnv,
             .settle World.init.runs.length (.body (.obj [("overallScore", .num 72)]))
               sampleEnv ]).replaced
        = ["/analysis?brand=Acme&category=tech%20%26%20saas&view=saved"] := by
  have h := C12_silent_lookup_short_circuit World.init acmeFresh sampleEnv sampleEnv sampleEnv
    sampleEnv "tok" 200 (.obj [("overallScore", .num 72)]) (by decide) (by decide)
    (by decide) (by decide)
  exact ⟨by decide, by decide, by decide, by decide, by rw [h]; decide⟩

/-! ## C16: the stage counter -/

theorem resume_loadingStage (W : World) (i : Nat) (r : Run) (o : Settled) (env : Env) :
    (resume W i r o env).loadingStage = W.loadingStage := by
  obtain ⟨props, pc⟩ := r
  cases pc <;> cases o <;>
    simp only [resume, freshStep, freshCatch, freshFinally, savedCatch, World.finish,
      World.suspend, World.send, clearStageTimer_eq] <;>
    (try split) <;> (try split) <;> (try split) <;> (try split) <;>
    rfl

theorem nextStage_le (s : Nat) (h : s ≤ 5) : nextStage s ≤ 5 := by
  unfold nextStage
  have : loadingStages.length - 1 = 5 := rfl
  rw [this]
  split <;> omega

theorem loadingStage_le_reachable (W : World) (h : Reachable W) : W.loadingStage ≤ 5 := by
  induction h with
  | init => simp [World.init]
  | step W e _ ih =>
    cases e with
    | effect p env =>
      simp only [step]
      by_cases hg : (truthyStr p.brand && p.user.isSome) = true
      · simp only [Bool.and_eq_true] at hg
        obtain ⟨hb, hu⟩ := hg
        obtain ⟨u, hu⟩ := Option.isSome_iff_exists.mp hu
        cases hv : p.isSaved
        · rw [effectRun_fresh W p env u hb hv hu]
          simp [World.reset]
        · rw [effectRun_saved W p env u hb hv hu]
          simp [World.reset]
      · simpa [effectRun, hg] using ih
    | cleanup => simpa [step, effectCleanup, clearStageTimer_eq] using ih
    | settle i o env =>
      simp only [step]
      split
      · rw [resume_loadingStage]; exact ih
      · exact ih
    | tick t =>
      simp only [step]
      split
      · exact nextStage_le _ ih
      · exact ih

/-- C16. The updater of the interval callback maps a stage `s` to `s + 1` when `s < 5`
and to `s` otherwise. Starting from stage 0, the stage after `n` ticks is `min n 5`, for
every `n`; it is an index into the six `loadingStages`, and the displayed step number
(stage plus one) is at most 6. In every state of the page reached from mount, whatever
the events, the stage is such an index. -/
theorem C16_stage_counter_bounded :
    loadingStages.length = 6
    ∧ (∀ s : Nat, nextStage s = if s < 5 then s + 1 else s)
    ∧ (∀ n : Nat, Nat.iterate nextStage n 0 = min n 5)
    ∧ (∀ n : Nat, Nat.iterate nextStage n 0 < loadingStages.length)
    ∧ (∀ n : Nat, Nat.iterate nextStage n 0 + 1 ≤ 6)
    ∧ (∀ (W : World) (h : Nat), h ∈ W.timers →
        (step W (.tick h)).loadingStage = nextStage W.loadingStage)
    ∧ (∀ W : World, Reachable W →
        W.loadingStage < loadingStages.length ∧ W.loadingStage + 1 ≤ 6) := by
  have hlen : loadingStages.length = 6 := rfl
  have hnext : ∀ s : Nat, nextStage s = if s < 5 then s + 1 else s := by
    intro s
    unfold nextStage
    rw [hlen]
  have hiter : ∀ n : Nat, Nat.iterate nextStage n 0 = min n 5 := by
    intro n
    induction n with
    | zero => rfl
    | succ n ih =>
      rw [Function.iterate_succ_apply', ih, hnext]
      split <;> omega
  refine ⟨hlen, hnext, hiter, ?_, ?_, ?_, ?_⟩
  · intro n; rw [hiter, hlen]; omega
  · intro n; rw [hiter]; omega
  · intro W h hmem; simp [step, hmem]
  · intro W hR
    have := loadingStage_le_reachable W hR
    rw [hlen]; omega

/-- C16 (witness): the analysis of Acme is outstanding and its timer ticks seven times. -/
theorem C16_stage_counter_bounded_witness :
    Reachable (exec acmeOutstanding [.tick 1, .tick 1, .tick 1, .tick 1, .tick 1, .tick 1,
      .tick 1])
    ∧ (1 : Nat) ∈ acmeOutstanding.timers
    ∧ (exec acmeOutstanding [.tick 1, .tick 1, .tick 1, .tick 1, .tick 1, .tick 1,
        .tick 1]).loadingStage = 5
    ∧ (exec acmeOutstanding [.tick 1, .tick 1, .tick 1, .tick 1, .tick 1, .tick 1,
        .tick 1]).loadingStage < loadingStages.length := by
  have hR : Reachable (exec acmeOutstanding [.tick 1, .tick 1, .tick 1, .tick 1, .tick 1,
      .tick 1, .tick 1]) := reachable_exec _ _ (reachable_exec _ _ Reachable.init)
  exact ⟨hR, by decide, by decide, (C16_stage_counter_bounded.2.2.2.2.2.2 _ hR).1⟩

/-! ## C17: reset on an identity change -/

/-- C17. Whatever the state of the page, the effect cleanup leaves the marker and the
stored timer handle null, and the timer the handle referred to is no longer live. When
the effect then runs for the new identity (a brand name and a user are present), the call
of `loadReport` it makes first puts the state to Loading with stage 0: analysis null,
error null, loading true, isSearching false, stage 0; the call is then suspended at its
first `await`, with the marker and the timer handle still null. -/
theorem C17_identity_change_resets (W : World) (p : Props) (env : Env)
    (hb : truthyStr p.brand = true) (hu : p.user.isSome = true) :
    (step W .cleanup).requestIdRef = none
    ∧ (step W .cleanup).intervalRef = none
    ∧ (∀ h, W.intervalRef = some h → h ∉ (step W .cleanup).timers)
    ∧ (exec W [.cleanup, .effect p env]).analysis = .null
    ∧ (exec W [.cleanup, .effect p env]).error = none
    ∧ (exec W [.cleanup, .effect p env]).loading = true
    ∧ (exec W [.cleanup, .effect p env]).isSearching = false
    ∧ (exec W [.cleanup, .effect p env]).loadingStage = 0
    ∧ (exec W [.cleanup, .effect p env]).requestIdRef = none
    ∧ (exec W [.cleanup, .effect p env]).intervalRef = none
    ∧ (exec W [.cleanup, .effect p env]).runs
        = W.runs ++ [{ props := p, pc := if p.isSaved then .savedToken else .silentToken }]
    := by
  obtain ⟨u, hu⟩ := Option.isSome_iff_exists.mp hu
  refine ⟨by simp [step, effectCleanup], by simp [step, effectCleanup, clearStageTimer_eq],
    ?_, ?_⟩
  · intro h hh
    simp [step, effectCleanup, clearStageTimer_eq, hh]
  · simp only [exec, List.foldl, step]
    cases hv : p.isSaved
    · rw [effectRun_fresh _ p env u hb hv hu]
      simp [World.reset, effectCleanup, clearStageTimer_eq]
    · rw [effectRun_saved _ p env u hb hv hu]
      simp [World.reset, effectCleanup, clearStageTimer_eq]

/-- C17 (witness): the identity changes to Bolt while the analysis of Acme is
outstanding. -/
theorem C17_identity_change_resets_witness :
    truthyStr boltFresh.brand = true ∧ boltFresh.user.isSome = true
    ∧ acmeOutstanding.requestIdRef.isSome = true
    ∧ (step acmeOutstanding .cleanup).requestIdRef = none
    ∧ (exec acmeOutstanding [.cleanup, .effect boltFresh sampleEnv]).loading = true :=
  ⟨by decide, by decide, by decide,
   (C17_identity_change_resets acmeOutstanding boltFresh sampleEnv (by decide)
      (by decide)).1,
   (C17_identity_change_resets acmeOutstanding boltFresh sampleEnv (by decide)
      (by decide)).2.2.2.2.2.1⟩

/-! ## C20: the fallbacks of the saved-report normalisation -/

/-- C20 (evaluation at the failing input). For the empty payload `{}` the validated report
is, for every brand name `b`, category `c` and current time `iso`, exactly the object of
the fallbacks. But a falsy top-level value of the payload is not replaced by its fallback:
the trailing `...data` writes the payload's own value back over the fallback that `||`
had chosen. With the payload `{"recommendation": "", "brandName": null, "category": "",
"overallScore": null, "source": ""}` the validated report holds `""`, `null`, `""`,
`null` and `""` for these five keys. -/
theorem C20_falsy_values_survive :
    (∀ b c iso : String,
      validatedData b c iso (.obj [])
        = .ok (.obj
            [ ("brandName", .str b),
              ("category", .str c),
              ("overallScore", .num 0),
              ("recommendation", .str "No recommendation available."),
              ("scores", .obj [ ("domainStrength", .num 0), ("competitionIntensity", .num 0),
                                ("seoDifficulty", .num 0) ]),
              ("detailedAnalysis", .obj
                [ ("domainAvailability", .arr []),
                  ("googleCompetition", .obj [("topResults", .arr [])]) ]),
              ("cached", .bool true),
              ("source", .str "user_history"),
              ("analysisTime", .str iso) ]))
    ∧ (∀ b c iso : String,
        (validatedData b c iso
          (.obj [ ("recommendation", .str ""), ("brandName", .null), ("category", .str ""),
                  ("overallScore", .null), ("source", .str "") ])).map
          (fun v => (v.prop "recommendation", v.prop "brandName", v.prop "category",
                     v.prop "overallScore", v.prop "source"))
          = .ok (.str "", .null, .str "", .null, .str ""))
    ∧ ((exec World.init
        [ .effect acmeSaved sampleEnv,
          .settle 0 (.token "tok") sampleEnv,
          .settle 0 (.response 200) sampleEnv,
          .settle 0 (.body (.obj [("recommendation", .str "")])) sampleEnv ]).analysis.prop
          "recommendation") = .str ""
    ∧ ((exec World.init
        [ .effect acmeSaved sampleEnv,
          .settle 0 (.token "tok") sampleEnv,
          .settle 0 (.response 200) sampleEnv,
          .settle 0 (.body (.obj [("recommendation", .str "")])) sampleEnv ]).analysis.prop
          "recommendation") ≠ .str "No recommendation available." := by
  refine ⟨?_, ?_, by decide, by decide⟩
  · intro b c iso; rfl
  · intro b c iso; rfl

/-! ## C14: after the identity has been marked as saved -/

theorem category_truthy (p : Props) : truthyStr (some p.category) = true := by
  unfold Props.category
  split
  · rename_i h
    cases hc : p.categoryParam with
    | none => simp [hc, truthyStr] at h
    | some c => simpa [hc, truthyStr] using h
  · decide

theorem afterReplace_category (p : Props) : p.afterReplace.category = p.category := by
  have h := category_truthy p
  show (if truthyStr (some p.category) then (some p.category).getD "" else "Technology")
    = p.category
  rw [if_pos h]
  rfl

theorem afterReplace_brandName (p : Props) : p.afterReplace.brandName = p.brandName := by
  simp [Props.afterReplace, Props.brandName]

/-- C14 (counterexample). The analysis of Acme has reached Loaded and has replaced the URL
by `/analysis?brand=Acme&category=tech%20%26%20saas&view=saved`. The next render reads
`view=saved`, so the dependency list differs from the one of the render that ran the
effect, and the effect runs again: the Loaded state is reset (analysis null, loading
true) and, once the token arrives, a further report request is issued for the same brand
name and category, the lookup `/api/view-report?brandName=Acme&category=...`. -/
theorem C14_flow_runs_again_counterexample :
    acmeLoaded.loading = false
    ∧ acmeLoaded.analysis = .obj [("brandName", .str "Acme"), ("overallScore", .num 72)]
    ∧ acmeLoaded.replaced = ["/analysis?brand=Acme&category=tech%20%26%20saas&view=saved"]
    ∧ acmeFresh.deps ≠ acmeFresh.afterReplace.deps
    ∧ (commit acmeLoaded acmeFresh acmeFresh.afterReplace sampleEnv).analysis = .null
    ∧ (commit acmeLoaded acmeFresh acmeFresh.afterReplace sampleEnv).loading = true
    ∧ (commit acmeLoaded acmeFresh acmeFresh.afterReplace sampleEnv).runs[1]?
        = some { props := acmeFresh.afterReplace, pc := .savedToken }
    ∧ acmeLoaded.requests.length = 2
    ∧ (step (commit acmeLoaded acmeFresh acmeFresh.afterReplace sampleEnv)
        (.settle 1 (.token "tok") sampleEnv)).requests
        = acmeLoaded.requests
            ++ [{ run := 1, endpoint := .viewReport,
                  url := "/api/view-report?brandName=Acme&category=tech%20%26%20saas",
                  token := "tok" }] := by
  decide

/-- C14 (amended). A load outside saved mode (brand name and user present) has replaced
the URL by its saved URL. In the next render `viewMode` is `'saved'`, which it was not
before, so the dependency list has changed and the effect runs once more: its cleanup,
then `loadReport` in saved mode for the same brand name and category, which resets the
state to Loading and waits for the token; when the token arrives the run issues one
saved-report lookup, with the URL of the lookup the first load made, and nothing is sent
to the analysis endpoint. While the dependency list then stays the same, further renders
do not run the effect: the page is unchanged. -/
theorem C14_one_saved_reload_amended (W : World) (p : Props) (env env1 env2 : Env)
    (t : String)
    (hb : truthyStr p.brand = true) (hv : p.isSaved = false) (hu : p.user.isSome = true) :
    p.deps ≠ p.afterReplace.deps
    ∧ commit W p p.afterReplace env
        = { W with
            analysis := .null, error := none, loading := true, isSearching := false,
            loadingStage := 0, requestIdRef := none, intervalRef := none,
            timers := (effectCleanup W).timers,
            runs := W.runs ++ [{ props := p.afterReplace, pc := .savedToken }] }
    ∧ step (commit W p p.afterReplace env) (.settle W.runs.length (.token t) env1)
        = { W with
            analysis := .null, error := none, loading := true, isSearching := false,
            loadingStage := 0, requestIdRef := none, intervalRef := none,
            timers := (effectCleanup W).timers,
            requests := W.requests
              ++ [{ run := W.runs.length, endpoint := .viewReport,
                    url := viewReportUrl p.brandName p.category, token := t }],
            runs := W.runs ++ [{ props := p.afterReplace, pc := .savedFetch }] }
    ∧ (∀ W2 : World, commit W2 p.afterReplace p.afterReplace env2 = W2) := by
  obtain ⟨u, hu⟩ := Option.isSome_iff_exists.mp hu
  have hd : p.deps ≠ p.afterReplace.deps := by
    intro h
    have hview : p.view = some "saved" := by
      have := congrArg (fun d => d.2.2.2) h
      simpa [Props.deps, Props.afterReplace] using this
    simp [Props.isSaved, hview] at hv
  have hb2 : truthyStr p.afterReplace.brand = true := by
    cases hbr : p.brand with
    | none => simp [hbr, truthyStr] at hb
    | some b => simpa [Props.afterReplace, Props.brandName, hbr] using hb
  have hs2 : p.afterReplace.isSaved = true := by simp [Props.afterReplace, Props.isSaved]
  have hu2 : p.afterReplace.user = some u := by simp [Props.afterReplace, hu]
  have hlen : (effectCleanup W).runs = W.runs := by
    simp [effectCleanup, clearStageTimer_eq]
  have hc : commit W p p.afterReplace env
      = { W with
          analysis := .null, error := none, loading := true, isSearching := false,
          loadingStage := 0, requestIdRef := none, intervalRef := none,
          timers := (effectCleanup W).timers,
          runs := W.runs ++ [{ props := p.afterReplace, pc := .savedToken }] } := by
    simp only [commit, hd, if_false]
    rw [effectRun_saved _ p.afterReplace env u hb2 hs2 hu2]
    simp [World.reset, effectCleanup, clearStageTimer_eq]
  refine ⟨hd, hc, ?_, ?_⟩
  · rw [hc]
    simp [step, resume, World.send, World.suspend, set_concat_length,
      afterReplace_brandName, afterReplace_category]
  · intro W2
    simp [commit]

/-- C14 (witness): the render that follows the `router.replace` of the loaded analysis of
Acme. -/
theorem C14_one_saved_reload_amended_witness :
    truthyStr acmeFresh.brand = true ∧ acmeFresh.isSaved = false
    ∧ acmeFresh.user.isSome = true
    ∧ acmeFresh.deps ≠ acmeFresh.afterReplace.deps
    ∧ commit (commit acmeLoaded acmeFresh acmeFresh.afterReplace sampleEnv)
        acmeFresh.afterReplace acmeFresh.afterReplace sampleEnv
      = commit acmeLoaded acmeFresh acmeFresh.afterReplace sampleEnv :=
  ⟨by decide, by decide, by decide,
   (C14_one_saved_reload_amended acmeLoaded acmeFresh sampleEnv sampleEnv sampleEnv "tok"
      (by decide) (by decide) (by decide)).1,
   (C14_one_saved_reload_amended acmeLoaded acmeFresh sampleEnv sampleEnv sampleEnv "tok"
      (by decide) (by decide) (by decide)).2.2.2 _⟩

/-! ## C18: other failures of the saved-mode lookup -/

theorem resume_savedFailure (W : World) (i : Nat) (r : Run) (o : Settled) (env : Env)
    (hf : savedFailure r.pc o = true) : resume W i r o env = savedCatch W i r := by
  obtain ⟨props, pc⟩ := r
  cases pc <;> cases o <;> try (simp [savedFailure] at hf; done)
  · rfl
  · rename_i status
    simp only [savedFailure, Bool.and_eq_true, bne_iff_ne, ne_eq, Bool.not_eq_true'] at hf
    simp [resume, hf.1, hf.2]
  · rfl
  · rename_i v
    cases v <;> try (simp [savedFailure] at hf; done)
    · simp [resume, validatedData, JSVal.get]
    · simp [resume, validatedData, JSVal.get]
  · rfl

theorem resume_done (W : World) (i : Nat) (p : Props) (o : Settled) (env : Env) :
    resume W i { props := p, pc := .done } o env = W := by
  cases o <;> rfl

/-- C18. In saved mode (brand name and user present) the run started by the effect is
suspended with analysis null, error null and loading true while it waits for its token,
then for the answer of the lookup, then for the body; nothing but the lookup has been sent.
Whenever the promise it waits for settles with a failure that is not a 404 (the token, the
fetch or the body parse rejects, the status is another non-success status, or the body is
`null` and cannot be normalised), the page changes in exactly three places: error becomes
'Failed to load saved report. Please try again.', loading becomes false and the run has
returned. So analysis stays null, no request is added, and the marker and timers are not
touched. A run that has returned ignores every later settlement: it never goes on to the
silent lookup or to a fresh analysis. -/
theorem C18_saved_lookup_failure (W : World) (p : Props) (env env1 env2 env3 : Env)
    (t : String) (status : Nat) (i : Nat) (r : Run) (o : Settled)
    (hb : truthyStr p.brand = true) (hv : p.isSaved = true) (hu : p.user.isSome = true)
    (hok : statusOk status = true)
    (hr : W.runs[i]? = some r) (hf : savedFailure r.pc o = true) :
    -- the failure itself, in any state of the page
    step W (.settle i o env3)
        = { W with error := some "Failed to load saved report. Please try again.",
                   loading := false, runs := W.runs.set i { r with pc := .done } }
    ∧ (∀ (o2 : Settled) (env4 : Env),
        step (step W (.settle i o env3)) (.settle i o2 env4) = step W (.settle i o env3))
    -- the three states in which a saved-mode run waits
    ∧ exec W [.effect p env]
        = { W with analysis := .null, error := none, loading := true, isSearching := false,
                   loadingStage := 0,
                   runs := W.runs ++ [{ props := p, pc := .savedToken }] }
    ∧ exec W [.effect p env, .settle W.runs.length (.token t) env1]
        = { W with analysis := .null, error := none, loading := true, isSearching := false,
                   loadingStage := 0,
                   requests := W.requests ++ [{ run := W.runs.length, endpoint := .viewReport,
                                                url := viewReportUrl p.brandName p.category,
                                                token := t }],
                   runs := W.runs ++ [{ props := p, pc := .savedFetch }] }
    ∧ exec W [.effect p env, .settle W.runs.length (.token t) env1,
              .settle W.runs.length (.response status) env2]
        = { W with analysis := .null, error := none, loading := true, isSearching := false,
                   loadingStage := 0,
                   requests := W.requests ++ [{ run := W.runs.length, endpoint := .viewReport,
                                                url := viewReportUrl p.brandName p.category,
                                                token := t }],
                   runs := W.runs ++ [{ props := p, pc := .savedJson }] } := by
  obtain ⟨u, hu⟩ := Option.isSome_iff_exists.mp hu
  have hi := lt_of_get _ _ _ hr
  have h404 : status ≠ 404 := by
    intro h; subst h; simp [statusOk] at hok
  have hfail : step W (.settle i o env3)
      = { W with error := some "Failed to load saved report. Please try again.",
                 loading := false, runs := W.runs.set i { r with pc := .done } } := by
    rw [step_settle W i r o env3 hr, resume_savedFailure W i r o env3 hf]
    rfl
  refine ⟨hfail, ?_, ?_, ?_, ?_⟩
  · intro o2 env4
    rw [hfail]
    have hget : (World.mk W.analysis false
        (some "Failed to load saved report. Please try again.") W.isSearching W.loadingStage
        W.intervalRef W.requestIdRef W.timers W.nextTimer W.requests W.replaced
        W.historyRefreshes (W.runs.set i { r with pc := .done })).runs[i]?
        = some { props := r.props, pc := .done } := by
      simp [List.getElem?_set, hi]
    rw [step_settle _ i _ o2 env4 hget, resume_done]
  · simp only [exec, List.foldl, step]
    rw [effectRun_saved W p env u hb hv hu]
    simp [World.reset]
  · simp only [exec, List.foldl, step]
    rw [effectRun_saved W p env u hb hv hu]
    simp [resume, World.send, World.suspend, World.reset, set_concat_length]
  · simp only [exec, List.foldl, step]
    rw [effectRun_saved W p env u hb hv hu]
    simp [resume, World.send, World.suspend, World.reset, set_concat_length, hok, h404]

/-- C18 (witness): the saved report of Acme is looked up and the server answers 500. -/
theorem C18_saved_lookup_failure_witness :
    truthyStr acmeSaved.brand = true ∧ acmeSaved.isSaved = true
    ∧ acmeSaved.user.isSome = true ∧ statusOk 200 = true
    ∧ (exec World.init [.effect acmeSaved sampleEnv,
        .settle 0 (.token "tok") sampleEnv]).runs[0]?
        = some { props := acmeSaved, pc := .savedFetch }
    ∧ savedFailure Pc.savedFetch (.response 500) = true
    ∧ (step (exec World.init [.effect acmeSaved sampleEnv,
          .settle 0 (.token "tok") sampleEnv]) (.settle 0 (.response 500) sampleEnv)).error
        = some "Failed to load saved report. Please try again." := by
  have h := (C18_saved_lookup_failure
    (exec World.init [.effect acmeSaved sampleEnv, .settle 0 (.token "tok") sampleEnv])
    acmeSaved sampleEnv sampleEnv sampleEnv sampleEnv "tok" 200 0
    { props := acmeSaved, pc := .savedFetch } (.response 500)
    (by decide) (by decide) (by decide) (by decide) (by decide) (by decide)).1
  exact ⟨by decide, by decide, by decide, by decide, by decide, by decide, by rw [h]⟩

/-! ## C13: a first visit -/

theorem resume_replaced (W : World) (i : Nat) (r : Run) (o : Settled) (env : Env)
    (hpc : r.pc.inFresh = true) (hns : ∀ v, ¬ (r.pc = .freshJson ∧ o = .body v)) :
    (resume W i r o env).replaced = W.replaced := by
  obtain ⟨props, pc⟩ := r
  cases pc <;> cases o <;>
    first
    | (simp [Pc.inFresh] at hpc hns; done)
    | (simp only [resume, freshCatch, freshFinally, World.finish, World.suspend, World.send,
        clearStageTimer_eq]
       repeat' split
       all_goals rfl)

/-- C13. For every brand name, category and user outside saved mode: the identity changes
to it, the silent lookup fails with a network error, and the analysis endpoint then
answers with a success status and a body that parses to `v`. The page ends Loaded with
the fresh payload: analysis is `v`, error is null, loading is false, the marker and the
timer handle are null; the run has sent the lookup and then one analysis request; and
`router.replace` has been called once more than before, with
`/analysis?brand=<encoded brand>&category=<encoded category>&view=saved` for the same brand
name and category. On the other hand no settlement of a run inside the fresh-analysis
`try` other than the successful parse of the body of a success answer calls
`router.replace`: on every failing outcome of the fresh request the list of replaced URLs
stays as it was. -/
theorem C13_first_visit_marks_saved (W : World) (p : Props) (e : Nat → Env)
    (t1 m t2 : String) (status : Nat) (v : JSVal) (u : User)
    (i : Nat) (r : Run) (o : Settled) (env : Env)
    (hb : truthyStr p.brand = true) (hv : p.isSaved = false) (hu : p.user = some u)
    (hok : statusOk status = true)
    (hr : W.runs[i]? = some r) (hpc : r.pc.inFresh = true)
    (hns : ∀ v2, ¬ (r.pc = .freshJson ∧ o = .body v2)) :
    exec W (firstVisit p W.runs.length e t1 m t2 status v)
      = { W with
          analysis := v, error := none, loading := false, isSearching := false,
          loadingStage := 0, intervalRef := none, requestIdRef := none,
          timers := ((effectCleanup W).timers ++ [W.nextTimer]).filter
            (fun x => x != W.nextTimer),
          nextTimer := W.nextTimer + 1,
          requests := W.requests
            ++ [{ run := W.runs.length, endpoint := .viewReport,
                  url := viewReportUrl p.brandName p.category, token := t1 },
                { run := W.runs.length, endpoint := .analyze,
                  url := analyzeUrl p.brandName p.category, token := t2 }],
          replaced := W.replaced ++ [savedUrl p.brandName p.category],
          historyRefreshes :=
            if truthyStr (some u.uid) then W.historyRefreshes + 1 else W.historyRefreshes,
          runs := W.runs ++ [{ props := p, pc := .done }] }
    ∧ savedUrl p.brandName p.category
        = "/analysis?brand=" ++ encodeURIComponent p.brandName
            ++ "&category=" ++ encodeURIComponent p.category ++ "&view=saved"
    ∧ (step W (.settle i o env)).replaced = W.replaced := by
  have h403 : status ≠ 403 := by
    intro h; subst h; simp [statusOk] at hok
  have h402 : status ≠ 402 := by
    intro h; subst h; simp [statusOk] at hok
  refine ⟨?_, rfl, ?_⟩
  · simp only [firstVisit, exec, List.foldl, step]
    rw [effectRun_fresh _ p (e 0) u hb hv hu]
    simp [resume, freshStep, World.send, World.suspend, World.finish, World.reset,
      set_concat_length, effectCleanup, clearStageTimer_eq, freshFinally, hu, hv, hok,
      h403, h402]
    split_ifs
    all_goals simp
  · rw [step_settle W i r o env hr]
    exact resume_replaced W i r o env hpc hns

/-- C13 (witness): Acme with category 'tech & saas' is opened without `view`; the lookup
fails with 'Failed to fetch' and the analysis answers 200 with a report. A 500 answer to
the outstanding analysis leaves the URL alone. -/
theorem C13_first_visit_marks_saved_witness :
    truthyStr acmeFresh.brand = true ∧ acmeFresh.isSaved = false
    ∧ acmeFresh.user = some sampleUser ∧ statusOk 200 = true
    ∧ acmeOutstanding.runs[0]? = some { props := acmeFresh, pc := .freshFetch }
    ∧ (exec World.init (firstVisit acmeFresh World.init.runs.length (fun _ => sampleEnv)
        "tok" "Failed to fetch" "tok" 200 (.obj [("overallScore", .num 72)]))).replaced
        = ["/analysis?brand=Acme&category=tech%20%26%20saas&view=saved"]
    ∧ (exec World.init (firstVisit acmeFresh World.init.runs.length (fun _ => sampleEnv)
        "tok" "Failed to fetch" "tok" 200 (.obj [("overallScore", .num 72)]))).analysis
        = .obj [("overallScore", .num 72)]
    ∧ (step acmeOutstanding (.settle 0 (.response 500) sampleEnv)).replaced = [] := by
  have h2 := C13_first_visit_marks_saved acmeOutstanding acmeFresh (fun _ => sampleEnv)
    "tok" "Failed to fetch" "tok" 200 (.obj [("overallScore", .num 72)]) sampleUser
    0 { props := acmeFresh, pc := .freshFetch } (.response 500) sampleEnv
    (by decide) (by decide) (by decide) (by decide) (by decide) (by decide)
    (by intro v2 h; exact absurd h.1 (by decide))
  refine ⟨by decide, by decide, by decide, by decide, by decide, by decide, by decide, ?_⟩
  rw [h2.2.2]
  decide

/-! ## C11: the kinds of failure of the silent lookup -/

theorem lookupFailure_world (W : World) (p : Props) (env : Env) (k : LookupFailure) (u : User)
    (hb : truthyStr p.brand = true) (hv : p.isSaved = false) (hu : p.user = some u)
    (hk : k.valid = true) :
    exec W ([.cleanup, .effect p env] ++ k.events W.runs.length)
      = { W with
          analysis := .null, error := none, loading := true, isSearching := false,
          loadingStage := 0,
          requestIdRef := some { brandName := p.brandName, category := p.category,
                                 now := k.lastEnv.now, rnd := k.lastEnv.rnd },
          intervalRef := some W.nextTimer,
          timers := (effectCleanup W).timers ++ [W.nextTimer],
          nextTimer := W.nextTimer + 1,
          requests := W.requests ++ k.sent W.runs.length p,
          runs := W.runs ++ [{ props := p, pc := .freshToken }] } := by
  cases k <;>
    simp only [LookupFailure.events, List.cons_append, List.nil_append, exec, List.foldl,
      step] <;>
    rw [effectRun_fresh _ p env u hb hv hu] <;>
    simp_all [resume, freshStep, World.send, World.suspend, World.reset,
      set_concat_length, effectCleanup, clearStageTimer_eq, LookupFailure.valid,
      LookupFailure.sent, LookupFailure.lastEnv]


theorem resume_hideLog (A : World) (i : Nat) (r : Run) (o : Settled) (env : Env) :
    (resume A i r o env).hideLog = (resume A.hideLog i r o env).hideLog := by
  obtain ⟨props, pc⟩ := r
  cases hm : A.requestIdRef <;>
  cases pc <;> cases o <;>
    simp only [resume, freshStep, freshCatch, freshFinally, savedCatch, World.finish,
      World.suspend, World.send, clearStageTimer_eq, World.hideLog, hm, Option.map] <;>
    (repeat' split) <;>
    first
    | rfl
    | simp_all


theorem hideLog_idem (A : World) : A.hideLog.hideLog = A.hideLog := by
  cases hm : A.requestIdRef <;> simp [World.hideLog, hm]

theorem step_hideLog (A : World) (e : Event) :
    (step A e).hideLog = (step A.hideLog e).hideLog := by
  cases e with
  | settle i o env =>
    have hruns : A.hideLog.runs = A.runs := rfl
    simp only [step, hruns]
    cases A.runs[i]? with
    | none => exact (hideLog_idem A).symm
    | some r => exact resume_hideLog A i r o env
  | tick h =>
    have ht : A.hideLog.timers = A.timers := rfl
    simp only [step, ht]
    split
    · cases hm : A.requestIdRef <;> simp [World.hideLog, hm]
    · exact (hideLog_idem A).symm
  | cleanup =>
    cases hm : A.requestIdRef <;>
      simp [step, effectCleanup, clearStageTimer_eq, World.hideLog, hm]
  | effect p env =>
    cases hm : A.requestIdRef <;>
      simp only [step, effectRun, loadReport, freshStep, freshFinally, savedCatch,
        World.finish, World.suspend, World.reset, World.hideLog, hm, Option.map] <;>
      (repeat' split) <;>
      first
      | rfl
      | simp_all

theorem exec_hideLog (es : List Event) (A B : World) (h : A.hideLog = B.hideLog) :
    (exec A es).hideLog = (exec B es).hideLog := by
  induction es generalizing A B with
  | nil => exact h
  | cons e es ih =>
    simp only [exec, List.foldl_cons]
    apply ih
    rw [step_hideLog A e, step_hideLog B e, h]


theorem exec_append (W : World) (es fs : List Event) :
    exec W (es ++ fs) = exec (exec W es) fs := by
  simp [exec, List.foldl_append]

theorem exec_cons (W : World) (e : Event) (es : List Event) :
    exec W (e :: es) = exec (step W e) es := rfl

theorem exec_done (i : Nat) (p : Props) (rest : List (Settled × Env)) (W : World)
    (hr : W.runs[i]? = some { props := p, pc := .done }) :
    exec W (rest.map (fun oe => Event.settle i oe.1 oe.2)) = W := by
  induction rest with
  | nil => rfl
  | cons oe rest ih =>
    simp only [List.map_cons, exec, List.foldl_cons]
    rw [step_settle W i _ oe.1 oe.2 hr, resume_done]
    exact ih

theorem sent_analyzeRequests (i : Nat) (p : Props) (k : LookupFailure) :
    (k.sent i p).filter (fun q => q.endpoint == Endpoint.analyze) = [] := by
  cases k <;> simp [LookupFailure.sent]

theorem freshToken_token (Wf : World) (i : Nat) (p : Props) (t : String) (e : Env)
    (rest2 : List (Settled × Env))
    (hrun : Wf.runs[i]? = some { props := p, pc := .freshToken }) :
    (exec Wf (((Settled.token t, e) :: rest2).map
        (fun oe => Event.settle i oe.1 oe.2))).analyzeRequests
      = Wf.analyzeRequests
          ++ [{ run := i, endpoint := .analyze,
                url := analyzeUrl p.brandName p.category, token := t }] := by
  rw [List.map_cons, exec_cons, step_settle _ _ _ _ _ hrun]
  have hlt := lt_of_get _ _ _ hrun
  have hr1 : (resume Wf i { props := p, pc := .freshToken } (.token t) e).runs[i]?
      = some { props := p, pc := .freshFetch } := by
    simp [resume, World.suspend, World.send, List.getElem?_set, hlt]
  rw [exec_after_sent i rest2 _ _ hr1 (Or.inl rfl)]
  simp [resume, World.suspend, World.send, World.analyzeRequests, List.filter_append]

theorem freshToken_rejected (Wf : World) (i : Nat) (p : Props) (m : String) (e : Env)
    (rest2 : List (Settled × Env))
    (hrun : Wf.runs[i]? = some { props := p, pc := .freshToken }) :
    (exec Wf (((Settled.rejected m, e) :: rest2).map
        (fun oe => Event.settle i oe.1 oe.2))).analyzeRequests = Wf.analyzeRequests
    ∧ (exec Wf (((Settled.rejected m, e) :: rest2).map
        (fun oe => Event.settle i oe.1 oe.2))).error
      = some (if m != "" then m else "Failed to analyze brand name. Please try again.") := by
  rw [List.map_cons, exec_cons, step_settle _ _ _ _ _ hrun]
  have hlt := lt_of_get _ _ _ hrun
  have hr1 : (resume Wf i { props := p, pc := .freshToken } (.rejected m) e).runs[i]?
      = some { props := p, pc := .done } := by
    simp [resume, freshCatch, freshFinally, World.finish, World.suspend,
      clearStageTimer_eq, List.getElem?_set, hlt]
  rw [exec_done i p rest2 _ hr1]
  constructor
  · simp [resume, freshCatch, freshFinally, World.finish, World.suspend,
      clearStageTimer_eq, World.analyzeRequests]
  · simp [resume, freshCatch, freshFinally, World.finish, World.suspend,
      clearStageTimer_eq]

/-- C11 (counterexample). Acme is opened without `view` by a signed-in user, no request is
in flight, and the silent lookup answers 404. The run goes on to the fresh-analysis step,
where `getIdToken()` rejects: the run ends in Failed without having sent any request to the
analysis endpoint. -/
theorem C11_no_fresh_request_counterexample :
    acmeFresh.user.isSome = true
    ∧ World.init.requestIdRef = none
    ∧ (exec World.init
        ([.cleanup, .effect acmeFresh sampleEnv]
          ++ (LookupFailure.badStatus "tok" sampleEnv 404 sampleEnv).events 0
          ++ [.settle 0 (.rejected "auth/network-request-failed") sampleEnv])).runs[0]?
        = some { props := acmeFresh, pc := .done }
    ∧ (exec World.init
        ([.cleanup, .effect acmeFresh sampleEnv]
          ++ (LookupFailure.badStatus "tok" sampleEnv 404 sampleEnv).events 0
          ++ [.settle 0 (.rejected "auth/network-request-failed") sampleEnv])).analyzeRequests
        = []
    ∧ (exec World.init
        ([.cleanup, .effect acmeFresh sampleEnv]
          ++ (LookupFailure.badStatus "tok" sampleEnv 404 sampleEnv).events 0
          ++ [.settle 0 (.rejected "auth/network-request-failed") sampleEnv])).error
        = some "auth/network-request-failed" := by
  decide

/-- C11 (amended). Outside saved mode, with a brand name and a user, the identity changes
(so that no request is in flight) and the silent lookup of the run fails in the way `k1`:
the token is not obtained, the fetch fails with a network error, the answer is a 404 or
another non-success status, or the body of a success answer does not parse. Then the run
has gone on to the fresh-analysis step: it holds the marker, has started the stage timer
and waits for the token of the analysis; analysis and error are null and loading is true,
so the failure of the lookup is not surfaced, and nothing has been sent to the analysis
endpoint. Let the run then receive the settlements `rest`. Had the lookup failed in another
way `k2`, the page would end the same, the request log and the content of the marker
apart: in particular analysis, error and loading are the same. If the token of the
analysis is obtained, the run sends exactly one request to the analysis endpoint; if
`getIdToken()` rejects, it sends none and ends in Failed with the message of the
rejection. -/
theorem C11_lookup_failure_kinds_amended (W : World) (p : Props) (env : Env)
    (k1 k2 : LookupFailure) (rest : List (Settled × Env)) (u : User)
    (hb : truthyStr p.brand = true) (hv : p.isSaved = false) (hu : p.user = some u)
    (hk1 : k1.valid = true) (hk2 : k2.valid = true) :
    exec W ([.cleanup, .effect p env] ++ k1.events W.runs.length)
      = { W with
          analysis := .null, error := none, loading := true, isSearching := false,
          loadingStage := 0,
          requestIdRef := some { brandName := p.brandName, category := p.category,
                                 now := k1.lastEnv.now, rnd := k1.lastEnv.rnd },
          intervalRef := some W.nextTimer,
          timers := (effectCleanup W).timers ++ [W.nextTimer],
          nextTimer := W.nextTimer + 1,
          requests := W.requests ++ k1.sent W.runs.length p,
          runs := W.runs ++ [{ props := p, pc := .freshToken }] }
    ∧ (exec W ([.cleanup, .effect p env] ++ k1.events W.runs.length)).analyzeRequests
        = W.analyzeRequests
    ∧ (exec W ([.cleanup, .effect p env] ++ k1.events W.runs.length
          ++ rest.map (fun oe => Event.settle W.runs.length oe.1 oe.2))).hideLog
        = (exec W ([.cleanup, .effect p env] ++ k2.events W.runs.length
          ++ rest.map (fun oe => Event.settle W.runs.length oe.1 oe.2))).hideLog
    ∧ (exec W ([.cleanup, .effect p env] ++ k1.events W.runs.length
          ++ rest.map (fun oe => Event.settle W.runs.length oe.1 oe.2))).analysis
        = (exec W ([.cleanup, .effect p env] ++ k2.events W.runs.length
          ++ rest.map (fun oe => Event.settle W.runs.length oe.1 oe.2))).analysis
    ∧ (exec W ([.cleanup, .effect p env] ++ k1.events W.runs.length
          ++ rest.map (fun oe => Event.settle W.runs.length oe.1 oe.2))).error
        = (exec W ([.cleanup, .effect p env] ++ k2.events W.runs.length
          ++ rest.map (fun oe => Event.settle W.runs.length oe.1 oe.2))).error
    ∧ (exec W ([.cleanup, .effect p env] ++ k1.events W.runs.length
          ++ rest.map (fun oe => Event.settle W.runs.length oe.1 oe.2))).loading
        = (exec W ([.cleanup, .effect p env] ++ k2.events W.runs.length
          ++ rest.map (fun oe => Event.settle W.runs.length oe.1 oe.2))).loading
    ∧ (∀ t e rest2, rest = (Settled.token t, e) :: rest2 →
        (exec W ([.cleanup, .effect p env] ++ k1.events W.runs.length
          ++ rest.map (fun oe => Event.settle W.runs.length oe.1 oe.2))).analyzeRequests
        = W.analyzeRequests
            ++ [{ run := W.runs.length, endpoint := .analyze,
                  url := analyzeUrl p.brandName p.category, token := t }])
    ∧ (∀ m e rest2, rest = (Settled.rejected m, e) :: rest2 →
        (exec W ([.cleanup, .effect p env] ++ k1.events W.runs.length
          ++ rest.map (fun oe => Event.settle W.runs.length oe.1 oe.2))).analyzeRequests
          = W.analyzeRequests
        ∧ (exec W ([.cleanup, .effect p env] ++ k1.events W.runs.length
          ++ rest.map (fun oe => Event.settle W.runs.length oe.1 oe.2))).error
          = some (if m != "" then m
                  else "Failed to analyze brand name. Please try again.")) := by
  have hw1 := lookupFailure_world W p env k1 u hb hv hu hk1
  have hw2 := lookupFailure_world W p env k2 u hb hv hu hk2
  have ha1 : (exec W ([.cleanup, .effect p env] ++ k1.events W.runs.length)).analyzeRequests
      = W.analyzeRequests := by
    rw [hw1]
    simp [World.analyzeRequests, List.filter_append, sent_analyzeRequests]
  have hrun : (exec W ([.cleanup, .effect p env] ++ k1.events W.runs.length)).runs[W.runs.length]?
      = some { props := p, pc := .freshToken } := by
    rw [hw1]; simp
  have hhide : (exec W ([.cleanup, .effect p env] ++ k1.events W.runs.length)).hideLog
      = (exec W ([.cleanup, .effect p env] ++ k2.events W.runs.length)).hideLog := by
    rw [hw1, hw2]
    simp [World.hideLog]
  have hfin := exec_hideLog (rest.map (fun oe => Event.settle W.runs.length oe.1 oe.2))
    _ _ hhide
  rw [← exec_append, ← exec_append] at hfin
  have hfa := congrArg World.analysis hfin
  have hfe := congrArg World.error hfin
  have hfl := congrArg World.loading hfin
  refine ⟨hw1, ha1, hfin, hfa, hfe, hfl, ?_, ?_⟩
  · intro t e rest2 hrest
    subst hrest
    rw [exec_append, freshToken_token _ _ _ _ _ _ hrun, ha1]
  · intro m e rest2 hrest
    subst hrest
    rw [exec_append, (freshToken_rejected _ _ _ _ _ _ hrun).1,
      (freshToken_rejected _ _ _ _ _ _ hrun).2, ha1]
    exact ⟨rfl, rfl⟩

theorem C11_lookup_failure_kinds_amended_witness :
    truthyStr acmeFresh.brand = true ∧ acmeFresh.isSaved = false
    ∧ acmeFresh.user = some sampleUser
    ∧ (LookupFailure.badStatus "tok" sampleEnv 404 sampleEnv).valid = true
    ∧ (LookupFailure.networkError "tok" sampleEnv "Failed to fetch" sampleEnv).valid = true
    ∧ (exec World.init ([.cleanup, .effect acmeFresh sampleEnv]
          ++ (LookupFailure.badStatus "tok" sampleEnv 404 sampleEnv).events
               World.init.runs.length
          ++ [(Settled.token "tok2", sampleEnv), (Settled.response 500, sampleEnv)].map
               (fun oe => Event.settle World.init.runs.length oe.1 oe.2))).error
        = (exec World.init ([.cleanup, .effect acmeFresh sampleEnv]
          ++ (LookupFailure.networkError "tok" sampleEnv "Failed to fetch" sampleEnv).events
               World.init.runs.length
          ++ [(Settled.token "tok2", sampleEnv), (Settled.response 500, sampleEnv)].map
               (fun oe => Event.settle World.init.runs.length oe.1 oe.2))).error
    ∧ (exec World.init ([.cleanup, .effect acmeFresh sampleEnv]
          ++ (LookupFailure.badStatus "tok" sampleEnv 404 sampleEnv).events
               World.init.runs.length
          ++ [(Settled.token "tok2", sampleEnv), (Settled.response 500, sampleEnv)].map
               (fun oe => Event.settle World.init.runs.length oe.1 oe.2))).analyzeRequests
        = World.init.analyzeRequests
            ++ [{ run := World.init.runs.length, endpoint := .analyze,
                  url := analyzeUrl acmeFresh.brandName acmeFresh.category,
                  token := "tok2" }] :=
  ⟨by decide, by decide, by decide, by decide, by decide,
   (C11_lookup_failure_kinds_amended World.init acmeFresh sampleEnv
      (.badStatus "tok" sampleEnv 404 sampleEnv)
      (.networkError "tok" sampleEnv "Failed to fetch" sampleEnv)
      [(.token "tok2", sampleEnv), (.response 500, sampleEnv)] sampleUser
      (by decide) (by decide) (by decide) (by decide) (by decide)).2.2.2.2.1,
   (C11_lookup_failure_kinds_amended World.init acmeFresh sampleEnv
      (.badStatus "tok" sampleEnv 404 sampleEnv)
      (.networkError "tok" sampleEnv "Failed to fetch" sampleEnv)
      [(.token "tok2", sampleEnv), (.response 500, sampleEnv)] sampleUser
      (by decide) (by decide) (by decide) (by decide) (by decide)).2.2.2.2.2.2.1
      "tok2" sampleEnv [(.response 500, sampleEnv)] rfl⟩

/-! ## C19: the requests of one run -/

/-- What one settlement adds to the request log: nothing, or one request of the settled
run, the lookup when the token of the lookup arrives and the analysis request when the
token of the analysis arrives; and the `await` the run moves to fits what it has then
requested. -/
theorem resume_issued (W : World) (i : Nat) (r : Run) (o : Settled) (env : Env)
    (hr : W.runs[i]? = some r) :
    ∃ pc2, (resume W i r o env).runs = W.runs.set i { r with pc := pc2 }
      ∧ (((resume W i r o env).requests = W.requests
            ∧ ∀ es, r.issuedOk es = true → Run.issuedOk { r with pc := pc2 } es = true)
          ∨ (∃ url t, (resume W i r o env).requests
                = W.requests ++ [{ run := i, endpoint := .viewReport, url := url, token := t }]
              ∧ (r.pc = .savedToken ∨ r.pc = .silentToken)
              ∧ ∀ es, r.issuedOk es = true →
                  es = [] ∧ Run.issuedOk { r with pc := pc2 } [.viewReport] = true)
          ∨ (∃ url t, (resume W i r o env).requests
                = W.requests ++ [{ run := i, endpoint := .analyze, url := url, token := t }]
              ∧ r.pc = .freshToken
              ∧ ∀ es, r.issuedOk es = true →
                  Run.issuedOk { r with pc := pc2 } (es ++ [.analyze]) = true)) := by
  obtain ⟨props, pc⟩ := r
  have hself := (set_self _ _ _ hr).symm
  cases pc <;> cases o <;>
    simp only [resume, freshStep, freshCatch, freshFinally, savedCatch, World.finish,
      World.suspend, World.send, clearStageTimer_eq] <;>
    (try split) <;> (try split) <;> (try split) <;> (try split) <;>
    first
    | exact ⟨_, hself, Or.inl ⟨(by first | rfl | trivial), fun _ h => h⟩⟩
    | (clear hself; refine ⟨_, rfl, Or.inl ⟨(by first | rfl | trivial), ?_⟩⟩; intro es hes;
       cases hs : props.isSaved <;> (try simp_all [Run.issuedOk]) <;> (try aesop))
    | (clear hself;
       refine ⟨_, rfl, Or.inr (Or.inl ⟨_, _, rfl, (by simp), ?_⟩)⟩; intro es hes;
       cases hs : props.isSaved <;> simp_all [Run.issuedOk])
    | (clear hself; refine ⟨_, rfl, Or.inr (Or.inr ⟨_, _, rfl, (by first | rfl | trivial), ?_⟩)⟩;
       intro es hes;
       cases hs : props.isSaved <;> (try simp_all [Run.issuedOk]); aesop)

theorem issuedBy_congr (A B : World) (h : A.requests = B.requests) (j : Nat) :
    A.issuedBy j = B.issuedBy j := by
  simp [World.issuedBy, h]

theorem issuedBy_append (A B : World) (q : Request) (h : A.requests = B.requests ++ [q])
    (j : Nat) :
    A.issuedBy j = B.issuedBy j ++ (if q.run = j then [q.endpoint] else []) := by
  by_cases hq : q.run = j <;> simp [World.issuedBy, h, List.filter_append, hq]

theorem issuedInv_settle (W : World) (k : Nat) (o : Settled) (env : Env) (h : IssuedInv W) :
    IssuedInv (step W (.settle k o env)) := by
  cases hk : W.runs[k]? with
  | none => simpa [step, hk] using h
  | some r =>
    rw [step_settle W k r o env hk]
    obtain ⟨pc2, hruns, hcase⟩ := resume_issued W k r o env hk
    have hlt := lt_of_get _ _ _ hk
    intro i
    by_cases hik : i = k
    · subst hik
      have hget : (resume W i r o env).runs[i]? = some { r with pc := pc2 } := by
        rw [hruns]; simp [List.getElem?_set, hlt]
      have hok := (h i).2 r hk
      rw [hget]
      refine ⟨(by intro hc; cases hc), ?_⟩
      intro r2 hr2
      have hr2 : r2 = { r with pc := pc2 } := (Option.some.inj hr2).symm
      subst hr2
      rcases hcase with ⟨hreq, hpc⟩ | ⟨url, t, hreq, _, hpc⟩ | ⟨url, t, hreq, _, hpc⟩
      · rw [issuedBy_congr _ _ hreq]
        exact hpc _ hok
      · rw [issuedBy_append _ _ _ hreq, (hpc _ hok).1]
        simpa using (hpc _ hok).2
      · rw [issuedBy_append _ _ _ hreq]
        simpa using hpc _ hok
    · have hget : (resume W k r o env).runs[i]? = W.runs[i]? := by
        rw [hruns]; simp [List.getElem?_set, Ne.symm hik]
      have hsame : (resume W k r o env).issuedBy i = W.issuedBy i := by
        rcases hcase with ⟨hreq, _⟩ | ⟨url, t, hreq, _, _⟩ | ⟨url, t, hreq, _, _⟩
        · exact issuedBy_congr _ _ hreq _
        · rw [issuedBy_append _ _ _ hreq]; simp [Ne.symm hik]
        · rw [issuedBy_append _ _ _ hreq]; simp [Ne.symm hik]
      rw [hget, hsame]
      exact h i

theorem issuedInv_effect (W : World) (p : Props) (env : Env) (h : IssuedInv W) :
    IssuedInv (step W (.effect p env)) := by
  simp only [step]
  by_cases hg : (truthyStr p.brand && p.user.isSome) = true
  · simp only [Bool.and_eq_true] at hg
    obtain ⟨hb, hu⟩ := hg
    obtain ⟨u, hu⟩ := Option.isSome_iff_exists.mp hu
    have key : ∀ pc : Pc, Run.issuedOk { props := p, pc := pc } [] = true →
        IssuedInv { W.reset with runs := W.runs ++ [{ props := p, pc := pc }] } := by
      intro pc hpc i
      have hs : World.issuedBy { W.reset with runs := W.runs ++ [{ props := p, pc := pc }] } i
          = W.issuedBy i := rfl
      rw [hs]
      simp only
      rcases Nat.lt_trichotomy i W.runs.length with hlt | heq | hgt
      · rw [List.getElem?_append_left hlt]
        exact h i
      · subst heq
        have hnone : W.runs[W.runs.length]? = none := List.getElem?_eq_none (Nat.le_refl _)
        have h0 := (h W.runs.length).1 hnone
        simp [h0, hpc]
      · have hnone : W.runs[i]? = none := List.getElem?_eq_none (Nat.le_of_lt hgt)
        have h0 := (h i).1 hnone
        have hnone2 : (W.runs ++ [{ props := p, pc := pc }])[i]? = none := by
          apply List.getElem?_eq_none
          simp; omega
        rw [hnone2]
        simp [h0]
    cases hv : p.isSaved
    · rw [effectRun_fresh W p env u hb hv hu]
      exact key _ (by simp [Run.issuedOk, hv])
    · rw [effectRun_saved W p env u hb hv hu]
      exact key _ (by simp [Run.issuedOk, hv])
  · simpa [effectRun, hg] using h

theorem issuedInv_reachable (W : World) (h : Reachable W) : IssuedInv W := by
  induction h with
  | init =>
    intro i
    simp [World.init, World.issuedBy]
  | step W e _ ih =>
    cases e with
    | effect p env => exact issuedInv_effect W p env ih
    | cleanup =>
      intro i
      have := ih i
      simpa [step, effectCleanup, clearStageTimer_eq, World.issuedBy] using this
    | settle i o env => exact issuedInv_settle W i o env ih
    | tick t =>
      simp only [step]
      split
      · intro i
        have := ih i
        simpa [World.issuedBy] using this
      · exact ih

/-- What one event adds to the requests of run `i`: nothing, or the lookup, when the run
waited for the token of the lookup, or the analysis request, when the run waited for the
token of the analysis. -/
theorem step_issued (W : World) (e : Event) (i : Nat) :
    (step W e).issuedBy i = W.issuedBy i
    ∨ (∃ r, W.runs[i]? = some r ∧ (r.pc = .savedToken ∨ r.pc = .silentToken)
        ∧ (step W e).issuedBy i = W.issuedBy i ++ [.viewReport])
    ∨ (∃ r, W.runs[i]? = some r ∧ r.pc = .freshToken
        ∧ (step W e).issuedBy i = W.issuedBy i ++ [.analyze]) := by
  cases e with
  | effect p env =>
    left
    apply issuedBy_congr
    simp only [step, effectRun, loadReport, freshStep, freshFinally, savedCatch, World.finish,
      World.suspend, World.reset]
    repeat' split
    all_goals rfl
  | cleanup =>
    left
    apply issuedBy_congr
    simp [step, effectCleanup, clearStageTimer_eq]
  | tick t =>
    left
    apply issuedBy_congr
    simp only [step]
    split <;> rfl
  | settle k o env =>
    cases hk : W.runs[k]? with
    | none => left; simp [step, hk]
    | some r =>
      rw [step_settle W k r o env hk]
      obtain ⟨pc2, _, hcase⟩ := resume_issued W k r o env hk
      rcases hcase with ⟨hreq, _⟩ | ⟨url, t, hreq, hpc, _⟩ | ⟨url, t, hreq, hpc, _⟩
      · left; exact issuedBy_congr _ _ hreq _
      · by_cases hik : k = i
        · subst hik
          right; left
          refine ⟨r, hk, hpc, ?_⟩
          rw [issuedBy_append _ _ _ hreq]; simp
        · left
          rw [issuedBy_append _ _ _ hreq]; simp [hik]
      · by_cases hik : k = i
        · subst hik
          right; right
          refine ⟨r, hk, hpc, ?_⟩
          rw [issuedBy_append _ _ _ hreq]; simp
        · left
          rw [issuedBy_append _ _ _ hreq]; simp [hik]

/-- C19 (counterexample). A run in saved mode whose `getIdToken()` rejects returns without
having requested anything: its requests are not exactly one saved-report lookup. And
outside saved mode, a run whose `getIdToken()` rejects in the silent lookup and resolves
in the fresh-analysis step has requested the analysis alone, not a lookup followed by the
analysis. -/
theorem C19_no_lookup_issued_counterexample :
    acmeSaved.isSaved = true
    ∧ (exec World.init [ .effect acmeSaved sampleEnv,
          .settle 0 (.rejected "auth/network-request-failed") sampleEnv ]).runs[0]?
        = some { props := acmeSaved, pc := .done }
    ∧ (exec World.init [ .effect acmeSaved sampleEnv,
          .settle 0 (.rejected "auth/network-request-failed") sampleEnv ]).issuedBy 0 = []
    ∧ acmeFresh.isSaved = false
    ∧ (exec World.init [ .effect acmeFresh sampleEnv,
          .settle 0 (.rejected "auth/network-request-failed") sampleEnv,
          .settle 0 (.token "tok") sampleEnv ]).runs[0]?
        = some { props := acmeFresh, pc := .freshFetch }
    ∧ (exec World.init [ .effect acmeFresh sampleEnv,
          .settle 0 (.rejected "auth/network-request-failed") sampleEnv,
          .settle 0 (.token "tok") sampleEnv ]).issuedBy 0 = [.analyze] := by
  decide

/-- C19 (amended). In every state the page reaches from mount, the requests a run of
`loadReport` has issued are, in order: in saved mode nothing or one saved-report lookup;
outside saved mode nothing, one lookup, one analysis request, or one lookup followed by
one analysis request. So no endpoint is requested twice by a run. A run waiting for the
token of its lookup has requested nothing; a run waiting for the answer of its lookup or
for the body of that answer has requested the lookup and nothing else; a run waiting for
the answer of the analysis or for its body has requested the analysis, preceded by the
lookup if it made one. Any event leaves the requests of the run as they are, or appends
the lookup, when the run waited for the token of the lookup, or appends the analysis
request, when the run waited for the token of the analysis and so no longer for its
lookup. -/
theorem C19_request_sequence_amended (W : World) (hW : Reachable W) (i : Nat) (r : Run)
    (hr : W.runs[i]? = some r) :
    (r.props.isSaved = true → W.issuedBy i = [] ∨ W.issuedBy i = [.viewReport])
    ∧ (r.props.isSaved = false →
        W.issuedBy i = [] ∨ W.issuedBy i = [.viewReport] ∨ W.issuedBy i = [.analyze]
        ∨ W.issuedBy i = [.viewReport, .analyze])
    ∧ (W.issuedBy i).count .viewReport ≤ 1
    ∧ (W.issuedBy i).count .analyze ≤ 1
    ∧ (r.pc = .savedToken ∨ r.pc = .silentToken → W.issuedBy i = [])
    ∧ (r.pc = .savedFetch ∨ r.pc = .savedJson ∨ r.pc = .silentFetch ∨ r.pc = .silentJson →
        W.issuedBy i = [.viewReport])
    ∧ (r.pc.requestSent = true →
        W.issuedBy i = [.analyze] ∨ W.issuedBy i = [.viewReport, .analyze])
    ∧ (∀ e, (step W e).issuedBy i = W.issuedBy i
        ∨ ((r.pc = .savedToken ∨ r.pc = .silentToken)
            ∧ (step W e).issuedBy i = [.viewReport])
        ∨ (r.pc = .freshToken ∧ (step W e).issuedBy i = W.issuedBy i ++ [.analyze])) := by
  have hok := (issuedInv_reachable W hW i).2 r hr
  have hstep : ∀ e, (step W e).issuedBy i = W.issuedBy i
        ∨ ((r.pc = .savedToken ∨ r.pc = .silentToken)
            ∧ (step W e).issuedBy i = W.issuedBy i ++ [.viewReport])
        ∨ (r.pc = .freshToken ∧ (step W e).issuedBy i = W.issuedBy i ++ [.analyze]) := by
    intro e
    rcases step_issued W e i with h | ⟨r2, hr2, hpc, h⟩ | ⟨r2, hr2, hpc, h⟩
    · exact Or.inl h
    · rw [hr] at hr2
      cases Option.some.inj hr2
      exact Or.inr (Or.inl ⟨hpc, h⟩)
    · rw [hr] at hr2
      cases Option.some.inj hr2
      exact Or.inr (Or.inr ⟨hpc, h⟩)
  have hempty : r.pc = .savedToken ∨ r.pc = .silentToken → W.issuedBy i = [] := by
    obtain ⟨props, pc⟩ := r
    rintro (h | h) <;> simp only at h <;> subst h <;>
      simp [Run.issuedOk] at hok <;> exact hok.2
  refine ⟨?_, ?_, ?_, ?_, hempty, ?_, ?_, ?_⟩
  · obtain ⟨props, pc⟩ := r
    intro hs
    simp only at hs
    cases pc <;> simp [Run.issuedOk, hs] at hok <;> simp [hok]
  · obtain ⟨props, pc⟩ := r
    intro hs
    simp only at hs
    cases pc <;> simp [Run.issuedOk, hs] at hok <;> aesop
  · obtain ⟨props, pc⟩ := r
    cases hs : props.isSaved <;> cases pc <;> simp [Run.issuedOk, hs] at hok <;> aesop
  · obtain ⟨props, pc⟩ := r
    cases hs : props.isSaved <;> cases pc <;> simp [Run.issuedOk, hs] at hok <;> aesop
  · obtain ⟨props, pc⟩ := r
    rintro (h | h | h | h) <;> simp only at h <;> subst h <;>
      simp [Run.issuedOk] at hok <;> exact hok.2
  · obtain ⟨props, pc⟩ := r
    intro h
    cases pc <;> simp [Pc.requestSent] at h <;> simp [Run.issuedOk] at hok <;> exact hok.2
  · intro e
    rcases hstep e with h | ⟨hpc, h⟩ | h
    · exact Or.inl h
    · rw [hempty hpc] at h
      exact Or.inr (Or.inl ⟨hpc, h⟩)
    · exact Or.inr (Or.inr h)

theorem C19_request_sequence_amended_witness :
    Reachable (exec World.init [ .effect acmeFresh sampleEnv,
        .settle 0 (.token "tok") sampleEnv, .settle 0 (.response 404) sampleEnv,
        .settle 0 (.token "tok2") sampleEnv, .settle 0 (.response 500) sampleEnv ])
    ∧ (exec World.init [ .effect acmeFresh sampleEnv,
        .settle 0 (.token "tok") sampleEnv, .settle 0 (.response 404) sampleEnv,
        .settle 0 (.token "tok2") sampleEnv, .settle 0 (.response 500) sampleEnv ]).runs[0]?
        = some { props := acmeFresh, pc := .done }
    ∧ (exec World.init [ .effect acmeFresh sampleEnv,
        .settle 0 (.token "tok") sampleEnv, .settle 0 (.response 404) sampleEnv,
        .settle 0 (.token "tok2") sampleEnv, .settle 0 (.response 500) sampleEnv ]).issuedBy 0
        = [.viewReport, .analyze]
    ∧ ((exec World.init [ .effect acmeFresh sampleEnv,
        .settle 0 (.token "tok") sampleEnv, .settle 0 (.response 404) sampleEnv,
        .settle 0 (.token "tok2") sampleEnv,
        .settle 0 (.response 500) sampleEnv ]).issuedBy 0).count .analyze ≤ 1 :=
  ⟨reachable_exec _ _ Reachable.init, by decide, by decide,
   (C19_request_sequence_amended _ (reachable_exec _ _ Reachable.init) 0
      { props := acmeFresh, pc := .done } (by decide)).2.2.2.1⟩

/-! ## C21: the payload and the fallbacks -/

theorem lookup_cons_eq (k a : String) (x : JSVal) (l : List (String × JSVal)) :
    ((a, x) :: l).lookup k = if k = a then some x else l.lookup k := by
  rw [List.lookup_cons]
  by_cases h : k = a
  · subst h; simp
  · have : (k == a) = false := by simpa using h
    rw [this, if_neg h]

theorem lookup_map_setKey (k k2 : String) (v : JSVal) (l : List (String × JSVal)) :
    (l.map (fun p => if p.1 == k then (k, v) else p)).lookup k2
      = if k2 = k then (if l.any (fun p => p.1 == k) then some v else none)
        else l.lookup k2 := by
  induction l with
  | nil => simp
  | cons p l ih =>
    obtain ⟨a, x⟩ := p
    rw [List.map_cons, List.any_cons]
    by_cases hak : a = k
    · have hf : (if ((a, x) : String × JSVal).1 == k then (k, v) else (a, x)) = (k, v) := by
        simp [hak]
      rw [hf, lookup_cons_eq, lookup_cons_eq, ih]
      subst hak
      by_cases h2 : k2 = a
      · simp [h2]
      · simp [h2]
    · have hf : (if ((a, x) : String × JSVal).1 == k then (k, v) else (a, x)) = (a, x) := by
        simp [hak]
      rw [hf, lookup_cons_eq, lookup_cons_eq, ih]
      by_cases h2 : k2 = k
      · have h3 : ¬ k2 = a := fun h => hak (h.symm.trans h2)
        subst h2
        have h4 : (a == k2) = false := by simpa using hak
        rw [if_neg h3, h4, Bool.false_or]
        simp
      · simp [h2]

theorem getOwn_setProp (kvs : List (String × JSVal)) (k k2 : String) (v : JSVal) :
    getOwn (setProp kvs k v) k2 = if k2 = k then v else getOwn kvs k2 := by
  unfold getOwn setProp
  by_cases hany : kvs.any (fun p => p.1 == k) = true
  · rw [if_pos hany, ← List.map_reverse, lookup_map_setKey]
    have hr : kvs.reverse.any (fun p => p.1 == k) = true := by
      rw [List.any_reverse]; exact hany
    rw [hr]
    by_cases h2 : k2 = k
    · simp [h2]
    · simp [h2]
  · rw [if_neg hany, List.reverse_append, List.reverse_singleton, List.singleton_append,
      lookup_cons_eq]
    by_cases h2 : k2 = k
    · simp [h2]
    · simp [h2]

theorem lookup_append_eq (k : String) (l1 l2 : List (String × JSVal)) :
    (l1 ++ l2).lookup k = match l1.lookup k with
      | some v => some v
      | none => l2.lookup k := by
  induction l1 with
  | nil => simp
  | cons p l1 ih =>
    obtain ⟨a, x⟩ := p
    rw [List.cons_append, lookup_cons_eq, lookup_cons_eq, ih]
    by_cases h : k = a
    · simp [h]
    · simp [h]

theorem lookup_eq_none_of_not_mem (k : String) (l : List (String × JSVal))
    (h : k ∉ l.map (fun p => p.1)) : l.lookup k = none := by
  induction l with
  | nil => simp
  | cons p l ih =>
    obtain ⟨a, x⟩ := p
    simp only [List.map_cons, List.mem_cons, not_or] at h
    rw [lookup_cons_eq, if_neg h.1, ih h.2]

theorem lookup_isSome_of_mem (k : String) (l : List (String × JSVal))
    (h : k ∈ l.map (fun p => p.1)) : ∃ v, l.lookup k = some v := by
  induction l with
  | nil => simp at h
  | cons p l ih =>
    obtain ⟨a, x⟩ := p
    rw [lookup_cons_eq]
    by_cases hk : k = a
    · exact ⟨x, by simp [hk]⟩
    · simp only [List.map_cons, List.mem_cons, hk, false_or] at h
      obtain ⟨v, hv⟩ := ih h
      exact ⟨v, by simp [hk, hv]⟩

/-- A key the object does not have reads as `undefined`. -/
theorem getOwn_absent (kvs : List (String × JSVal)) (k : String)
    (h : k ∉ kvs.map (fun p => p.1)) : getOwn kvs k = .undefined := by
  unfold getOwn
  rw [lookup_eq_none_of_not_mem]
  rw [List.map_reverse]
  simpa using h

theorem getOwn_cons_entries (a : String) (x : JSVal) (es : List (String × JSVal))
    (k : String) :
    getOwn ((a, x) :: es) k
      = if k ∈ es.map (fun p => p.1) then getOwn es k else if k = a then x else .undefined := by
  unfold getOwn
  rw [List.reverse_cons, lookup_append_eq]
  by_cases hk : k ∈ es.map (fun p => p.1)
  · have hk2 : k ∈ es.reverse.map (fun p => p.1) := by
      rw [List.map_reverse]; simpa using hk
    obtain ⟨v, hv⟩ := lookup_isSome_of_mem k es.reverse hk2
    rw [if_pos hk, hv]
  · have hk2 : k ∉ es.reverse.map (fun p => p.1) := by
      rw [List.map_reverse]; simpa using hk
    rw [if_neg hk, lookup_eq_none_of_not_mem k es.reverse hk2, lookup_cons_eq]
    by_cases h : k = a
    · simp [h]
    · simp [h]

/-- Reading a key of an object literal that ends in a spread: the value comes from the
spread value when it has the key, and from the properties written before it otherwise. -/
theorem getOwn_foldl_setProp (es kvs : List (String × JSVal)) (k : String) :
    getOwn (es.foldl (fun acc p => setProp acc p.1 p.2) kvs) k
      = if k ∈ es.map (fun p => p.1) then getOwn es k else getOwn kvs k := by
  induction es generalizing kvs with
  | nil => simp
  | cons p es ih =>
    obtain ⟨a, x⟩ := p
    rw [List.foldl_cons, ih, getOwn_setProp, getOwn_cons_entries]
    by_cases hk : k ∈ es.map (fun p => p.1)
    · have : k ∈ ((a, x) :: es).map (fun p => p.1) := by
        rw [List.map_cons]; exact List.mem_cons_of_mem _ hk
      rw [if_pos hk, if_pos this, if_pos hk]
    · rw [if_neg hk, if_neg hk]
      by_cases h : k = a
      · have : k ∈ ((a, x) :: es).map (fun p => p.1) := by
          rw [List.map_cons, h]; exact List.mem_cons_self _ _
        rw [if_pos h, if_pos this, if_pos h]
      · have : k ∉ ((a, x) :: es).map (fun p => p.1) := by
          rw [List.map_cons]
          intro hm
          rcases List.mem_cons.mp hm with h1 | h1
          · exact h h1
          · exact hk h1
        rw [if_neg h, if_neg this]

theorem getOwn_spread (kvs : List (String × JSVal)) (v : JSVal) (k : String) :
    getOwn (spread kvs v) k
      = if k ∈ payloadKeys v then getOwn (ownEntries v) k else getOwn kvs k :=
  getOwn_foldl_setProp (ownEntries v) kvs k

theorem prop_absent (data : JSVal) (k : String) (h : k ∉ payloadKeys data) :
    data.prop k = .undefined := by
  cases data with
  | obj kvs => exact getOwn_absent kvs k h
  | _ => rfl

theorem get_brandName (data : JSVal) (hn : data ≠ .null) (hu : data ≠ .undefined) :
    data.get "brandName" = .ok (data.prop "brandName") := by
  cases data with
  | null => exact absurd rfl hn
  | undefined => exact absurd rfl hu
  | _ => rfl

/-- C21. For every payload other than `null` (and `undefined`), under every identity and
at every time, the normalisation returns a report, and in it the payload takes precedence:
for every top-level key the payload has, the report holds the payload's own value for that
key (for an object payload, the value read from the payload), whatever the value is, so
`scores`, `detailedAnalysis` and `cached` are taken whole from the payload when it has
them. The fallback values are used for keys absent from the payload: the brand name and
category of the identity, 0, 'No recommendation available.', the three zero scores, the
empty detailed analysis, `cached` true, 'user_history', and for `analysisTime` the
payload's `date` or else the current time. Every other key the payload does not have is
absent from the report. -/
theorem C21_payload_takes_precedence (b c iso : String) (data : JSVal)
    (hn : data ≠ .null) (hu : data ≠ .undefined) :
    ∃ v, validatedData b c iso data = .ok v
      ∧ (∀ k, k ∈ payloadKeys data → v.prop k = getOwn (ownEntries data) k)
      ∧ (∀ kvs k, data = .obj kvs → k ∈ payloadKeys data → v.prop k = data.prop k)
      ∧ ("brandName" ∉ payloadKeys data → v.prop "brandName" = .str b)
      ∧ ("category" ∉ payloadKeys data → v.prop "category" = .str c)
      ∧ ("overallScore" ∉ payloadKeys data → v.prop "overallScore" = .num 0)
      ∧ ("recommendation" ∉ payloadKeys data →
          v.prop "recommendation" = .str "No recommendation available.")
      ∧ ("scores" ∉ payloadKeys data →
          v.prop "scores" = .obj [ ("domainStrength", .num 0),
            ("competitionIntensity", .num 0), ("seoDifficulty", .num 0) ])
      ∧ ("detailedAnalysis" ∉ payloadKeys data →
          v.prop "detailedAnalysis" = .obj [ ("domainAvailability", .arr []),
            ("googleCompetition", .obj [ ("topResults", .arr []) ]) ])
      ∧ ("cached" ∉ payloadKeys data → v.prop "cached" = .bool true)
      ∧ ("source" ∉ payloadKeys data → v.prop "source" = .str "user_history")
      ∧ ("analysisTime" ∉ payloadKeys data →
          v.prop "analysisTime" = (data.prop "date").or (.str iso))
      ∧ (∀ k, k ∉ payloadKeys data → k ∉ fallbackKeys → v.prop k = .undefined) := by
  unfold validatedData
  rw [get_brandName data hn hu]
  refine ⟨_, rfl, ?_, ?_, ?_, ?_, ?_, ?_, ?_, ?_, ?_, ?_, ?_, ?_⟩
  · intro k hk
    show getOwn (spread _ data) k = _
    rw [getOwn_spread, if_pos hk]
  · intro kvs k hd hk
    show getOwn (spread _ data) k = _
    rw [getOwn_spread, if_pos hk]
    subst hd
    rfl
  · intro h
    show getOwn (spread _ data) "brandName" = _
    rw [getOwn_spread, if_neg h]
    simp [getOwn, lookup_cons_eq, prop_absent data _ h, JSVal.or, JSVal.truthy]
  · intro h
    show getOwn (spread _ data) "category" = _
    rw [getOwn_spread, if_neg h]
    simp [getOwn, lookup_cons_eq, prop_absent data _ h, JSVal.or, JSVal.truthy]
  · intro h
    show getOwn (spread _ data) "overallScore" = _
    rw [getOwn_spread, if_neg h]
    simp [getOwn, lookup_cons_eq, prop_absent data _ h, JSVal.or, JSVal.truthy]
  · intro h
    show getOwn (spread _ data) "recommendation" = _
    rw [getOwn_spread, if_neg h]
    simp [getOwn, lookup_cons_eq, prop_absent data _ h, JSVal.or, JSVal.truthy]
  · intro h
    show getOwn (spread _ data) "scores" = _
    rw [getOwn_spread, if_neg h]
    simp only [getOwn, lookup_cons_eq, List.reverse_cons, List.reverse_nil, List.nil_append,
      List.cons_append, prop_absent data _ h]
    rfl
  · intro h
    show getOwn (spread _ data) "detailedAnalysis" = _
    rw [getOwn_spread, if_neg h]
    simp only [getOwn, lookup_cons_eq, List.reverse_cons, List.reverse_nil, List.nil_append,
      List.cons_append, prop_absent data _ h]
    rfl
  · intro h
    show getOwn (spread _ data) "cached" = _
    rw [getOwn_spread, if_neg h]
    simp [getOwn, lookup_cons_eq]
  · intro h
    show getOwn (spread _ data) "source" = _
    rw [getOwn_spread, if_neg h]
    simp [getOwn, lookup_cons_eq, prop_absent data _ h, JSVal.or, JSVal.truthy]
  · intro h
    show getOwn (spread _ data) "analysisTime" = _
    rw [getOwn_spread, if_neg h]
    simp [getOwn, lookup_cons_eq, prop_absent data _ h, JSVal.or, JSVal.truthy]
  · intro k h hf
    show getOwn (spread _ data) k = _
    rw [getOwn_spread, if_neg h]
    apply getOwn_absent
    simpa [fallbackKeys] using hf

theorem C21_payload_takes_precedence_witness :
    (JSVal.obj [("overallScore", .num 0), ("cached", .bool false), ("scores", .obj [])])
        ≠ .null
    ∧ (JSVal.obj [("overallScore", .num 0), ("cached", .bool false), ("scores", .obj [])])
        ≠ .undefined
    ∧ ∃ v, validatedData "Acme" "tech & saas" "2025-01-01T00:00:00.000Z"
          (.obj [("overallScore", .num 0), ("cached", .bool false), ("scores", .obj [])])
          = .ok v
        ∧ v.prop "overallScore" = .num 0
        ∧ v.prop "cached" = .bool false
        ∧ v.prop "scores" = .obj []
        ∧ v.prop "brandName" = .str "Acme" := by
  obtain ⟨v, hv, hk, _, hb, _⟩ := C21_payload_takes_precedence "Acme" "tech & saas"
    "2025-01-01T00:00:00.000Z"
    (.obj [("overallScore", .num 0), ("cached", .bool false), ("scores", .obj [])])
    (by decide) (by decide)
  exact ⟨by decide, by decide, v, hv, (hk "overallScore" (by decide)).trans (by decide),
    (hk "cached" (by decide)).trans (by decide), (hk "scores" (by decide)).trans (by decide),
    hb (by decide)⟩

/-! ## C22: a request already in progress -/

/-- C22 (evaluation at the failing input). Two runs for Acme exist: the first holds the
marker and its request to `/api/analyze` is outstanding, the second waits for the answer
of its silent lookup. That lookup answers 404, so the second run reaches the fresh-analysis
step while the marker is set. It is the second run that is dropped: it returns at once,
the marker still holds the id written by the first run, and no request is added. The
answer of the first request is then applied: analysis becomes its payload, and the only
request ever sent to the analysis endpoint is the one of the first run. In every state,
reaching the fresh-analysis step with the marker set does nothing but end the run that
reached it. -/
theorem C22_new_request_dropped :
    acmeTwice.requestIdRef
      = some { brandName := "Acme", category := "tech & saas", now := sampleEnv.now,
               rnd := sampleEnv.rnd }
    ∧ acmeTwice.runs
        = [ { props := acmeFresh, pc := .freshFetch },
            { props := acmeFresh, pc := .silentFetch } ]
    ∧ step acmeTwice (.settle 1 (.response 404) laterEnv)
        = { acmeTwice with
            runs := [ { props := acmeFresh, pc := .freshFetch },
                      { props := acmeFresh, pc := .done } ] }
    ∧ (exec acmeTwice
        [ .settle 1 (.response 404) laterEnv, .settle 0 (.response 200) laterEnv,
          .settle 0 (.body acmeReport) laterEnv ]).analysis = acmeReport
    ∧ (exec acmeTwice
        [ .settle 1 (.response 404) laterEnv, .settle 0 (.response 200) laterEnv,
          .settle 0 (.body acmeReport) laterEnv ]).analyzeRequests
        = [ { run := 0, endpoint := .analyze, url := analyzeUrl "Acme" "tech & saas",
              token := "tok" } ]
    ∧ (∀ (W : World) (id : RequestId) (i : Nat) (r : Run) (env : Env),
        freshStep { W with requestIdRef := some id } i r env
          = World.finish { W with requestIdRef := some id } i r) :=
  ⟨by decide, by decide, by decide, by decide, by decide, fun _ _ _ _ _ => rfl⟩

/-! ## C23: the guard of the effect -/

theorem guarded_settle (W : World) (k : Nat) (o : Settled) (env : Env) (h : Guarded W) :
    Guarded (step W (.settle k o env)) := by
  cases hk : W.runs[k]? with
  | none => simpa [step, hk] using h
  | some r =>
    rw [step_settle W k r o env hk]
    obtain ⟨pc2, hruns, _⟩ := resume_summary W k r o env hk
    have hlt := lt_of_get _ _ _ hk
    intro i r2 hr2
    rw [hruns] at hr2
    by_cases hik : i = k
    · subst hik
      have hget : (W.runs.set i { r with pc := pc2 })[i]? = some { r with pc := pc2 } := by
        simp [List.getElem?_set, hlt]
      rw [hget] at hr2
      cases Option.some.inj hr2
      exact h i r hk
    · have hget : (W.runs.set k { r with pc := pc2 })[i]? = W.runs[i]? := by
        simp [List.getElem?_set, Ne.symm hik]
      rw [hget] at hr2
      exact h i r2 hr2

theorem guarded_effect (W : World) (p : Props) (env : Env) (h : Guarded W) :
    Guarded (step W (.effect p env)) := by
  simp only [step]
  by_cases hg : (truthyStr p.brand && p.user.isSome) = true
  · have hg2 := hg
    simp only [Bool.and_eq_true] at hg2
    obtain ⟨hb, hu⟩ := hg2
    obtain ⟨u, hu2⟩ := Option.isSome_iff_exists.mp hu
    have key : ∀ pc : Pc,
        Guarded { W.reset with runs := W.runs ++ [{ props := p, pc := pc }] } := by
      intro pc i r hr
      simp only at hr
      rcases Nat.lt_trichotomy i W.runs.length with hlt | heq | hgt
      · rw [List.getElem?_append_left hlt] at hr
        exact h i r hr
      · subst heq
        simp at hr
        subst hr
        exact ⟨hb, hu⟩
      · have hnone : (W.runs ++ [{ props := p, pc := pc }])[i]? = none := by
          apply List.getElem?_eq_none
          simp; omega
        rw [hnone] at hr
        cases hr
    cases hv : p.isSaved
    · rw [effectRun_fresh W p env u hb hv hu2]
      exact key _
    · rw [effectRun_saved W p env u hb hv hu2]
      exact key _
  · simpa [effectRun, hg] using h

theorem guarded_reachable (W : World) (h : Reachable W) : Guarded W := by
  induction h with
  | init =>
    intro i r hr
    simp [World.init] at hr
  | step W e _ ih =>
    cases e with
    | effect p env => exact guarded_effect W p env ih
    | cleanup =>
      intro i r hr
      have : (step W .cleanup).runs = W.runs := by
        simp [step, effectCleanup, clearStageTimer_eq]
      rw [this] at hr
      exact ih i r hr
    | settle i o env => exact guarded_settle W i o env ih
    | tick t =>
      simp only [step]
      split
      · intro i r hr
        exact ih i r hr
      · exact ih

/-- C23. The effect calls `loadReport` exactly when `brandName` is truthy (present and not
empty) and a user is present: every call of `loadReport` adds a run to the page, and the
effect adds one under the guard and none otherwise. When the brand name or the user is
missing, the effect run leaves the page as it is: no state changes, loading keeps its
value and no request is issued. Under the guard the call does not take the 'No brand name
provided' branch: it resets the state (error null, loading true) and is suspended at the
first `await` of the saved-mode lookup or of the silent lookup, with the request log as it
was. In every state reached from mount every run has a brand name and a user, and for
such a run the fresh-analysis step never takes the 'You must be logged in to perform an
analysis.' branch: it leaves error and loading as they are, and the run returns at the
marker guard or waits for its token. -/
theorem C23_effect_guard (W : World) (p : Props) (env : Env) :
    (loadReport W p env).runs.length = W.runs.length + 1
    ∧ ((truthyStr p.brand && p.user.isSome) = false → step W (.effect p env) = W)
    ∧ ((truthyStr p.brand && p.user.isSome) = true →
        step W (.effect p env) = loadReport W p env
        ∧ (step W (.effect p env)).runs
            = W.runs ++ [{ props := p, pc := if p.isSaved then .savedToken else .silentToken }]
        ∧ (step W (.effect p env)).error = none
        ∧ (step W (.effect p env)).loading = true
        ∧ (step W (.effect p env)).requests = W.requests)
    ∧ (Reachable W → ∀ (i : Nat) (r : Run), W.runs[i]? = some r →
        truthyStr r.props.brand = true ∧ r.props.user.isSome = true)
    ∧ (∀ (i : Nat) (r : Run) (env2 : Env), r.props.user.isSome = true →
        (freshStep W i r env2).error = W.error
        ∧ (freshStep W i r env2).loading = W.loading
        ∧ ((freshStep W i r env2).runs = W.runs.set i { r with pc := .done }
            ∨ (freshStep W i r env2).runs = W.runs.set i { r with pc := .freshToken })) := by
  refine ⟨?_, ?_, ?_, ?_, ?_⟩
  · simp only [loadReport, freshStep, freshFinally, savedCatch, World.finish, World.suspend,
      World.reset]
    repeat' split
    all_goals simp
  · intro hg
    simp [step, effectRun, hg]
  · intro hg
    have hg2 := hg
    simp only [Bool.and_eq_true] at hg2
    obtain ⟨hb, hu⟩ := hg2
    obtain ⟨u, hu2⟩ := Option.isSome_iff_exists.mp hu
    have h1 : step W (.effect p env) = loadReport W p env := by
      simp [step, effectRun, hg]
    refine ⟨h1, ?_⟩
    cases hv : p.isSaved
    · have := effectRun_fresh W p env u hb hv hu2
      simp only [step, this, World.reset]
      simp
    · have := effectRun_saved W p env u hb hv hu2
      simp only [step, this, World.reset]
      simp
  · intro hR
    exact guarded_reachable W hR
  · intro i r env2 hu
    obtain ⟨u, hu2⟩ := Option.isSome_iff_exists.mp hu
    cases hm : W.requestIdRef with
    | none => simp [freshStep, hm, hu2, World.suspend]
    | some id => simp [freshStep, hm, World.finish, World.suspend]

theorem C23_effect_guard_witness :
    (truthyStr noBrand.brand && noBrand.user.isSome) = false
    ∧ step acmeReportLoaded (.effect noBrand laterEnv) = acmeReportLoaded
    ∧ (truthyStr acmeAnonymous.brand && acmeAnonymous.user.isSome) = false
    ∧ step World.init (.effect acmeAnonymous sampleEnv) = World.init
    ∧ (truthyStr acmeFresh.brand && acmeFresh.user.isSome) = true
    ∧ (step World.init (.effect acmeFresh sampleEnv)).error = none :=
  ⟨by decide,
   (C23_effect_guard acmeReportLoaded noBrand laterEnv).2.1 (by decide),
   by decide,
   (C23_effect_guard World.init acmeAnonymous sampleEnv).2.1 (by decide),
   by decide,
   ((C23_effect_guard World.init acmeFresh sampleEnv).2.2.1 (by decide)).2.2.1⟩

/-! ## C24: the root label of a search result -/

theorem splitDots_head (h : List Char) : (splitDots h).headD [] = firstLabel h := by
  induction h with
  | nil => rfl
  | cons c cs ih =>
    unfold splitDots firstLabel
    by_cases hc : c = '.'
    · subst hc
      simp
    · rw [if_neg hc]
      have hne : (c != '.') = true := by simpa using hc
      rw [List.takeWhile_cons, hne]
      simp only [if_true]
      cases hs : splitDots cs with
      | nil =>
        rw [hs] at ih
        simp only [List.headD_nil] at ih
        unfold firstLabel at ih
        rw [← ih]
        rfl
      | cons p ps =>
        rw [hs] at ih
        simp only [List.headD_cons] at ih
        unfold firstLabel at ih
        rw [← ih]
        rfl

theorem firstLabel_no_dot (h : List Char) : '.' ∉ firstLabel h := by
  intro hm
  have := List.mem_takeWhile_imp hm
  simp at this

theorem firstLabel_split (h : List Char) :
    h = firstLabel h ∨ ∃ rest, h = firstLabel h ++ '.' :: rest := by
  induction h with
  | nil => left; rfl
  | cons c cs ih =>
    by_cases hc : c = '.'
    · subst hc
      right
      exact ⟨cs, by simp [firstLabel]⟩
    · have hne : (c != '.') = true := by simpa using hc
      have hf : firstLabel (c :: cs) = c :: firstLabel cs := by
        simp [firstLabel, List.takeWhile_cons, hne]
      rw [hf]
      rcases ih with h1 | ⟨rest, h1⟩
      · left; rw [← h1]
      · right; exact ⟨rest, by rw [List.cons_append, ← h1]⟩

theorem extractRootDomain_of_hostname (hostnameOf : String → Option String)
    (url h : String) (hh : hostnameOf url = some h) :
    extractRootDomain hostnameOf url
      = some (String.mk (firstLabel (replaceWwwPrefix h.toList))) := by
  unfold extractRootDomain
  rw [hh]
  simp only [splitDots_head, ite_self]

/-- C24. Let the URL parser be any function. For a URL it accepts, with hostname `h`,
`extractRootDomain` returns the first dot-separated label of `h` after the removal of one
leading `www.`: the characters up to the first dot. The label holds no dot, and the
stripped hostname is the label, or the label followed by a dot and the rest. Removing the
leading `www.` takes `www.` followed by `rest` to `rest` and leaves a hostname that does
not start with `www.` as it is. So the hostnames `www.reddit.com` and `reddit.co.uk` both
give `reddit`. For a string the parser rejects, the function returns null. -/
theorem C24_extractRootDomain_first_label (hostnameOf : String → Option String)
    (url : String) :
    (∀ h, hostnameOf url = some h →
        extractRootDomain hostnameOf url
          = some (String.mk (firstLabel (replaceWwwPrefix h.toList)))
        ∧ '.' ∉ firstLabel (replaceWwwPrefix h.toList)
        ∧ (replaceWwwPrefix h.toList = firstLabel (replaceWwwPrefix h.toList)
            ∨ ∃ rest, replaceWwwPrefix h.toList
                = firstLabel (replaceWwwPrefix h.toList) ++ '.' :: rest))
    ∧ (hostnameOf url = none → extractRootDomain hostnameOf url = none)
    ∧ (∀ rest : List Char, replaceWwwPrefix ('w' :: 'w' :: 'w' :: '.' :: rest) = rest)
    ∧ (∀ h : List Char, ['w', 'w', 'w', '.'].isPrefixOf h = false → replaceWwwPrefix h = h)
    ∧ extractRootDomain (fun _ => some "www.reddit.com") url = some "reddit"
    ∧ extractRootDomain (fun _ => some "reddit.co.uk") url = some "reddit" := by
  refine ⟨?_, ?_, ?_, ?_, ?_, ?_⟩
  · intro h hh
    exact ⟨extractRootDomain_of_hostname hostnameOf url h hh, firstLabel_no_dot _,
      firstLabel_split _⟩
  · intro hn
    unfold extractRootDomain
    rw [hn]
  · intro rest
    simp [replaceWwwPrefix]
  · intro h hp
    simp [replaceWwwPrefix, hp]
  · rfl
  · rfl

theorem C24_extractRootDomain_first_label_witness :
    sampleHostnameOf "https://www.reddit.com/r/lean" = some "www.reddit.com"
    ∧ extractRootDomain sampleHostnameOf "https://www.reddit.com/r/lean" = some "reddit"
    ∧ sampleHostnameOf "reddit" = none
    ∧ extractRootDomain sampleHostnameOf "reddit" = none :=
  ⟨by decide,
   ((C24_extractRootDomain_first_label sampleHostnameOf "https://www.reddit.com/r/lean").1
      "www.reddit.com" (by decide)).1.trans (by decide),
   by decide,
   (C24_extractRootDomain_first_label sampleHostnameOf "reddit").2.1 (by decide)⟩

/-! ## C25: the 'Direct Competitor' flag -/

/-- C25 (evaluation at the failing input). The report of Acme is loaded and shown; its
second search result has the link `not a url`, which is not a valid URL. The page is then
rendered without a `brand` parameter, so `brandName` is null: the effect does not call
`loadReport`, the report stays on screen, and the evaluation of the flag throws the
`TypeError` of `brandName.toLowerCase()`, for the result with the invalid link as for the
other one, and for every link under every URL parser. With the brand name present the
claim holds: the evaluation does not throw, the result with the invalid link is not
flagged, and a result is flagged exactly when its link is a valid URL whose label equals
the brand name, both in lower case. -/
theorem C25_flag_throws_without_brand :
    noBrand.brand = none
    ∧ acmeReportLoaded.analysis = acmeReport
    ∧ acmeReportLoaded.screen = .report
    ∧ exec acmeReportLoaded [.cleanup, .effect noBrand laterEnv]
        = { acmeReportLoaded with intervalRef := none, requestIdRef := none }
    ∧ (exec acmeReportLoaded [.cleanup, .effect noBrand laterEnv]).screen = .report
    ∧ sampleHostnameOf "not a url" = none
    ∧ isDirectCompetitor sampleHostnameOf asciiLower noBrand.brand "not a url"
        = .error "Cannot read properties of null (reading 'toLowerCase')"
    ∧ isDirectCompetitor sampleHostnameOf asciiLower noBrand.brand "https://www.acme.com/"
        = .error "Cannot read properties of null (reading 'toLowerCase')"
    ∧ (∀ (hostnameOf : String → Option String) (toLowerCase : String → String)
        (link : String),
        isDirectCompetitor hostnameOf toLowerCase none link
          = .error "Cannot read properties of null (reading 'toLowerCase')")
    ∧ isDirectCompetitor sampleHostnameOf asciiLower (some "Acme") "not a url" = .ok false
    ∧ isDirectCompetitor sampleHostnameOf asciiLower (some "Acme") "https://www.acme.com/"
        = .ok true
    ∧ (∀ (hostnameOf : String → Option String) (toLowerCase : String → String)
        (b link : String),
        ∃ flag, isDirectCompetitor hostnameOf toLowerCase (some b) link = .ok flag
          ∧ (flag = true ↔
              ∃ h label, hostnameOf link = some h
                ∧ extractRootDomain hostnameOf link = some label
                ∧ toLowerCase label = toLowerCase b)) := by
  refine ⟨by decide, by decide, by decide, by decide, by decide, by decide, rfl, rfl,
    fun _ _ _ => rfl, rfl, rfl, ?_⟩
  intro hostnameOf toLowerCase b link
  cases hh : hostnameOf link with
  | none =>
    refine ⟨false, ?_, ?_⟩
    · simp [isDirectCompetitor, extractRootDomain, hh]
    · simp
  | some h =>
    have he := extractRootDomain_of_hostname hostnameOf link h hh
    refine ⟨_, rfl, ?_⟩
    rw [he]
    simp

/-! ## C26: the credit gate of the deep scan -/

theorem get_ok (data : JSVal) (k : String) (hn : data ≠ .null) (hu : data ≠ .undefined) :
    data.get k = .ok (data.prop k) := by
  cases data with
  | null => exact absurd rfl hn
  | undefined => exact absurd rfl hu
  | _ => rfl

/-- C26 (counterexample). A user is present, the credit check answers 200 and reports three
deep scans, which is not `<= 0`: the gate is passed. The call then asks for a token a
second time and `getIdToken()` rejects: no deep-scan request has been sent, and the call
ends with the error of a failed scan. -/
theorem C26_no_request_after_gate_counterexample :
    acmeScan.user.isSome = true
    ∧ statusOk 200 = true
    ∧ creditsExhausted noStringLeZero (.obj [("deepScans", .num 3)]) = .ok false
    ∧ scanRun noStringLeZero acmeScan (handleDeepScan ScanState.init acmeScan)
        [ .token "tok", .response 200, .body (.obj [("deepScans", .num 3)]) ]
      = ({ ScanState.init with isDeepScanning := true, creditChecks := ["tok"] }, .scanToken)
    ∧ scanRun noStringLeZero acmeScan (handleDeepScan ScanState.init acmeScan)
        [ .token "tok", .response 200, .body (.obj [("deepScans", .num 3)]),
          .rejected "auth/network-request-failed" ]
      = ({ ScanState.init with
            deepScanError := .str "An error occurred during deep scan. Please try again.",
            creditChecks := ["tok"] }, .done)
    ∧ (scanRun noStringLeZero acmeScan (handleDeepScan ScanState.init acmeScan)
        [ .token "tok", .response 200, .body (.obj [("deepScans", .num 3)]),
          .rejected "auth/network-request-failed" ]).1.deepScanRequests = [] :=
  ⟨by decide, by decide, rfl, by decide, by decide, by decide⟩

/-- C26 (amended). Without a user `handleDeepScan` sets the error 'Please log in to
perform a deep scan.' and returns. With a user it asks for a token and checks the credits.
If the token is not obtained, the credit request fails or is answered with a non-success
status, the body does not parse, or the test `credits.deepScans <= 0` throws (the body is
`null`), the call sets 'Unable to verify credits. Please try again.' and returns; if the
test answers true it sets 'Insufficient Deep Scan credits. Please purchase a credit pack to
continue.' and returns. In all these cases no deep-scan request is sent and
`deepScanData` and `isDeepScanning` are as before. If the test answers false the gate is
passed: `isDeepScanning` becomes true, `deepScanError` and `deepScanData` become null, and
the call asks for a token again, with no deep-scan request sent yet. It then sends exactly
one deep-scan request if that token is obtained and the list of competitor URLs can be
built; if `getIdToken()` rejects or building the list throws, it sends none and ends with
'An error occurred during deep scan. Please try again.' and `isDeepScanning` false. The
test answers false for a count above 0 and for an absent count, true for a count of 0 or
below. -/
theorem C26_credit_gate_amended (strLeZero : String → Bool) (p : ScanProps) (S : ScanState)
    (t t2 m : String) (status : Nat) (credits : JSVal) :
    (p.user = none →
      handleDeepScan S p
        = ({ S with deepScanError := .str "Please log in to perform a deep scan." }, .done))
    ∧ (p.user.isSome = true → handleDeepScan S p = (S, .creditToken))
    ∧ scanRun strLeZero p (S, .creditToken) [.rejected m]
        = ({ S with deepScanError := .str "Unable to verify credits. Please try again." },
            .done)
    ∧ scanRun strLeZero p (S, .creditToken) [.token t, .rejected m]
        = ({ S with
                    deepScanError := .str "Unable to verify credits. Please try again.",
                    creditChecks := S.creditChecks ++ [t] }, .done)
    ∧ (statusOk status = false →
        scanRun strLeZero p (S, .creditToken) [.token t, .response status]
          = ({ S with
                      deepScanError := .str "Unable to verify credits. Please try again.",
                      creditChecks := S.creditChecks ++ [t] }, .done))
    ∧ (statusOk status = true →
        scanRun strLeZero p (S, .creditToken) [.token t, .response status, .rejected m]
          = ({ S with
                      deepScanError := .str "Unable to verify credits. Please try again.",
                      creditChecks := S.creditChecks ++ [t] }, .done))
    ∧ (statusOk status = true → (∃ e, creditsExhausted strLeZero credits = .error e) →
        scanRun strLeZero p (S, .creditToken) [.token t, .response status, .body credits]
          = ({ S with
                      deepScanError := .str "Unable to verify credits. Please try again.",
                      creditChecks := S.creditChecks ++ [t] }, .done))
    ∧ (statusOk status = true → creditsExhausted strLeZero credits = .ok true →
        scanRun strLeZero p (S, .creditToken) [.token t, .response status, .body credits]
          = ({ S with
                deepScanError := .str
                  "Insufficient Deep Scan credits. Please purchase a credit pack to continue.",
                creditChecks := S.creditChecks ++ [t] }, .done))
    ∧ (statusOk status = true → creditsExhausted strLeZero credits = .ok false →
        scanRun strLeZero p (S, .creditToken) [.token t, .response status, .body credits]
          = ({ S with
                      isDeepScanning := true, deepScanError := .null, deepScanData := .null,
                      creditChecks := S.creditChecks ++ [t] }, .scanToken))
    ∧ (∀ urls, competitorUrls p.analysis = .ok urls →
        scanRun strLeZero p (S, .scanToken) [.token t2]
          = ({ S with
                deepScanRequests :=
                  S.deepScanRequests ++ [{ token := t2, body := scanBody p urls }] },
              .scanFetch))
    ∧ ((∃ e, competitorUrls p.analysis = .error e) →
        scanRun strLeZero p (S, .scanToken) [.token t2]
          = ({ S with
                deepScanError := .str "An error occurred during deep scan. Please try again.",
                isDeepScanning := false }, .done))
    ∧ scanRun strLeZero p (S, .scanToken) [.rejected m]
        = ({ S with
              deepScanError := .str "An error occurred during deep scan. Please try again.",
              isDeepScanning := false }, .done)
    ∧ (∃ e, creditsExhausted strLeZero .null = .error e)
    ∧ (∀ (kvs : List (String × JSVal)) (n : Int), getOwn kvs "deepScans" = .num n →
        creditsExhausted strLeZero (.obj kvs) = .ok (decide (n ≤ 0)))
    ∧ (∀ kvs : List (String × JSVal), getOwn kvs "deepScans" = .undefined →
        creditsExhausted strLeZero (.obj kvs) = .ok false) := by
  refine ⟨?_, ?_, rfl, rfl, ?_, ?_, ?_, ?_, ?_, ?_, ?_, rfl, ⟨_, rfl⟩, ?_, ?_⟩
  · intro h
    simp [handleDeepScan, h]
  · intro h
    obtain ⟨u, hu⟩ := Option.isSome_iff_exists.mp h
    simp [handleDeepScan, hu]
  · intro h
    simp [scanRun, scanResume, h]
  · intro h
    simp [scanRun, scanResume, h, creditCatch]
  · rintro h ⟨e, he⟩
    simp [scanRun, scanResume, h, he, creditCatch]
  · intro h he
    simp [scanRun, scanResume, h, he]
  · intro h he
    simp [scanRun, scanResume, h, he]
  · intro urls hu
    simp [scanRun, scanResume, hu]
  · rintro ⟨e, he⟩
    simp [scanRun, scanResume, he, scanCatch, scanFinally]
  · intro kvs n h
    simp [creditsExhausted, JSVal.get, JSVal.prop, h, leZero]
  · intro kvs h
    simp [creditsExhausted, JSVal.get, JSVal.prop, h, leZero]

theorem C26_credit_gate_amended_witness :
    acmeScan.user.isSome = true
    ∧ statusOk 200 = true
    ∧ creditsExhausted noStringLeZero (.obj [("deepScans", .num 0)]) = .ok true
    ∧ scanRun noStringLeZero acmeScan (handleDeepScan ScanState.init acmeScan)
        [ .token "tok", .response 200, .body (.obj [("deepScans", .num 0)]) ]
      = ({ ScanState.init with
            deepScanError := .str
              "Insufficient Deep Scan credits. Please purchase a credit pack to continue.",
            creditChecks := ScanState.init.creditChecks ++ ["tok"] }, .done)
    ∧ creditsExhausted noStringLeZero (.obj [("deepScans", .num 3)]) = .ok false
    ∧ scanRun noStringLeZero acmeScan (ScanState.init, .creditToken)
        [ .token "tok", .response 200, .body (.obj [("deepScans", .num 3)]) ]
      = ({ ScanState.init with
            isDeepScanning := true, deepScanError := .null,
            deepScanData := .null,
            creditChecks := ScanState.init.creditChecks ++ ["tok"] }, .scanToken) := by
  have h := C26_credit_gate_amended noStringLeZero acmeScan ScanState.init "tok" "tok2" ""
    200 (.obj [("deepScans", .num 0)])
  have h3 := C26_credit_gate_amended noStringLeZero acmeScan ScanState.init "tok" "tok2" ""
    200 (.obj [("deepScans", .num 3)])
  refine ⟨by decide, by decide, rfl, ?_, rfl, ?_⟩
  · rw [h.2.1 (by decide)]
    exact h.2.2.2.2.2.2.2.1 (by decide) rfl
  · exact h3.2.2.2.2.2.2.2.2.1 (by decide) rfl

/-! ## C27: the answer of the deep scan -/

theorem scanRun_cons (strLeZero : String → Bool) (p : ScanProps) (c : ScanState × ScanPc)
    (o : Settled) (os : List Settled) :
    scanRun strLeZero p c (o :: os)
      = scanRun strLeZero p (scanResume strLeZero p c.1 c.2 o) os := rfl

theorem scanResume_done (strLeZero : String → Bool) (p : ScanProps) (S : ScanState)
    (o : Settled) : scanResume strLeZero p S .done o = (S, .done) := by
  cases o <;> rfl

/-- One settlement of a call that waits for the answer of the deep scan or for its body:
the call goes on waiting with nothing written, or it returns with `isDeepScanning` false
and at most one of `deepScanData` and `deepScanError` written. -/
theorem scanResume_answer (strLeZero : String → Bool) (p : ScanProps) (S : ScanState)
    (pc : ScanPc) (o : Settled) (hpc : pc = .scanFetch ∨ ∃ st, pc = .scanJson st) :
    (scanResume strLeZero p S pc o = (S, pc))
    ∨ (∃ st, scanResume strLeZero p S pc o = (S, .scanJson st))
    ∨ ((scanResume strLeZero p S pc o).2 = .done
        ∧ (scanResume strLeZero p S pc o).1.isDeepScanning = false
        ∧ (scanResume strLeZero p S pc o).1.creditChecks = S.creditChecks
        ∧ (scanResume strLeZero p S pc o).1.deepScanRequests = S.deepScanRequests
        ∧ ((scanResume strLeZero p S pc o).1.deepScanData = S.deepScanData
            ∨ (scanResume strLeZero p S pc o).1.deepScanError = S.deepScanError)) := by
  rcases hpc with h | ⟨st, h⟩ <;> subst h <;> cases o <;>
    simp only [scanResume, scanCatch, scanFinally] <;>
    (repeat' split) <;>
    simp

/-- Whatever the call receives after its request was sent, it is waiting with nothing
written, or it has returned with `isDeepScanning` false and at most one of `deepScanData`
and `deepScanError` written. -/
theorem scanRun_answer (strLeZero : String → Bool) (p : ScanProps) (S : ScanState)
    (os : List Settled) (c : ScanState × ScanPc)
    (hc : (c.1 = S ∧ (c.2 = .scanFetch ∨ ∃ st, c.2 = .scanJson st))
          ∨ (c.2 = .done ∧ c.1.isDeepScanning = false
              ∧ (c.1.deepScanData = S.deepScanData ∨ c.1.deepScanError = S.deepScanError))) :
    ((scanRun strLeZero p c os).1 = S
        ∧ ((scanRun strLeZero p c os).2 = .scanFetch
            ∨ ∃ st, (scanRun strLeZero p c os).2 = .scanJson st))
    ∨ ((scanRun strLeZero p c os).2 = .done
        ∧ (scanRun strLeZero p c os).1.isDeepScanning = false
        ∧ ((scanRun strLeZero p c os).1.deepScanData = S.deepScanData
            ∨ (scanRun strLeZero p c os).1.deepScanError = S.deepScanError)) := by
  induction os generalizing c with
  | nil => exact hc
  | cons o os ih =>
    rw [scanRun_cons]
    apply ih
    obtain ⟨S1, pc⟩ := c
    rcases hc with ⟨h1, hpc⟩ | ⟨hd, hrest⟩
    · simp only at h1 hpc
      subst h1
      rcases scanResume_answer strLeZero p S1 pc o hpc with h | ⟨st, h⟩ | ⟨h2, h3, _, _, h4⟩
      · left; rw [h]; exact ⟨rfl, hpc⟩
      · left; rw [h]; exact ⟨rfl, Or.inr ⟨st, rfl⟩⟩
      · right; exact ⟨h2, h3, h4⟩
    · simp only at hd hrest
      subst hd
      right
      rw [scanResume_done]
      exact ⟨rfl, hrest⟩

/-- C27 (counterexample). The deep scan of Acme has passed the credit gate and its request
is outstanding. The server answers 402 with the body `null`: the error shown is 'An error
occurred during deep scan. Please try again.', not a message of the body and not
'Insufficient Deep Scan credits.'. -/
theorem C27_null_body_402_counterexample :
    acmeScanOutstanding.2 = .scanFetch
    ∧ acmeScanOutstanding.1.deepScanRequests.length = 1
    ∧ (scanRun noStringLeZero acmeScan acmeScanOutstanding
        [.response 402, .body .null]).1.deepScanError
      = .str "An error occurred during deep scan. Please try again."
    ∧ (scanRun noStringLeZero acmeScan acmeScanOutstanding
        [.response 402, .body .null]).1.deepScanError
      ≠ .str "Insufficient Deep Scan credits."
    ∧ (scanRun noStringLeZero acmeScan acmeScanOutstanding
        [.response 402, .body .null]).2 = .done := by
  decide

/-- C27 (amended). A call of `handleDeepScan` has passed the credit gate and sent its
request. If the request fails, or the body of the answer does not parse or parses to
`null`, the error is 'An error occurred during deep scan. Please try again.', whatever the
status. For a body that parses to another value: with status 402 the error is the body's
`message` if that is truthy and 'Insufficient Deep Scan credits.' otherwise; with status
403 it is the body's `message` or 'Please verify your email to continue.'; both whatever
the `success` flag is. With another status, a truthy `success` flag stores the body's
`data` in `deepScanData`, and otherwise the error is the body's `error` if that is truthy
and 'Deep scan failed. Please try again.' if not. In each of these cases the call has
returned with `isDeepScanning` false and nothing else changed. Whatever settlements the
call receives, once it has returned `isDeepScanning` is false, and if `deepScanData` and
`deepScanError` were both null when the request was sent, as they are after the gate, at
least one of them is still null. -/
theorem C27_deep_scan_answer_amended (strLeZero : String → Bool) (p : ScanProps)
    (S : ScanState) (status : Nat) (data : JSVal) (m : String) (os : List Settled) :
    scanRun strLeZero p (S, .scanFetch) [.rejected m]
      = ({ S with
            deepScanError := .str "An error occurred during deep scan. Please try again.",
            isDeepScanning := false }, .done)
    ∧ scanRun strLeZero p (S, .scanFetch) [.response status, .rejected m]
      = ({ S with
            deepScanError := .str "An error occurred during deep scan. Please try again.",
            isDeepScanning := false }, .done)
    ∧ scanRun strLeZero p (S, .scanFetch) [.response status, .body .null]
      = ({ S with
            deepScanError := .str "An error occurred during deep scan. Please try again.",
            isDeepScanning := false }, .done)
    ∧ (data ≠ .null → data ≠ .undefined → status = 402 →
        scanRun strLeZero p (S, .scanFetch) [.response status, .body data]
          = ({ S with
                deepScanError :=
                  (data.prop "message").or (.str "Insufficient Deep Scan credits."),
                isDeepScanning := false }, .done))
    ∧ (data ≠ .null → data ≠ .undefined → status = 403 →
        scanRun strLeZero p (S, .scanFetch) [.response status, .body data]
          = ({ S with
                deepScanError :=
                  (data.prop "message").or (.str "Please verify your email to continue."),
                isDeepScanning := false }, .done))
    ∧ (data ≠ .null → data ≠ .undefined → status ≠ 402 → status ≠ 403 →
        (data.prop "success").truthy = true →
        scanRun strLeZero p (S, .scanFetch) [.response status, .body data]
          = ({ S with deepScanData := data.prop "data", isDeepScanning := false }, .done))
    ∧ (data ≠ .null → data ≠ .undefined → status ≠ 402 → status ≠ 403 →
        (data.prop "success").truthy = false →
        scanRun strLeZero p (S, .scanFetch) [.response status, .body data]
          = ({ S with
                deepScanError :=
                  (data.prop "error").or (.str "Deep scan failed. Please try again."),
                isDeepScanning := false }, .done))
    ∧ ((scanRun strLeZero p (S, .scanFetch) os).2 = .done →
        (scanRun strLeZero p (S, .scanFetch) os).1.isDeepScanning = false)
    ∧ (S.deepScanData = .null → S.deepScanError = .null →
        (scanRun strLeZero p (S, .scanFetch) os).1.deepScanData = .null
        ∨ (scanRun strLeZero p (S, .scanFetch) os).1.deepScanError = .null) := by
  have hinv := scanRun_answer strLeZero p S os (S, .scanFetch) (Or.inl ⟨rfl, Or.inl rfl⟩)
  refine ⟨rfl, rfl, ?_, ?_, ?_, ?_, ?_, ?_, ?_⟩
  · simp only [scanRun, List.foldl_cons, List.foldl_nil, scanResume]
    split_ifs <;> rfl
  · intro hn hu hs
    subst hs
    simp [scanRun, scanResume, get_ok data "message" hn hu, scanFinally]
  · intro hn hu hs
    subst hs
    simp [scanRun, scanResume, get_ok data "message" hn hu, scanFinally]
  · intro hn hu h2 h3 ht
    simp [scanRun, scanResume, get_ok data "success" hn hu, scanFinally, h2, h3, ht]
  · intro hn hu h2 h3 ht
    simp [scanRun, scanResume, get_ok data "success" hn hu, scanFinally, h2, h3, ht]
  · intro hd
    rcases hinv with ⟨_, h | ⟨st, h⟩⟩ | ⟨_, h, _⟩
    · rw [h] at hd; cases hd
    · rw [h] at hd; cases hd
    · exact h
  · intro hd he
    rcases hinv with ⟨h, _⟩ | ⟨_, _, h | h⟩
    · left; rw [h]; exact hd
    · left; rw [h]; exact hd
    · right; rw [h]; exact he

theorem C27_deep_scan_answer_amended_witness :
    (JSVal.obj [("success", .bool true), ("message", .str "No credits left")]) ≠ .null
    ∧ (JSVal.obj [("success", .bool true), ("message", .str "No credits left")])
        ≠ .undefined
    ∧ (scanRun noStringLeZero acmeScan (acmeScanOutstanding.1, .scanFetch)
        [ .response 402,
          .body (.obj [("success", .bool true), ("message", .str "No credits left")]) ])
      = ({ acmeScanOutstanding.1 with
            deepScanError := .str "No credits left", isDeepScanning := false }, .done) := by
  have h := (C27_deep_scan_answer_amended noStringLeZero acmeScan acmeScanOutstanding.1 402
    (.obj [("success", .bool true), ("message", .str "No credits left")]) "" []).2.2.2.1
    (by decide) (by decide) rfl
  exact ⟨by decide, by decide, h.trans (by decide)⟩

/-! ## C28: the score bands -/

/-- C28. For every finite score `s`: from 80 on the three functions give 'text-green-400',
'#10b981' and 'Strong Contender'; from 60 on and below 80 they give 'text-yellow-400',
'#f59e0b' and 'Moderate Potential'; below 60 they give 'text-red-400', '#ef4444' and
'Needs Consideration'. They never disagree on the band: one gives the value of a band
exactly when each of the others does. The band is monotone: a score at least as high as a
green one is green, and a score at most as high as a red one is red. -/
theorem C28_score_bands (s t : ℚ) :
    (s ≥ 80 → getScoreColor s = "text-green-400" ∧ getCircleStroke s = "#10b981"
        ∧ getRecommendationText s = "Strong Contender")
    ∧ (60 ≤ s ∧ s < 80 → getScoreColor s = "text-yellow-400" ∧ getCircleStroke s = "#f59e0b"
        ∧ getRecommendationText s = "Moderate Potential")
    ∧ (s < 60 → getScoreColor s = "text-red-400" ∧ getCircleStroke s = "#ef4444"
        ∧ getRecommendationText s = "Needs Consideration")
    ∧ (getScoreColor s = "text-green-400" ↔ getCircleStroke s = "#10b981")
    ∧ (getScoreColor s = "text-green-400" ↔ getRecommendationText s = "Strong Contender")
    ∧ (getScoreColor s = "text-yellow-400" ↔ getCircleStroke s = "#f59e0b")
    ∧ (getScoreColor s = "text-yellow-400" ↔ getRecommendationText s = "Moderate Potential")
    ∧ (getScoreColor s = "text-red-400" ↔ getCircleStroke s = "#ef4444")
    ∧ (getScoreColor s = "text-red-400" ↔ getRecommendationText s = "Needs Consideration")
    ∧ (s ≤ t → getScoreColor s = "text-green-400" → getScoreColor t = "text-green-400")
    ∧ (s ≤ t → getScoreColor t = "text-red-400" → getScoreColor s = "text-red-400")
    ∧ (s ≤ t → getScoreColor s = "text-yellow-400" → getScoreColor t ≠ "text-red-400") := by
  unfold getScoreColor getCircleStroke getRecommendationText
  refine ⟨?_, ?_, ?_, ?_, ?_, ?_, ?_, ?_, ?_, ?_, ?_, ?_⟩
  · intro h
    simp [h]
  · rintro ⟨h1, h2⟩
    have : ¬ s ≥ 80 := not_le.mpr h2
    simp [this, h1]
  · intro h
    have h1 : ¬ s ≥ 80 := by intro h2; linarith
    have h2 : ¬ s ≥ 60 := not_le.mpr h
    simp [h1, h2]
  all_goals
    by_cases h1 : s ≥ 80 <;> by_cases h2 : s ≥ 60 <;>
      by_cases h3 : t ≥ 80 <;> by_cases h4 : t ≥ 60 <;>
      simp [h1, h2, h3, h4] <;> linarith

theorem C28_score_bands_witness :
    (85 : ℚ) ≥ 80 ∧ getScoreColor 85 = "text-green-400"
    ∧ (60 : ℚ) ≤ 72 ∧ (72 : ℚ) < 80 ∧ getRecommendationText 72 = "Moderate Potential"
    ∧ (59 : ℚ) < 60 ∧ getCircleStroke 59 = "#ef4444" :=
  ⟨by norm_num, ((C28_score_bands 85 85).1 (by norm_num)).1,
   by norm_num, by norm_num,
   ((C28_score_bands 72 72).2.1 ⟨by norm_num, by norm_num⟩).2.2,
   by norm_num, ((C28_score_bands 59 59).2.2.1 (by norm_num)).2.1⟩

/-! ## C29: the name on a competitor card -/

/-- C29 (evaluation at the failing input). For the hostname `api.www.example.com`, which
does not start with `www.`, `CompetitorCard` shows `api.example.com`: the string pattern
`'www.'` of `replace` matches the first occurrence wherever it is. The prefix stripping of
`extractRootDomain`, with the anchored pattern `/^www\./`, leaves that hostname as it is,
so the two disagree on it; likewise `mywww.com` is shown as `mycom`. The two do agree on
every hostname that starts with `www.`: both remove that prefix, and only it. -/
theorem C29_inner_www_removed :
    competitorName "api.www.example.com" = "api.example.com"
    ∧ hostnameWithoutWww "api.www.example.com" = "api.www.example.com"
    ∧ competitorName "api.www.example.com" ≠ hostnameWithoutWww "api.www.example.com"
    ∧ competitorName "mywww.com" = "mycom"
    ∧ hostnameWithoutWww "mywww.com" = "mywww.com"
    ∧ competitorName "www.example.com" = "example.com"
    ∧ hostnameWithoutWww "www.example.com" = "example.com"
    ∧ (∀ rest : List Char,
        competitorName (String.mk ('w' :: 'w' :: 'w' :: '.' :: rest)) = String.mk rest
        ∧ hostnameWithoutWww (String.mk ('w' :: 'w' :: 'w' :: '.' :: rest))
            = String.mk rest) := by
  refine ⟨by decide, by decide, by decide, by decide, by decide, by decide, by decide, ?_⟩
  intro rest
  constructor
  · simp [competitorName, replaceFirst]
  · simp [hostnameWithoutWww, replaceWwwPrefix]

/-! ## C15: the stage timer after a settlement -/

theorem timers_cleared (W : World) (h : TimerInv W) : W.clearStageTimer.timers = [] := by
  cases hi : W.intervalRef with
  | none =>
    simp only [World.clearStageTimer, hi]
    apply List.eq_nil_iff_forall_not_mem.mpr
    intro t ht
    have := h.1 t ht
    rw [hi] at this
    cases this
  | some t =>
    simp only [World.clearStageTimer, hi]
    apply List.eq_nil_iff_forall_not_mem.mpr
    intro x hx
    have hx1 := List.mem_filter.mp hx
    have := h.1 x hx1.1
    rw [hi] at this
    have hxt : t = x := Option.some.inj this
    subst hxt
    simp at hx1

theorem timerInv_unchanged (W V : World) (ht : V.timers = W.timers)
    (hi : V.intervalRef = W.intervalRef) (hm : V.requestIdRef = W.requestIdRef)
    (h : TimerInv W) : TimerInv V := by
  unfold TimerInv
  rw [ht, hi, hm]
  exact h

theorem timerInv_cleared (V : World) (ht : V.timers = []) : TimerInv V := by
  unfold TimerInv
  rw [ht]
  exact ⟨fun t ht => (by cases ht), fun _ => rfl⟩

theorem timerInv_started (W V : World) (id : RequestId) (hm : W.requestIdRef = none)
    (ht : V.timers = W.timers ++ [W.nextTimer]) (hi : V.intervalRef = some W.nextTimer)
    (hv : V.requestIdRef = some id) (h : TimerInv W) : TimerInv V := by
  unfold TimerInv
  rw [ht, hi, hv, h.2 hm]
  refine ⟨?_, fun hn => (by cases hn)⟩
  intro t ht
  simp at ht
  rw [ht]

theorem timerInv_resume (W : World) (i : Nat) (r : Run) (o : Settled) (env : Env)
    (hu : r.props.user.isSome = true) (h : TimerInv W) :
    TimerInv (resume W i r o env) := by
  obtain ⟨props, pc⟩ := r
  obtain ⟨u, hu2⟩ := Option.isSome_iff_exists.mp hu
  simp only at hu2
  have hc := timers_cleared W h
  cases hm : W.requestIdRef <;>
  cases pc <;> cases o <;>
    simp only [resume, freshStep, freshCatch, freshFinally, savedCatch, World.finish,
      World.suspend, World.send, hm, hu2] <;>
    (repeat' split) <;>
    first
    | exact h
    | exact timerInv_unchanged W _ rfl rfl rfl h
    | exact timerInv_unchanged W _ rfl rfl hm.symm h
    | exact timerInv_cleared _ hc
    | exact timerInv_started W _ _ hm rfl rfl rfl h

theorem timerInv_reachable (W : World) (h : Reachable W) : TimerInv W := by
  induction h with
  | init => exact timerInv_cleared _ rfl
  | step W e hR ih =>
    cases e with
    | effect p env =>
      simp only [step]
      by_cases hg : (truthyStr p.brand && p.user.isSome) = true
      · have hg2 := hg
        simp only [Bool.and_eq_true] at hg2
        obtain ⟨hb, hu⟩ := hg2
        obtain ⟨u, hu2⟩ := Option.isSome_iff_exists.mp hu
        cases hv : p.isSaved
        · rw [effectRun_fresh W p env u hb hv hu2]
          exact timerInv_unchanged W _ rfl rfl rfl ih
        · rw [effectRun_saved W p env u hb hv hu2]
          exact timerInv_unchanged W _ rfl rfl rfl ih
      · simpa [effectRun, hg] using ih
    | cleanup => exact timerInv_cleared _ (timers_cleared W ih)
    | settle i o env =>
      cases hk : W.runs[i]? with
      | none => simpa [step, hk] using ih
      | some r =>
        rw [step_settle W i r o env hk]
        exact timerInv_resume W i r o env (guarded_reachable W hR i r hk).2 ih
    | tick t =>
      simp only [step]
      split
      · exact timerInv_unchanged W _ rfl rfl rfl ih
      · exact ih

theorem clearStageTimer_intervalRef (W : World) : W.clearStageTimer.intervalRef = none := by
  rw [clearStageTimer_eq]

/-- A settlement of a run inside the fresh-analysis `try`: the run goes on waiting, or
nothing happens, or the run returns with the timer handle null and no timer live. -/
theorem resume_fresh_end (W : World) (i : Nat) (r : Run) (o : Settled) (env : Env)
    (hin : r.pc.inFresh = true) (h : TimerInv W) :
    (∃ pc2, pc2 ≠ .done ∧ (resume W i r o env).runs = W.runs.set i { r with pc := pc2 })
    ∨ resume W i r o env = W
    ∨ ((resume W i r o env).intervalRef = none ∧ (resume W i r o env).timers = []) := by
  obtain ⟨props, pc⟩ := r
  have hc := timers_cleared W h
  cases pc <;> simp [Pc.inFresh] at hin <;> cases o <;>
    simp only [resume, freshCatch, freshFinally, World.finish, World.suspend, World.send] <;>
    (try split_ifs) <;>
    first
    | exact Or.inr (Or.inl (by first | rfl | trivial))
    | exact Or.inl ⟨_, (by simp), rfl⟩
    | exact Or.inr (Or.inr ⟨clearStageTimer_intervalRef W, hc⟩)

/-- C15. In every state the page reaches from mount, every live timer is the stage timer
whose handle is stored in `intervalRef`, and no timer is live while the marker is null.
When a run inside the fresh-analysis `try` receives a settlement after which it has
returned, the handle `intervalRef` is null and no timer is live, so no later tick changes
anything; the same holds after the effect cleanup. The settlements after which the run has
returned are: a rejection at any of its `await`s, an answer with a non-success status other
than 402 and 403, and the parsed body of a success answer, of a 402 or of a 403. -/
theorem C15_stage_timer_cleared (W : World) (hR : Reachable W) :
    (∀ t ∈ W.timers, W.intervalRef = some t)
    ∧ (W.requestIdRef = none → W.timers = [])
    ∧ (∀ (i : Nat) (r : Run) (o : Settled) (env : Env),
        W.runs[i]? = some r → r.pc.inFresh = true →
        (step W (.settle i o env)).runs[i]? = some { r with pc := .done } →
        (step W (.settle i o env)).intervalRef = none
        ∧ (step W (.settle i o env)).timers = []
        ∧ ∀ h, step (step W (.settle i o env)) (.tick h) = step W (.settle i o env))
    ∧ ((step W .cleanup).intervalRef = none ∧ (step W .cleanup).timers = []
        ∧ ∀ h, step (step W .cleanup) (.tick h) = step W .cleanup)
    ∧ (∀ (i : Nat) (r : Run) (env : Env), W.runs[i]? = some r → r.pc.inFresh = true →
        (∀ m, (step W (.settle i (.rejected m) env)).runs[i]? = some { r with pc := .done })
        ∧ (∀ v, r.pc = .freshJson ∨ r.pc = .freshJson402 ∨ r.pc = .freshJson403 →
            (step W (.settle i (.body v) env)).runs[i]? = some { r with pc := .done })
        ∧ (∀ status, r.pc = .freshFetch → status ≠ 402 → status ≠ 403 →
            statusOk status = false →
            (step W (.settle i (.response status) env)).runs[i]?
              = some { r with pc := .done })) := by
  have hT := timerInv_reachable W hR
  have hcl : (step W .cleanup).timers = [] := timers_cleared W hT
  refine ⟨hT.1, hT.2, ?_, ⟨clearStageTimer_intervalRef W, hcl, ?_⟩, ?_⟩
  · intro i r o env hr hin hdone
    rw [step_settle W i r o env hr] at hdone ⊢
    have hlt := lt_of_get _ _ _ hr
    have hend : (resume W i r o env).intervalRef = none ∧ (resume W i r o env).timers = [] := by
      rcases resume_fresh_end W i r o env hin hT with ⟨pc2, hne, hruns⟩ | heq | hok
      · rw [hruns] at hdone
        simp [List.getElem?_set, hlt] at hdone
        exact absurd hdone hne
      · rw [heq, hr] at hdone
        have := Option.some.inj hdone
        obtain ⟨props, pc⟩ := r
        simp only [Run.mk.injEq, true_and] at this
        subst this
        simp [Pc.inFresh] at hin
      · exact hok
    refine ⟨hend.1, hend.2, ?_⟩
    intro h
    simp [step, hend.2]
  · intro h
    simp only [step] at hcl ⊢
    simp [hcl]
  · intro i r env hr hin
    have hlt := lt_of_get _ _ _ hr
    obtain ⟨props, pc⟩ := r
    refine ⟨?_, ?_, ?_⟩
    · intro m
      rw [step_settle W i _ _ env hr]
      cases pc <;> simp [Pc.inFresh] at hin <;>
        simp [resume, freshCatch, freshFinally, World.finish, World.suspend,
          clearStageTimer_eq, List.getElem?_set, hlt]
    · intro v hpc
      rw [step_settle W i _ _ env hr]
      simp only at hpc
      rcases hpc with h | h | h <;> subst h
      · simp only [resume, freshFinally, World.finish, World.suspend]
        split_ifs <;> simp [clearStageTimer_eq, List.getElem?_set, hlt]
      · simp [resume, freshCatch, freshFinally, World.finish, World.suspend,
          clearStageTimer_eq, List.getElem?_set, hlt]
      · simp [resume, freshCatch, freshFinally, World.finish, World.suspend,
          clearStageTimer_eq, List.getElem?_set, hlt]
    · intro status hpc h2 h3 hok
      rw [step_settle W i _ _ env hr]
      simp only at hpc
      subst hpc
      simp [resume, h2, h3, hok, freshCatch, freshFinally, World.finish, World.suspend,
        clearStageTimer_eq, List.getElem?_set, hlt]

theorem C15_stage_timer_cleared_witness :
    Reachable (exec acmeOutstanding [.tick 1, .tick 1])
    ∧ (exec acmeOutstanding [.tick 1, .tick 1]).runs[0]?
        = some { props := acmeFresh, pc := .freshFetch }
    ∧ (exec acmeOutstanding [.tick 1, .tick 1]).intervalRef = some 1
    ∧ (exec acmeOutstanding [.tick 1, .tick 1]).timers = [1]
    ∧ (step (exec acmeOutstanding [.tick 1, .tick 1])
        (.settle 0 (.response 500) laterEnv)).runs[0]?
        = some { props := acmeFresh, pc := .done }
    ∧ (step (exec acmeOutstanding [.tick 1, .tick 1])
        (.settle 0 (.response 500) laterEnv)).intervalRef = none
    ∧ (step (exec acmeOutstanding [.tick 1, .tick 1])
        (.settle 0 (.response 500) laterEnv)).timers = []
    ∧ step (step (exec acmeOutstanding [.tick 1, .tick 1])
          (.settle 0 (.response 500) laterEnv)) (.tick 1)
        = step (exec acmeOutstanding [.tick 1, .tick 1])
            (.settle 0 (.response 500) laterEnv) := by
  have hR : Reachable (exec acmeOutstanding [.tick 1, .tick 1]) :=
    reachable_exec _ _ (reachable_exec _ _ Reachable.init)
  have h := (C15_stage_timer_cleared _ hR).2.2.1 0 { props := acmeFresh, pc := .freshFetch }
    (.response 500) laterEnv (by decide) (by decide) (by decide)
  exact ⟨hR, by decide, by decide, by decide, by decide, h.1, h.2.1, h.2.2 1⟩

/-! ## C3: two triggers in quick succession -/

/-- C3 (counterexample). The effect for Acme was invoked twice in quick succession. Both
runs have found no saved report; the first holds the marker and waits for the token of its
analysis request, the second has reached the fresh-analysis step while the marker was set
and has returned. The `getIdToken()` of the first run then rejects: no request at all has
been sent to the analysis endpoint across both runs, and the page ends Failed with the
message of the rejection. -/
theorem C3_no_request_counterexample :
    acmeFirstWaiting.requestIdRef.isSome = true
    ∧ acmeFirstWaiting.runs
        = [ { props := acmeFresh, pc := .freshToken },
            { props := acmeFresh, pc := .done } ]
    ∧ (step acmeFirstWaiting
        (.settle 0 (.rejected "auth/network-request-failed") laterEnv)).analyzeRequests = []
    ∧ (step acmeFirstWaiting
        (.settle 0 (.rejected "auth/network-request-failed") laterEnv)).sentBy 0 = 0
    ∧ (step acmeFirstWaiting
        (.settle 0 (.rejected "auth/network-request-failed") laterEnv)).sentBy 1 = 0
    ∧ (step acmeFirstWaiting
        (.settle 0 (.rejected "auth/network-request-failed") laterEnv)).runs
        = [ { props := acmeFresh, pc := .done }, { props := acmeFresh, pc := .done } ]
    ∧ (step acmeFirstWaiting
        (.settle 0 (.rejected "auth/network-request-failed") laterEnv)).error
        = some "auth/network-request-failed"
    ∧ (step acmeFirstWaiting
        (.settle 0 (.rejected "auth/network-request-failed") laterEnv)).loading = false := by
  decide

/-- C3 (amended). The page is in a state reached from mount. A first run is inside the
fresh-analysis `try` and the marker is set. A second run, whose silent lookup fails with
`o2`, reaches the fresh-analysis step. Then the second run returns there without changing
anything, and it never sends a request to the analysis endpoint. Whatever settlements
`rest` the first run receives, the page ends exactly as it would have ended without the
second run reaching the step (the second run being finished is the only difference):
analysis, error and loading are those produced by the settlements of the first run. If
the request of the first run is outstanding, or is sent next because the run obtains its
token, exactly one request has been sent to the analysis endpoint across both runs. If
instead the `getIdToken()` of the first run rejects, none has been sent, and the error is
the message of the rejection. -/
theorem C3_two_triggers_amended (W : World) (i j : Nat) (r1 r2 : Run)
    (o2 : Settled) (env2 : Env) (rest : List (Settled × Env))
    (hR : Reachable W)
    (h1 : W.runs[i]? = some r1) (hin : r1.pc.inFresh = true)
    (hm : W.requestIdRef.isSome = true)
    (h2 : W.runs[j]? = some r2) (hf : silentFailure r2.pc o2 = true) :
    step W (.settle j o2 env2) = W.finish j r2
    ∧ exec (step W (.settle j o2 env2)) (rest.map (fun oe => Event.settle i oe.1 oe.2))
        = (exec W (rest.map (fun oe => Event.settle i oe.1 oe.2))).finish j r2
    ∧ (exec (step W (.settle j o2 env2))
        (rest.map (fun oe => Event.settle i oe.1 oe.2))).analysis
        = (exec W (rest.map (fun oe => Event.settle i oe.1 oe.2))).analysis
    ∧ (exec (step W (.settle j o2 env2))
        (rest.map (fun oe => Event.settle i oe.1 oe.2))).error
        = (exec W (rest.map (fun oe => Event.settle i oe.1 oe.2))).error
    ∧ (exec (step W (.settle j o2 env2))
        (rest.map (fun oe => Event.settle i oe.1 oe.2))).loading
        = (exec W (rest.map (fun oe => Event.settle i oe.1 oe.2))).loading
    ∧ (exec (step W (.settle j o2 env2))
        (rest.map (fun oe => Event.settle i oe.1 oe.2))).sentBy j = 0
    ∧ (r1.pc.requestSent = true
        ∨ (r1.pc = .freshToken ∧ ∃ t env rest2, rest = (.token t, env) :: rest2) →
        (exec (step W (.settle j o2 env2))
          (rest.map (fun oe => Event.settle i oe.1 oe.2))).sentBy i = 1)
    ∧ (∀ m env rest2, r1.pc = .freshToken → rest = (.rejected m, env) :: rest2 →
        (exec (step W (.settle j o2 env2))
          (rest.map (fun oe => Event.settle i oe.1 oe.2))).sentBy i = 0
        ∧ (exec (step W (.settle j o2 env2))
          (rest.map (fun oe => Event.settle i oe.1 oe.2))).error
          = some (if m != "" then m
                  else "Failed to analyze brand name. Please try again.")) := by
  have hr2a : r2.pc.requestSent = false := by
    obtain ⟨props, pc⟩ := r2
    cases pc <;> cases o2 <;> simp_all [Pc.requestSent, silentFailure]
  have hr2b : r2.pc ≠ .done := by
    obtain ⟨props, pc⟩ := r2
    cases pc <;> cases o2 <;> simp_all [silentFailure]
  have hr2c : r2.pc.inFresh = false := by
    obtain ⟨props, pc⟩ := r2
    cases pc <;> cases o2 <;> simp_all [Pc.inFresh, silentFailure]
  have hij : i ≠ j := by
    intro h
    subst h
    rw [h1] at h2
    have := Option.some.inj h2
    subst this
    rw [hin] at hr2c
    cases hr2c
  have hstep : step W (.settle j o2 env2) = W.finish j r2 := by
    rw [step_settle W j r2 o2 env2 h2, resume_silentFailure W j r2 o2 env2 hf,
      freshStep_marker_set W j r2 env2 hm]
  have hexec := exec_frame i j r2 .done hij rest W
  have hinv := sentInv_reachable W hR
  have hjW : W.sentBy j = 0 := ((hinv j).2 r2 h2).2 hr2a hr2b
  -- requests to the analysis endpoint are sent by run `i` only while it is settled
  have hsentj : ∀ (rest : List (Settled × Env)) (V : World), V.sentBy j = 0 →
      (exec V (rest.map (fun oe => Event.settle i oe.1 oe.2))).sentBy j = 0 := by
    intro rest
    induction rest with
    | nil => intro V hV; exact hV
    | cons oe rest ih =>
      intro V hV
      rw [List.map_cons, exec_cons]
      apply ih
      cases hk : V.runs[i]? with
      | none => simpa [step, hk] using hV
      | some r =>
        rw [step_settle V i r oe.1 oe.2 hk]
        obtain ⟨pc2, _, hcase⟩ := resume_sent V i r oe.1 oe.2 hk
        rcases hcase with ⟨hreq, _⟩ | ⟨url, t, hreq, _, _, _⟩
        · simpa [World.sentBy, hreq] using hV
        · simp only [World.sentBy, hreq, List.countP_append]
          simp only [World.sentBy] at hV
          rw [hV]
          simp [hij]
  rw [hstep]
  unfold World.finish
  rw [hexec]
  refine ⟨rfl, rfl, rfl, rfl, rfl, ?_, ?_, ?_⟩
  · show World.sentBy (exec W _) j = 0
    exact hsentj rest W hjW
  · intro hs
    show World.sentBy (exec W _) i = 1
    rcases hs with hs | ⟨hs, t, env, rest2, hrest⟩
    · rw [World.sentBy, exec_after_sent i rest W r1 h1 (Or.inl hs)]
      exact ((hinv i).2 r1 h1).1 hs
    · obtain ⟨props, pc⟩ := r1
      simp only at hs
      subst hs
      subst hrest
      have h0 : W.sentBy i = 0 := ((hinv i).2 _ h1).2 rfl (by simp)
      rw [World.sentBy, freshToken_token W i props t env rest2 h1, List.countP_append]
      simp only [World.sentBy] at h0
      rw [h0]
      simp
  · intro m env rest2 hpc hrest
    obtain ⟨props, pc⟩ := r1
    simp only at hpc
    subst hpc
    subst hrest
    have h0 : W.sentBy i = 0 := ((hinv i).2 _ h1).2 rfl (by simp)
    have hrej := freshToken_rejected W i props m env rest2 h1
    constructor
    · show World.sentBy (exec W _) i = 0
      rw [World.sentBy, hrej.1]
      exact h0
    · exact hrej.2

/-- C3 (witness): two runs for Acme started in quick succession; the second finds no
saved report while the request of the first is outstanding, and the first is then
answered 200 with a report. -/
theorem C3_two_triggers_amended_witness :
    Reachable acmeTwice
    ∧ acmeTwice.runs[0]? = some { props := acmeFresh, pc := .freshFetch }
    ∧ acmeTwice.requestIdRef.isSome = true
    ∧ acmeTwice.runs[1]? = some { props := acmeFresh, pc := .silentFetch }
    ∧ silentFailure Pc.silentFetch (.response 404) = true
    ∧ (exec (step acmeTwice (.settle 1 (.response 404) sampleEnv))
        ([(Settled.response 200, sampleEnv),
          (Settled.body (.obj [("overallScore", .num 72)]), sampleEnv)].map
            (fun oe => Event.settle 0 oe.1 oe.2))).sentBy 1 = 0
    ∧ (exec (step acmeTwice (.settle 1 (.response 404) sampleEnv))
        ([(Settled.response 200, sampleEnv),
          (Settled.body (.obj [("overallScore", .num 72)]), sampleEnv)].map
            (fun oe => Event.settle 0 oe.1 oe.2))).sentBy 0 = 1 :=
  ⟨reachable_exec _ _ Reachable.init, by decide, by decide, by decide, by decide,
   (C3_two_triggers_amended acmeTwice 0 1 { props := acmeFresh, pc := .freshFetch }
      { props := acmeFresh, pc := .silentFetch } (.response 404) sampleEnv
      [(Settled.response 200, sampleEnv),
       (Settled.body (.obj [("overallScore", .num 72)]), sampleEnv)]
      (reachable_exec _ _ Reachable.init) (by decide) (by decide) (by decide) (by decide)
      (by decide)).2.2.2.2.2.1,
   (C3_two_triggers_amended acmeTwice 0 1 { props := acmeFresh, pc := .freshFetch }
      { props := acmeFresh, pc := .silentFetch } (.response 404) sampleEnv
      [(Settled.response 200, sampleEnv),
       (Settled.body (.obj [("overallScore", .num 72)]), sampleEnv)]
      (reachable_exec _ _ Reachable.init) (by decide) (by decide) (by decide) (by decide)
      (by decide)).2.2.2.2.2.2.1 (Or.inl rfl)⟩

end Verito
